import Mathlib

/-!
# SVG marker (`src/marker.cpp`): viewport fitting and the view cache

A shallow embedding of `SPMarker` (`set`, `update`, `build`, `write`, `release`,
`bbox`) and of the free functions `sp_marker_show_dimension`,
`sp_marker_show_instance`, `sp_marker_hide`, `sp_marker_view_remove` and
`sp_marker_fork_if_necessary`, followed by `CString::onReadContent`
(`src/sp-string.cpp`) and `PovOutput::doCurve`
(`src/extension/internal/pov-out.cpp`).

Conventions of the embedding.

* `double` and `float` values are rationals.  The arithmetic of `set` and
  `update` is embedded twice: exactly (`set`, `update`), and with every
  operation followed by a rounding `rnd` (`setR`, `updateR`), where
  `roundToDouble` is the rounding to the nearest IEEE 754 double; with the
  identity as rounding the second embedding is the first (`updateR_id`).
  A division whose divisor is zero has no rational value (IEEE 754 yields a NaN
  or an infinity there); it is modelled as a failure of the computation, see
  `fdiv`.
* `unsigned int` keys, sizes and positions are natural numbers; only
  comparisons and loop counts are taken of them.
* A C string is a `List Char`, a nullable `const gchar *` an `Option` of it.
* The singly linked list `SPMarker::views` is a `List`; a pointer to one of its
  cells is the index of the cell.
* Calls into the drawing backend (`prependChild`, `delete`, the parent class
  `hide`) are recorded in a `Drawing` log.
* An XML node is the list of its attributes; the loop of `release` runs on fuel
  and reports the number of its iterations.
* The buffer of the POV-Ray exporter is the sequence of its `out` calls, each a
  format with its arguments; a `Geom::Path` is its starting point, its drawn
  curves and its `closed()` flag.
-/

namespace Marker

/-! ## Geometry (lib2geom types used by the marker code) -/

/-- Modelled from the spec: `Geom::Point`, a pair of coordinates. -/
structure Point where
  x : ℚ
  y : ℚ
  deriving DecidableEq, Repr

/-- Modelled from the spec: `Geom::Affine` (the spec's Transform2D), the six
coefficients `c0 .. c5` of a 2D affine map acting on row vectors. -/
structure Affine where
  c0 : ℚ
  c1 : ℚ
  c2 : ℚ
  c3 : ℚ
  c4 : ℚ
  c5 : ℚ
  deriving DecidableEq, Repr

/-- The identity matrix (`Geom::identity()`, `Affine::setIdentity`). -/
def Affine.identity : Affine := ⟨1, 0, 0, 1, 0, 0⟩

/-- Composition `a * b` of lib2geom: `a` is applied first, then `b`. -/
def Affine.mul (a b : Affine) : Affine :=
  { c0 := a.c0 * b.c0 + a.c1 * b.c2
    c1 := a.c0 * b.c1 + a.c1 * b.c3
    c2 := a.c2 * b.c0 + a.c3 * b.c2
    c3 := a.c2 * b.c1 + a.c3 * b.c3
    c4 := a.c4 * b.c0 + a.c5 * b.c2 + b.c4
    c5 := a.c4 * b.c1 + a.c5 * b.c3 + b.c5 }

instance : Mul Affine := ⟨Affine.mul⟩

/-- Image `p * m` of a point under an affine map. -/
def Affine.apply (m : Affine) (p : Point) : Point :=
  ⟨p.x * m.c0 + p.y * m.c2 + m.c4, p.x * m.c1 + p.y * m.c3 + m.c5⟩

/-- The translation part of a matrix (`Affine::translation`). -/
def Affine.translation (m : Affine) : Point := ⟨m.c4, m.c5⟩

/-- The matrix of `Geom::Translate(tx, ty)`. -/
def Translate (tx ty : ℚ) : Affine := ⟨1, 0, 0, 1, tx, ty⟩

/-- The matrix of `Geom::Scale(sx, sy)`. -/
def Scale (sx sy : ℚ) : Affine := ⟨sx, 0, 0, sy, 0, 0⟩

/-- Modelled from the spec: `Geom::Rect`, an axis-aligned rectangle kept as its
minimum corner `(x0, y0)` and its maximum corner `(x1, y1)`. -/
structure Rect where
  x0 : ℚ
  y0 : ℚ
  x1 : ℚ
  y1 : ℚ
  deriving DecidableEq, Repr

/-- The constructor `Geom::Rect(Point a, Point b)`: the rectangle spanned by two
points; lib2geom orders the two coordinates of each axis. -/
def Rect.ofPoints (a b : Point) : Rect :=
  ⟨min a.x b.x, min a.y b.y, max a.x b.x, max a.y b.y⟩

/-- The function `Geom::Rect::from_xywh`. -/
def Rect.from_xywh (x y w h : ℚ) : Rect := Rect.ofPoints ⟨x, y⟩ ⟨x + w, y + h⟩

/-- The width `Rect::width()`. -/
def Rect.width (r : Rect) : ℚ := r.x1 - r.x0

/-- The height `Rect::height()`. -/
def Rect.height (r : Rect) : ℚ := r.y1 - r.y0

/-- The corner `Rect::min()`. -/
def Rect.minPt (r : Rect) : Point := ⟨r.x0, r.y0⟩

/-- The corner `Rect::max()`. -/
def Rect.maxPt (r : Rect) : Point := ⟨r.x1, r.y1⟩

/-- Division of two doubles.  Exact on rationals; a zero divisor is a failure. -/
def fdiv (a b : ℚ) : Option ℚ := if b = 0 then none else some (a / b)

/-- The glib macro `MIN(a, b)`, `((a) < (b)) ? (a) : (b)`. -/
def MIN (a b : ℚ) : ℚ := if a < b then a else b

/-- The glib macro `MAX(a, b)`, `((a) > (b)) ? (a) : (b)`. -/
def MAX (a b : ℚ) : ℚ := if a > b then a else b

/-! ## Constants -/

/-- Value of `markerUnits` for `strokeWidth`. -/
def SP_MARKER_UNITS_STROKEWIDTH : Nat := 0
/-- Value of `markerUnits` for `userSpaceOnUse`. -/
def SP_MARKER_UNITS_USERSPACEONUSE : Nat := 1

/-- Alignment `none`. -/
def SP_ASPECT_NONE : Nat := 0
/-- Alignment `xMinYMin`. -/
def SP_ASPECT_XMIN_YMIN : Nat := 1
/-- Alignment `xMidYMin`. -/
def SP_ASPECT_XMID_YMIN : Nat := 2
/-- Alignment `xMaxYMin`. -/
def SP_ASPECT_XMAX_YMIN : Nat := 3
/-- Alignment `xMinYMid`. -/
def SP_ASPECT_XMIN_YMID : Nat := 4
/-- Alignment `xMidYMid`. -/
def SP_ASPECT_XMID_YMID : Nat := 5
/-- Alignment `xMaxYMid`. -/
def SP_ASPECT_XMAX_YMID : Nat := 6
/-- Alignment `xMinYMax`. -/
def SP_ASPECT_XMIN_YMAX : Nat := 7
/-- Alignment `xMidYMax`. -/
def SP_ASPECT_XMID_YMAX : Nat := 8
/-- Alignment `xMaxYMax`. -/
def SP_ASPECT_XMAX_YMAX : Nat := 9

/-- Clip mode `meet`. -/
def SP_ASPECT_MEET : Nat := 0
/-- Clip mode `slice`. -/
def SP_ASPECT_SLICE : Nat := 1

/-- Update flag `SP_OBJECT_MODIFIED_FLAG`. -/
def SP_OBJECT_MODIFIED_FLAG : Nat := 1
/-- Update flag `SP_OBJECT_VIEWPORT_MODIFIED_FLAG`. -/
def SP_OBJECT_VIEWPORT_MODIFIED_FLAG : Nat := 16

/-- The attribute keys `SPMarker::set` switches on; every other key is `SP_ATTR_OTHER`. -/
inductive SPAttr where
  | SP_ATTR_MARKERUNITS
  | SP_ATTR_REFX
  | SP_ATTR_REFY
  | SP_ATTR_MARKERWIDTH
  | SP_ATTR_MARKERHEIGHT
  | SP_ATTR_ORIENT
  | SP_ATTR_VIEWBOX
  | SP_ATTR_PRESERVEASPECTRATIO
  | SP_ATTR_OTHER (code : Nat)
  deriving DecidableEq, Repr

open SPAttr

/-! ## Data model -/

/-- The fields of `SVGLength` the marker code reads and writes. -/
structure SVGLength where
  _set : Bool
  unit : Nat
  value : ℚ
  computed : ℚ
  deriving DecidableEq, Repr

/-- Unit `SVGLength::NONE`. -/
def SVGLength.NONE : Nat := 0

/-- A default constructed `SVGLength`. -/
def SVGLength.new : SVGLength := ⟨false, SVGLength.NONE, 0, 0⟩

/-- A render-instance handle, the `Inkscape::DrawingGroup` built by the parent
class `show`: its identity, its child transform and its own transform. -/
structure DrawingItem where
  id : Nat
  childTransform : Affine
  transform : Affine
  deriving DecidableEq, Repr

/-- The record `SPMarkerView` (its `next` pointer is the tail of the list). -/
structure SPMarkerView where
  key : Nat
  items : List (Option DrawingItem)
  deriving DecidableEq, Repr

/-- The fields of `SPMarker`, together with the log of `requestDisplayUpdate`
calls (most recent first). -/
structure SPMarker where
  markerUnits_set : Bool
  markerUnits : Nat
  refX : SVGLength
  refY : SVGLength
  markerWidth : SVGLength
  markerHeight : SVGLength
  orient_set : Bool
  orient_auto : Bool
  orient : ℚ
  viewBox : Option Rect
  aspect_set : Bool
  aspect_align : Nat
  aspect_clip : Nat
  c2p : Affine
  views : List SPMarkerView
  requests : List Nat
  deriving DecidableEq, Repr

/-- Calls into the drawing backend: `prependChild (parent, item)`, `delete item`
and the parent class `hide (key)`, each most recent first. -/
structure Drawing where
  prepended : List (Nat × Nat)
  destroyed : List Nat
  hidden : List Nat
  deriving DecidableEq, Repr

/-- A backend on which nothing was called yet. -/
def Drawing.empty : Drawing := ⟨[], [], []⟩

/-- Library functions the marker code calls and whose code is outside this
file: `g_ascii_strtod` (value and rest of the string), `SVGLength::read`
(unit, value, computed on success), `sp_svg_number_read_f` and
`Geom::Rotate::from_degrees`. -/
structure Extern where
  g_ascii_strtod : List Char → ℚ × List Char
  lengthRead : List Char → Option (Nat × ℚ × ℚ)
  sp_svg_number_read_f : List Char → Option ℚ
  from_degrees : ℚ → Affine

/-- The constructor `SPMarker::SPMarker()`. -/
def SPMarker.new : SPMarker :=
  { markerUnits_set := false
    markerUnits := 0
    refX := SVGLength.new
    refY := SVGLength.new
    markerWidth := SVGLength.new
    markerHeight := SVGLength.new
    orient_set := false
    orient_auto := false
    orient := 0
    viewBox := none
    aspect_set := false
    aspect_align := 0
    aspect_clip := 0
    c2p := Affine.identity
    views := []
    requests := [] }

/-! ## `SPMarker::set` -/

/-- The call `requestDisplayUpdate(flags)`, recorded in the log. -/
def SPMarker.requestDisplayUpdate (m : SPMarker) (flags : Nat) : SPMarker :=
  { m with requests := flags :: m.requests }

/-- Modelled from the spec: `SVGLength::readOrUnset(str, unit, value, computed)`,
which stores what `SVGLength::read` parsed and otherwise (absent or malformed
value) unsets the length to the given defaults. -/
def SVGLength.readOrUnset (ext : Extern) (str : Option (List Char)) (u : Nat) (v c : ℚ) :
    SVGLength :=
  match str.bind ext.lengthRead with
  | some (u1, v1, c1) => ⟨true, u1, v1, c1⟩
  | none => ⟨false, u, v, c⟩

/-- The loop `while (*eptr && ((*eptr == ',') || (*eptr == ' '))) eptr++`. -/
def skipSep : List Char → List Char
  | [] => []
  | c :: cs => if c = ',' ∨ c = ' ' then skipSep cs else c :: cs

/-- The four numbers read by the `SP_ATTR_VIEWBOX` case, in order `x, y, width, height`. -/
def viewBoxFields (ext : Extern) (value : List Char) : ℚ × ℚ × ℚ × ℚ :=
  let r1 := ext.g_ascii_strtod value
  let r2 := ext.g_ascii_strtod (skipSep r1.2)
  let r3 := ext.g_ascii_strtod (skipSep r2.2)
  let r4 := ext.g_ascii_strtod (skipSep r3.2)
  (r1.1, r2.1, r3.1, r4.1)

/-- The body of the `SP_ATTR_VIEWBOX` case: the value the field `viewBox` gets. -/
def readViewBox (ext : Extern) (value : Option (List Char)) : Option Rect :=
  match value with
  | none => none
  | some v =>
    let f := viewBoxFields ext v
    let x := f.1
    let y := f.2.1
    let width := f.2.2.1
    let height := f.2.2.2
    if width > 0 ∧ height > 0 then
      some (Rect.ofPoints ⟨x, y⟩ ⟨x + width, y + height⟩)
    else none

/-- The chain of `strcmp (c, ...)` tests on the alignment word. -/
def alignOfWord (c : List Char) : Option Nat :=
  if c = "none".toList then some SP_ASPECT_NONE
  else if c = "xMinYMin".toList then some SP_ASPECT_XMIN_YMIN
  else if c = "xMidYMin".toList then some SP_ASPECT_XMID_YMIN
  else if c = "xMaxYMin".toList then some SP_ASPECT_XMAX_YMIN
  else if c = "xMinYMid".toList then some SP_ASPECT_XMIN_YMID
  else if c = "xMidYMid".toList then some SP_ASPECT_XMID_YMID
  else if c = "xMaxYMid".toList then some SP_ASPECT_XMAX_YMID
  else if c = "xMinYMax".toList then some SP_ASPECT_XMIN_YMAX
  else if c = "xMidYMax".toList then some SP_ASPECT_XMID_YMAX
  else if c = "xMaxYMax".toList then some SP_ASPECT_XMAX_YMAX
  else none

/-- The parsing part of the `SP_ATTR_PRESERVEASPECTRATIO` case for a non-null
value: `some (align, clip)` when the three final assignments are reached, `none`
when the code leaves through one of its `break`s.  The word handed to `strcmp` is
the first `len` characters of `value` itself (`memcpy (c, value, len)`). -/
def readAspect (value : List Char) : Option (Nat × Nat) :=
  let p := value.dropWhile (fun ch => ch = ' ')
  if p = [] then none
  else
    let e := p.dropWhile (fun ch => ch ≠ ' ')
    let len := p.length - e.length
    if len > 8 then none
    else
      let c := value.take len
      match alignOfWord c with
      | none => none
      | some align =>
        let e1 := e.dropWhile (fun ch => ch = ' ')
        if e1 = [] then some (align, SP_ASPECT_MEET)
        else if e1 = "meet".toList then some (align, SP_ASPECT_MEET)
        else if e1 = "slice".toList then some (align, SP_ASPECT_SLICE)
        else none

/-- The method `SPMarker::set(key, value)`. -/
def SPMarker.set (ext : Extern) (m : SPMarker) (key : SPAttr) (value : Option (List Char)) :
    SPMarker :=
  match key with
  | SP_ATTR_MARKERUNITS =>
    let m1 := { m with markerUnits_set := false, markerUnits := SP_MARKER_UNITS_STROKEWIDTH }
    let m2 :=
      match value with
      | none => m1
      | some v =>
        if v = "strokeWidth".toList then { m1 with markerUnits_set := true }
        else if v = "userSpaceOnUse".toList then
          { m1 with markerUnits := SP_MARKER_UNITS_USERSPACEONUSE, markerUnits_set := true }
        else m1
    m2.requestDisplayUpdate (SP_OBJECT_MODIFIED_FLAG ||| SP_OBJECT_VIEWPORT_MODIFIED_FLAG)
  | SP_ATTR_REFX =>
    ({ m with refX := SVGLength.readOrUnset ext value SVGLength.NONE 0 0 }).requestDisplayUpdate
      SP_OBJECT_MODIFIED_FLAG
  | SP_ATTR_REFY =>
    ({ m with refY := SVGLength.readOrUnset ext value SVGLength.NONE 0 0 }).requestDisplayUpdate
      SP_OBJECT_MODIFIED_FLAG
  | SP_ATTR_MARKERWIDTH =>
    ({ m with markerWidth := SVGLength.readOrUnset ext value SVGLength.NONE 3 3
      }).requestDisplayUpdate SP_OBJECT_MODIFIED_FLAG
  | SP_ATTR_MARKERHEIGHT =>
    ({ m with markerHeight := SVGLength.readOrUnset ext value SVGLength.NONE 3 3
      }).requestDisplayUpdate SP_OBJECT_MODIFIED_FLAG
  | SP_ATTR_ORIENT =>
    let m1 := { m with orient_set := false, orient_auto := false, orient := 0 }
    let m2 :=
      match value with
      | none => m1
      | some v =>
        if v = "auto".toList then { m1 with orient_auto := true, orient_set := true }
        else
          match ext.sp_svg_number_read_f v with
          | some a => { m1 with orient := a, orient_set := true }
          | none => m1
    m2.requestDisplayUpdate SP_OBJECT_MODIFIED_FLAG
  | SP_ATTR_VIEWBOX =>
    ({ m with viewBox := readViewBox ext value }).requestDisplayUpdate
      (SP_OBJECT_MODIFIED_FLAG ||| SP_OBJECT_VIEWPORT_MODIFIED_FLAG)
  | SP_ATTR_PRESERVEASPECTRATIO =>
    let m1 := { m with aspect_set := false, aspect_align := SP_ASPECT_NONE,
                       aspect_clip := SP_ASPECT_MEET }
    let m2 := m1.requestDisplayUpdate
      (SP_OBJECT_MODIFIED_FLAG ||| SP_OBJECT_VIEWPORT_MODIFIED_FLAG)
    match value.bind readAspect with
    | none => m2
    | some (align, clip) =>
      { m2 with aspect_set := true, aspect_align := align, aspect_clip := clip }
  | SP_ATTR_OTHER _ => m

/-- A sequence of `set` calls, first call first. -/
def SPMarker.setAll (ext : Extern) (m : SPMarker) (calls : List (SPAttr × Option (List Char))) :
    SPMarker :=
  calls.foldl (fun st c => SPMarker.set ext st c.1 c.2) m

/-! ## `SPMarker::update` -/

/-- The inner statement of the last loop of `update`: a non-null item gets the
child transform, a null slot is skipped. -/
def setChildTransformSlot (c2p : Affine) (slot : Option DrawingItem) : Option DrawingItem :=
  match slot with
  | none => none
  | some g => some { g with childTransform := c2p }

/-- The rectangle `rctx.viewport` of `update`. -/
def SPMarker.viewport (m : SPMarker) : Rect :=
  Rect.from_xywh 0 0 m.markerWidth.computed m.markerHeight.computed

/-- The rectangle `vb` of `update`: the viewBox when set, else the viewport. -/
def SPMarker.vb (m : SPMarker) : Rect :=
  match m.viewBox with
  | some r => r
  | none => m.viewport

/-- The end of `update`: the assignment to `this->c2p` and the final loop over
the views, which hands the matrix to every non-null item. -/
def SPMarker.storeC2p (m : SPMarker) (c2p : Affine) : SPMarker :=
  { m with
    c2p := c2p
    views := m.views.map (fun v => { v with items := v.items.map (setChildTransformSlot c2p) }) }

/-- The method `SPMarker::update`: the matrix `c2p` is recomputed from the
attribute fields and pushed to every non-null item of every view.  The result is
`none` when one of the divisions has a zero divisor. -/
def SPMarker.update (m : SPMarker) : Option SPMarker := do
  let viewport := m.viewport
  let vb := m.vb
  let wh ←
    if m.aspect_align = SP_ASPECT_NONE then
      some (viewport.width, viewport.height)
    else do
      let scalex ← fdiv viewport.width vb.width
      let scaley ← fdiv viewport.height vb.height
      let scale := if m.aspect_clip = SP_ASPECT_MEET then MIN scalex scaley else MAX scalex scaley
      some (vb.width * scale, vb.height * scale)
  let sx ← fdiv wh.1 vb.width
  let sy ← fdiv wh.2 vb.height
  let c2p := Translate (-m.refX.computed) (-m.refY.computed) * Scale sx sy
  some (m.storeC2p c2p)

/-! ## The view cache -/

/-- The items deleted by the loop `delete view->items[i]`: the non-null slots. -/
def handlesOf (items : List (Option DrawingItem)) : List Nat :=
  items.filterMap (fun s => s.map (fun g => g.id))

/-- The function `sp_marker_view_remove (marker, view, destroyitems)`; `view` is
the position of the cell in `marker->views`.  The cell is unlinked, its items are
deleted when `destroyitems` is set; a cell that is not in the list is left alone. -/
def sp_marker_view_remove (marker : SPMarker) (d : Drawing) (view : Nat) (destroyitems : Bool) :
    SPMarker × Drawing :=
  match marker.views[view]? with
  | none => (marker, d)
  | some v =>
    ({ marker with views := marker.views.eraseIdx view },
     if destroyitems then { d with destroyed := (handlesOf v.items).reverse ++ d.destroyed } else d)

/-- The search loop `for (view = marker->views; view != NULL; view = view->next)
if (view->key == key) break;`: the position of the first view with that key. -/
def findView : List SPMarkerView → Nat → Option Nat
  | [], _ => none
  | v :: vs, key => if v.key = key then some 0 else (findView vs key).map (fun i => i + 1)

/-- The parent class `hide (key)` reached through `marker->hide (key)`. -/
def Drawing.hide (d : Drawing) (key : Nat) : Drawing := { d with hidden := key :: d.hidden }

/-- The function `sp_marker_show_dimension (marker, key, size)`.  `found` is the
pointer `view` after the search loop and after the block that frees a view of a
different size and resets the pointer to NULL. -/
def sp_marker_show_dimension (marker : SPMarker) (d : Drawing) (key size : Nat) :
    SPMarker × Drawing :=
  let st : (SPMarker × Drawing) × Option Nat :=
    match findView marker.views key with
    | none => ((marker, d), none)
    | some i =>
      if (marker.views[i]?).map (fun v => v.items.length) ≠ some size then
        (sp_marker_view_remove marker (d.hide key) i true, none)
      else ((marker, d), some i)
  let found := st.2
  match found with
  | none =>
    ({ st.1.1 with views := { key := key, items := List.replicate size none } :: st.1.1.views },
     st.1.2)
  | some _ => st.1

/-- The body of the loop of `sp_marker_show_instance` on the view `v` whose key
matched; the result is the returned item, the view afterwards and the backend log
afterwards.  `shown` is what the parent class `show` returns when it is called. -/
def showInstanceAt (ext : Extern) (marker : SPMarker) (shown : Option DrawingItem)
    (parent pos : Nat) (base : Affine) (linewidth : ℚ) (d : Drawing) (v : SPMarkerView) :
    Option DrawingItem × SPMarkerView × Drawing :=
  if pos ≥ v.items.length then (none, v, d)
  else
    let cur : Option DrawingItem := (v.items[pos]?).join
    let made : Option DrawingItem × Drawing :=
      match cur with
      | some it => (some it, d)
      | none =>
        match shown with
        | some it =>
          (some { it with childTransform := marker.c2p },
           { d with prepended := (parent, it.id) :: d.prepended })
        | none => (none, d)
    let placed : Option DrawingItem :=
      match made.1 with
      | none => none
      | some it =>
        let m0 : Affine :=
          if marker.orient_auto then base
          else ext.from_degrees marker.orient * Translate base.translation.x base.translation.y
        let m1 : Affine :=
          if marker.markerUnits = SP_MARKER_UNITS_STROKEWIDTH then Scale linewidth linewidth * m0
          else m0
        some { it with transform := m1 }
    (placed, { v with items := v.items.set pos placed }, made.2)

/-- The loop `for (v = marker->views; v != NULL; v = v->next) if (v->key == key) ...`
of `sp_marker_show_instance`: the first view with the key is handled and the
function returns; without such a view the result is NULL. -/
def showInstanceLoop (ext : Extern) (marker : SPMarker) (shown : Option DrawingItem)
    (parent key pos : Nat) (base : Affine) (linewidth : ℚ) (d : Drawing) :
    List SPMarkerView → Option DrawingItem × List SPMarkerView × Drawing
  | [] => (none, [], d)
  | v :: vs =>
    if v.key = key then
      let r := showInstanceAt ext marker shown parent pos base linewidth d v
      (r.1, r.2.1 :: vs, r.2.2)
    else
      let r := showInstanceLoop ext marker shown parent key pos base linewidth d vs
      (r.1, v :: r.2.1, r.2.2)

/-- The function `sp_marker_show_instance (marker, parent, key, pos, base, linewidth)`. -/
def sp_marker_show_instance (ext : Extern) (marker : SPMarker) (d : Drawing)
    (shown : Option DrawingItem) (parent key pos : Nat) (base : Affine) (linewidth : ℚ) :
    Option DrawingItem × SPMarker × Drawing :=
  if marker.markerUnits = SP_MARKER_UNITS_STROKEWIDTH ∧ linewidth = 0 then (none, marker, d)
  else
    let r := showInstanceLoop ext marker shown parent key pos base linewidth d marker.views
    (r.1, { marker with views := r.2.1 }, r.2.2)

/-- The function `sp_marker_hide (marker, key)`. -/
def sp_marker_hide (marker : SPMarker) (d : Drawing) (key : Nat) : SPMarker × Drawing :=
  match findView marker.views key with
  | some i => sp_marker_view_remove marker (d.hide key) i true
  | none => (marker, d)

/-- The arguments of one `sp_marker_show_instance` call. -/
structure ShowCall where
  shown : Option DrawingItem
  parent : Nat
  key : Nat
  pos : Nat
  base : Affine
  linewidth : ℚ

/-- A sequence of `sp_marker_show_instance` calls, first call first; the returned
items are dropped. -/
def showAll (ext : Extern) (st : SPMarker × Drawing) (calls : List ShowCall) :
    SPMarker × Drawing :=
  calls.foldl
    (fun acc c =>
      (sp_marker_show_instance ext acc.1 acc.2 c.shown c.parent c.key c.pos c.base
        c.linewidth).2)
    st

/-- The view a lookup by key reaches: the first view of the list with that key. -/
def viewOf : List SPMarkerView → Nat → Option SPMarkerView
  | [], _ => none
  | v :: vs, key => if v.key = key then some v else viewOf vs key

/-- The content `v->items[pos]` of slot `pos` of the view reached by `key`. -/
def slotAt (views : List SPMarkerView) (key pos : Nat) : Option DrawingItem :=
  match viewOf views key with
  | none => none
  | some v => (v.items[pos]?).join

/-- The items a sequence of `sp_marker_show_instance` calls returns, each with
the key of its call, in the order of the calls. -/
def showAllReturned (ext : Extern) (st : SPMarker × Drawing) :
    List ShowCall → List (Nat × Option DrawingItem)
  | [] => []
  | c :: cs =>
    (c.key, (sp_marker_show_instance ext st.1 st.2 c.shown c.parent c.key c.pos c.base
      c.linewidth).1) ::
    showAllReturned ext
      (sp_marker_show_instance ext st.1 st.2 c.shown c.parent c.key c.pos c.base c.linewidth).2 cs

/-- The items held under a key: the non-null slots of the view the key reaches. -/
def handlesUnder (views : List SPMarkerView) (key : Nat) : List Nat :=
  match viewOf views key with
  | none => []
  | some v => handlesOf v.items

/-! ## Concrete instances used to evaluate the operations -/

/-- Value of a run of decimal digits read left to right, with the unread rest. -/
def readDigits : ℚ → List Char → ℚ × List Char
  | acc, [] => (acc, [])
  | acc, c :: cs =>
    if c.isDigit then readDigits (acc * 10 + ((c.toNat - 48 : Nat) : ℚ)) cs else (acc, c :: cs)

/-- A reader of signed decimal integers with the interface of `g_ascii_strtod`:
the value and the unread rest; when no digit can be read the value is 0 and
nothing is consumed. -/
def readDecimal (s : List Char) : ℚ × List Char :=
  match s with
  | '-' :: c :: cs =>
    if c.isDigit then ((- (readDigits 0 (c :: cs)).1), (readDigits 0 (c :: cs)).2) else (0, s)
  | c :: cs => if c.isDigit then readDigits 0 (c :: cs) else (0, s)
  | [] => (0, s)

/-- Rotation matrices of the right angles, where sine and cosine are rational;
the examples use no other angle. -/
def rightAngleRotation (deg : ℚ) : Affine :=
  if deg = 90 then ⟨0, 1, -1, 0, 0, 0⟩
  else if deg = 180 then ⟨-1, 0, 0, -1, 0, 0⟩
  else if deg = 270 then ⟨0, -1, 1, 0, 0, 0⟩
  else Affine.identity

/-- An instance of the library functions that reads plain decimal integers
(a number followed by nothing else, for the two `read` functions). -/
def decimalExtern : Extern :=
  { g_ascii_strtod := readDecimal
    lengthRead := fun s =>
      if (readDecimal s).2 = [] ∧ s ≠ [] then some (SVGLength.NONE, (readDecimal s).1, (readDecimal s).1)
      else none
    sp_svg_number_read_f := fun s =>
      if (readDecimal s).2 = [] ∧ s ≠ [] then some (readDecimal s).1 else none
    from_degrees := rightAngleRotation }

/-- A marker with the given declared size, viewBox and aspect fields, every
other field as constructed. -/
def SPMarker.sized (mw mh : ℚ) (vb : Option Rect) (align clip : Nat) : SPMarker :=
  { SPMarker.new with
    markerWidth := ⟨true, SVGLength.NONE, mw, mw⟩
    markerHeight := ⟨true, SVGLength.NONE, mh, mh⟩
    viewBox := vb
    aspect_align := align
    aspect_clip := clip }

/-- The scale factors `update` ends with, as a function of the fields. -/
def SPMarker.fitScale (m : SPMarker) : ℚ × ℚ :=
  let scaleX := m.viewport.width / m.vb.width
  let scaleY := m.viewport.height / m.vb.height
  if m.aspect_align = SP_ASPECT_NONE then (scaleX, scaleY)
  else if m.aspect_clip = SP_ASPECT_MEET then (min scaleX scaleY, min scaleX scaleY)
  else (max scaleX scaleY, max scaleX scaleY)

/-- The loop `while (this->views) { SPGroup::hide (this->views->key);
sp_marker_view_remove (this, this->views, TRUE); }` of `SPMarker::release`, run
for at most `fuel` iterations; the result carries the number of iterations made
and is `none` when the fuel ends before the list of views is empty. -/
def releaseLoop : Nat → SPMarker → Drawing → Option (SPMarker × Drawing × Nat)
  | 0, m, d =>
    match m.views with
    | [] => some (m, d, 0)
    | _ :: _ => none
  | fuel + 1, m, d =>
    match m.views with
    | [] => some (m, d, 0)
    | v :: _ =>
      (releaseLoop fuel (sp_marker_view_remove m (d.hide v.key) 0 true).1
        (sp_marker_view_remove m (d.hide v.key) 0 true).2).map
        (fun r => (r.1, r.2.1, r.2.2 + 1))

/-- The method `SPMarker::release`: its loop, then the parent class `release`,
which does not touch the fields of the marker. -/
def SPMarker.release (fuel : Nat) (m : SPMarker) (d : Drawing) : Option (SPMarker × Drawing × Nat) :=
  releaseLoop fuel m d

/-- The method `SPMarker::bbox (transform, type)`: always the empty `OptRect`. -/
def SPMarker.bbox (_m : SPMarker) (_transform : Affine) (_type : Nat) : Option Rect := none

/-- The matrix `update` computes, as a function of the attribute fields it
reads: declared size, viewBox, aspect fields and reference point. -/
def fitC2p (mw mh : ℚ) (viewBox : Option Rect) (align clip : Nat) (rx ry : ℚ) : Option Affine := do
  let viewport := Rect.from_xywh 0 0 mw mh
  let vb := match viewBox with
    | some r => r
    | none => viewport
  let wh ←
    if align = SP_ASPECT_NONE then
      some (viewport.width, viewport.height)
    else do
      let scalex ← fdiv viewport.width vb.width
      let scaley ← fdiv viewport.height vb.height
      let scale := if clip = SP_ASPECT_MEET then MIN scalex scaley else MAX scalex scaley
      some (vb.width * scale, vb.height * scale)
  let sx ← fdiv wh.1 vb.width
  let sy ← fdiv wh.2 vb.height
  some (Translate (-rx) (-ry) * Scale sx sy)

/-! ## XML nodes, `SPMarker::build` and `SPMarker::write` -/

/-- Modelled from the spec: an AttributeNode (`Inkscape::XML::Node`), reduced to
its attributes, name and value, at most one value per name. -/
structure Node where
  attrs : List (String × List Char)
  deriving DecidableEq, Repr

/-- Modelled from the spec: `node.attribute(key) -> value|absent`. -/
def lookupAttr (key : String) : List (String × List Char) → Option (List Char)
  | [] => none
  | a :: as => if a.1 = key then some a.2 else lookupAttr key as

/-- Modelled from the spec: `node.attribute(key) -> value|absent`, on a node. -/
def Node.attribute (n : Node) (key : String) : Option (List Char) := lookupAttr key n.attrs

/-- The attributes of a node without the one named `key`. -/
def dropAttr (key : String) : List (String × List Char) → List (String × List Char)
  | [] => []
  | a :: as => if a.1 = key then dropAttr key as else a :: dropAttr key as

/-- Modelled from the spec: `node.setAttribute(key, value|absent)`; an absent
value (NULL) removes the attribute. -/
def Node.setAttribute (n : Node) (key : String) (value : Option (List Char)) : Node :=
  match value with
  | none => ⟨dropAttr key n.attrs⟩
  | some v => ⟨(key, v) :: dropAttr key n.attrs⟩

/-- The method `SPMarker::build`: the eight `readAttr` calls, each handing the
current value of the attribute to `set`; the parent class `build` follows. -/
def SPMarker.build (ext : Extern) (m : SPMarker) (repr : Node) : SPMarker :=
  let m1 := m.set ext SP_ATTR_MARKERUNITS (repr.attribute "markerUnits")
  let m2 := m1.set ext SP_ATTR_REFX (repr.attribute "refX")
  let m3 := m2.set ext SP_ATTR_REFY (repr.attribute "refY")
  let m4 := m3.set ext SP_ATTR_MARKERWIDTH (repr.attribute "markerWidth")
  let m5 := m4.set ext SP_ATTR_MARKERHEIGHT (repr.attribute "markerHeight")
  let m6 := m5.set ext SP_ATTR_ORIENT (repr.attribute "orient")
  let m7 := m6.set ext SP_ATTR_VIEWBOX (repr.attribute "viewBox")
  m7.set ext SP_ATTR_PRESERVEASPECTRATIO (repr.attribute "preserveAspectRatio")

/-- The number printers `write` calls: the text `sp_repr_set_svg_double` and
`sp_repr_set_css_double` store for a value. -/
structure Printer where
  svgDouble : ℚ → List Char
  cssDouble : ℚ → List Char

/-- Write flag `SP_OBJECT_WRITE_BUILD`. -/
def SP_OBJECT_WRITE_BUILD : Nat := 1

/-- The method `SPMarker::write (xml_doc, repr, flags)`.  `own` is the node of
the marker itself (`this->getRepr()`), `repr` the target, NULL when absent; the
result is the target node afterwards, `none` when the target is NULL and no
element is created for it. -/
def SPMarker.write (pr : Printer) (m : SPMarker) (own : Node) (repr : Option Node) (flags : Nat) :
    Option Node :=
  let target : Option Node :=
    if flags &&& SP_OBJECT_WRITE_BUILD ≠ 0 ∧ repr = none then some ⟨[]⟩ else repr
  match target with
  | none => none
  | some r0 =>
    let r1 :=
      if m.markerUnits_set then
        if m.markerUnits = SP_MARKER_UNITS_STROKEWIDTH then
          r0.setAttribute "markerUnits" (some "strokeWidth".toList)
        else r0.setAttribute "markerUnits" (some "userSpaceOnUse".toList)
      else r0.setAttribute "markerUnits" none
    let r2 :=
      if m.refX._set then r1.setAttribute "refX" (some (pr.svgDouble m.refX.computed))
      else r1.setAttribute "refX" none
    let r3 :=
      if m.refY._set then r2.setAttribute "refY" (some (pr.svgDouble m.refY.computed))
      else r2.setAttribute "refY" none
    let r4 :=
      if m.markerWidth._set then
        r3.setAttribute "markerWidth" (some (pr.svgDouble m.markerWidth.computed))
      else r3.setAttribute "markerWidth" none
    let r5 :=
      if m.markerHeight._set then
        r4.setAttribute "markerHeight" (some (pr.svgDouble m.markerHeight.computed))
      else r4.setAttribute "markerHeight" none
    let r6 :=
      if m.orient_set then
        if m.orient_auto then r5.setAttribute "orient" (some "auto".toList)
        else r5.setAttribute "orient" (some (pr.cssDouble m.orient))
      else r5.setAttribute "orient" none
    let r7 := r6.setAttribute "viewBox" (own.attribute "viewBox")
    some (r7.setAttribute "preserveAspectRatio" (own.attribute "preserveAspectRatio"))

/-! ## `sp_marker_fork_if_necessary` -/

/-- The parts of the `SPObject` of a marker that `sp_marker_fork_if_necessary`
reads and writes: the reference count and the node. -/
structure SPObject where
  hrefcount : Nat
  repr : Node
  deriving DecidableEq, Repr

/-- The document as seen by the fork: the children of the node of `defs`, first
child first. -/
structure Document where
  defs : List Node
  deriving DecidableEq, Repr

/-- The stored boolean preferences, by path. -/
structure Preferences where
  entries : List (String × Bool)
  deriving DecidableEq, Repr

/-- The call `prefs->getBool (path, def)`: the stored value, or the default. -/
def Preferences.getBool (prefs : Preferences) (path : String) (dflt : Bool) : Bool :=
  match prefs.entries.find? (fun e => e.1 = path) with
  | some e => e.2
  | none => dflt

/-- The object `sp_marker_fork_if_necessary` returns: the marker it was given,
or the object the document built for the duplicated node. -/
inductive Forked where
  | original
  | duplicate
  deriving DecidableEq, Repr

/-- The function `sp_marker_fork_if_necessary (marker)`.  `docAdd` is what the
document makes of a node that is added to it (it may give it a new `id`); the
result is the returned object, the marker and the document afterwards. -/
def sp_marker_fork_if_necessary (prefs : Preferences) (docAdd : Node → Node) (marker : SPObject)
    (doc : Document) : Forked × SPObject × Document :=
  if marker.hrefcount < 2 then (Forked.original, marker, doc)
  else
    let colorStock := prefs.getBool "/options/markers/colorStockMarkers" true
    let colorCustom := prefs.getBool "/options/markers/colorCustomMarkers" false
    let stock := marker.repr.attribute "inkscape:isstock"
    let isStock : Bool := decide (stock = none ∨ stock = some "true".toList)
    if (if isStock then !colorStock else !colorCustom) then (Forked.original, marker, doc)
    else
      let repr1 := marker.repr.setAttribute "inkscape:collect" none
      let mark_repr := docAdd repr1
      let mark_repr1 :=
        if mark_repr.attribute "inkscape:stockid" = none then
          mark_repr.setAttribute "inkscape:stockid" (mark_repr.attribute "id")
        else mark_repr
      let repr2 := repr1.setAttribute "inkscape:collect" (some "always".toList)
      (Forked.duplicate, { marker with repr := repr2 }, { doc with defs := mark_repr1 :: doc.defs })

/-- The node `sp_marker_fork_if_necessary` adds to `defs` when it forks: the
duplicate of the marker's node, taken while `inkscape:collect` is removed, as the
document stores it, with `inkscape:stockid` filled in from `id` when absent. -/
def forkedNode (docAdd : Node → Node) (marker : SPObject) : Node :=
  if (docAdd (marker.repr.setAttribute "inkscape:collect" none)).attribute "inkscape:stockid"
      = none then
    (docAdd (marker.repr.setAttribute "inkscape:collect" none)).setAttribute "inkscape:stockid"
      ((docAdd (marker.repr.setAttribute "inkscape:collect" none)).attribute "id")
  else docAdd (marker.repr.setAttribute "inkscape:collect" none)

/-- The policy gate in the words of the specification: the gate says no when the
marker is stock (attribute `inkscape:isstock` absent or equal to "true") and
colorStockMarkers is false, or the marker is not stock and colorCustomMarkers is
false. -/
def gateSaysNo (prefs : Preferences) (marker : SPObject) : Prop :=
  ((marker.repr.attribute "inkscape:isstock" = none ∨
      marker.repr.attribute "inkscape:isstock" = some "true".toList) ∧
    prefs.getBool "/options/markers/colorStockMarkers" true = false) ∨
  (¬ (marker.repr.attribute "inkscape:isstock" = none ∨
      marker.repr.attribute "inkscape:isstock" = some "true".toList) ∧
    prefs.getBool "/options/markers/colorCustomMarkers" false = false)

instance (prefs : Preferences) (marker : SPObject) : Decidable (gateSaysNo prefs marker) := by
  unfold gateSaysNo
  infer_instance

/-! ## The fields `set` stores, attribute by attribute -/

/-- What the `SP_ATTR_MARKERUNITS` case stores: `(markerUnits_set, markerUnits)`. -/
def unitsOf (value : Option (List Char)) : Bool × Nat :=
  match value with
  | none => (false, SP_MARKER_UNITS_STROKEWIDTH)
  | some v =>
    if v = "strokeWidth".toList then (true, SP_MARKER_UNITS_STROKEWIDTH)
    else if v = "userSpaceOnUse".toList then (true, SP_MARKER_UNITS_USERSPACEONUSE)
    else (false, SP_MARKER_UNITS_STROKEWIDTH)

/-- What the `SP_ATTR_ORIENT` case stores: `(orient_set, orient_auto, orient)`. -/
def orientOf (ext : Extern) (value : Option (List Char)) : Bool × Bool × ℚ :=
  match value with
  | none => (false, false, 0)
  | some v =>
    if v = "auto".toList then (true, true, 0)
    else
      match ext.sp_svg_number_read_f v with
      | some a => (true, false, a)
      | none => (false, false, 0)

/-- What the `SP_ATTR_PRESERVEASPECTRATIO` case stores:
`(aspect_set, aspect_align, aspect_clip)`. -/
def aspectOf (value : Option (List Char)) : Bool × Nat × Nat :=
  match value.bind readAspect with
  | none => (false, SP_ASPECT_NONE, SP_ASPECT_MEET)
  | some (align, clip) => (true, align, clip)

/-- The value `write` stores for `markerUnits`. -/
def unitsText (m : SPMarker) : Option (List Char) :=
  if m.markerUnits_set then
    if m.markerUnits = SP_MARKER_UNITS_STROKEWIDTH then some "strokeWidth".toList
    else some "userSpaceOnUse".toList
  else none

/-- The value `write` stores for a length attribute. -/
def lengthText (pr : Printer) (l : SVGLength) : Option (List Char) :=
  if l._set then some (pr.svgDouble l.computed) else none

/-- The value `write` stores for `orient`. -/
def orientText (pr : Printer) (m : SPMarker) : Option (List Char) :=
  if m.orient_set then
    if m.orient_auto then some "auto".toList else some (pr.cssDouble m.orient)
  else none

/-- Unit `SVGLength::PX`. -/
def SVGLength.PX : Nat := 1

/-- The library functions of `decimalExtern`, with a length reader that also
accepts a number followed by `px`. -/
def pxExtern : Extern :=
  { decimalExtern with
    lengthRead := fun s =>
      if (readDecimal s).2 = [] ∧ s ≠ [] then
        some (SVGLength.NONE, (readDecimal s).1, (readDecimal s).1)
      else if (readDecimal s).2 = "px".toList ∧ s ≠ "px".toList then
        some (SVGLength.PX, (readDecimal s).1, (readDecimal s).1)
      else none }

/-- The decimal digits of a natural number below 100. -/
def smallDigits (n : Nat) : List Char :=
  if n < 10 then [Char.ofNat (48 + n)]
  else [Char.ofNat (48 + n / 10 % 10), Char.ofNat (48 + n % 10)]

/-- A printer of numbers, exact on the integers 0 to 99, which are all the
examples print: the decimal digits of the integer part. -/
def decimalPrinter : Printer :=
  { svgDouble := fun q => smallDigits (q.num.natAbs / q.den)
    cssDouble := fun q => smallDigits (q.num.natAbs / q.den) }

/-- The eight `setAttribute` calls of `write` on the target node `r0`, with the
values they store. -/
def writeOnto (pr : Printer) (m : SPMarker) (own : Node) (r0 : Node) : Node :=
  (((((((r0.setAttribute "markerUnits" (unitsText m)).setAttribute "refX"
    (lengthText pr m.refX)).setAttribute "refY" (lengthText pr m.refY)).setAttribute
    "markerWidth" (lengthText pr m.markerWidth)).setAttribute "markerHeight"
    (lengthText pr m.markerHeight)).setAttribute "orient" (orientText pr m)).setAttribute
    "viewBox" (own.attribute "viewBox")).setAttribute "preserveAspectRatio"
    (own.attribute "preserveAspectRatio")

/-- The target node of `write` after its first statement: a new element when
the flag `SP_OBJECT_WRITE_BUILD` is set and no node is given. -/
def writeTarget (repr : Option Node) (flags : Nat) : Option Node :=
  if flags &&& SP_OBJECT_WRITE_BUILD ≠ 0 ∧ repr = none then some ⟨[]⟩ else repr

/-- An example node of a marker: refX 1, declared size 4 x 6, orient auto, units
userSpaceOnUse and viewBox (0,0,2,2). -/
def exampleNode : Node :=
  ⟨[("markerUnits", "userSpaceOnUse".toList), ("refX", "1".toList),
    ("markerWidth", "4".toList), ("markerHeight", "6".toList), ("orient", "auto".toList),
    ("viewBox", "0 0 2 2".toList)]⟩

/-! ## Words of a preserveAspectRatio value -/

/-- A string without its leading spaces. -/
def skipSpaces (s : List Char) : List Char := s.dropWhile (fun ch => ch = ' ')

/-- The first word of a string: after the leading spaces, the characters up to
the next space. -/
def firstWord (s : List Char) : List Char := (skipSpaces s).takeWhile (fun ch => ch ≠ ' ')

/-- What follows the first word of a string and the spaces after it. -/
def afterFirstWord (s : List Char) : List Char :=
  skipSpaces ((skipSpaces s).dropWhile (fun ch => ch ≠ ' '))

/-- The ten alignment keywords of preserveAspectRatio. -/
def alignmentKeywords : List (List Char) :=
  ["none".toList, "xMinYMin".toList, "xMidYMin".toList, "xMaxYMin".toList, "xMinYMid".toList,
   "xMidYMid".toList, "xMaxYMid".toList, "xMinYMax".toList, "xMidYMax".toList,
   "xMaxYMax".toList]

/-- A number cannot be parsed at the head of `s`: `g_ascii_strtod` yields 0 and
does not advance. -/
def parseFails (ext : Extern) (s : List Char) : Prop := ext.g_ascii_strtod s = (0, s)

/-- The four positions at which the `SP_ATTR_VIEWBOX` case calls
`g_ascii_strtod`, for `x`, `y`, `width` and `height`. -/
def viewBoxInputs (ext : Extern) (value : List Char) :
    List Char × List Char × List Char × List Char :=
  let s2 := skipSep (ext.g_ascii_strtod value).2
  let s3 := skipSep (ext.g_ascii_strtod s2).2
  let s4 := skipSep (ext.g_ascii_strtod s3).2
  (value, s2, s3, s4)

/-- A marker that stores the aspect xMaxYMax slice. -/
def sliceMarker : SPMarker :=
  { SPMarker.new with
    aspect_set := true
    aspect_align := SP_ASPECT_XMAX_YMAX
    aspect_clip := SP_ASPECT_SLICE }

/-! ## Sequences of operations on the view cache -/

/-- One call on the view cache of a marker. -/
inductive CacheOp where
  | showDimension (key size : Nat)
  | showInstance (call : ShowCall)
  | hide (key : Nat)
  | release

/-- The marker and the backend after one call; `release` gets one unit of fuel
per view. -/
def runOp (ext : Extern) (st : SPMarker × Drawing) : CacheOp → SPMarker × Drawing
  | CacheOp.showDimension key size => sp_marker_show_dimension st.1 st.2 key size
  | CacheOp.showInstance c =>
    (sp_marker_show_instance ext st.1 st.2 c.shown c.parent c.key c.pos c.base c.linewidth).2
  | CacheOp.hide key => sp_marker_hide st.1 st.2 key
  | CacheOp.release =>
    match st.1.release st.1.views.length st.2 with
    | some r => (r.1, r.2.1)
    | none => st

/-- The marker and the backend after a sequence of calls, first call first. -/
def runOps (ext : Extern) (st : SPMarker × Drawing) (ops : List CacheOp) : SPMarker × Drawing :=
  ops.foldl (runOp ext) st

/-- A marker of declared size 4 x 4 with the reference point (1, 2), the `c2p`
of a constructed marker and one view under key 7. -/
def shownMarker : SPMarker :=
  { SPMarker.sized 4 4 none SP_ASPECT_NONE SP_ASPECT_MEET with
    refX := ⟨true, SVGLength.NONE, 1, 1⟩
    refY := ⟨true, SVGLength.NONE, 2, 2⟩
    views := [⟨7, [none]⟩] }

/-! ## `CString::onReadContent` (sp-string.cpp) -/

/-- Value `SP_XML_SPACE_DEFAULT` of `xml_space.value`. -/
def SP_XML_SPACE_DEFAULT : Nat := 0

/-- Value `SP_XML_SPACE_PRESERVE` of `xml_space.value`. -/
def SP_XML_SPACE_PRESERVE : Nat := 1

/-- The fields of an `SPString` the method reads and writes: the text, the
`xml:space` mode, and the flags of the display update requests made so far,
newest first. -/
structure SPString where
  string : List Char
  xml_space : Nat
  requests : List Nat

/-- The loop of the preserve branch over the characters of the content:
line feed (0xa), carriage return (0xd) and tab become a space, and every
character is appended to `string`. -/
def preserveLoop : List Char → List Char → List Char
  | string, [] => string
  | string, c :: cs =>
    preserveLoop (string ++ [if c = '\n' ∨ c = '\r' ∨ c = '\t' then ' ' else c]) cs

/-- The loop of the other branch, with the local flag `whitespace`; `hasPrev`
is `object->getPrev() != NULL`.  The result is `string` and the flag after the
last character. -/
def defaultLoop (hasPrev : Bool) : List Char → Bool → List Char → List Char × Bool
  | string, whitespace, [] => (string, whitespace)
  | string, whitespace, c :: cs =>
    if c = '\n' ∨ c = '\r' then defaultLoop hasPrev string whitespace cs
    else if c = ' ' ∨ c = '\t' then defaultLoop hasPrev string true cs
    else
      defaultLoop hasPrev
        ((if whitespace = true ∧ (string ≠ [] ∨ hasPrev = true) then string ++ [' '] else string)
          ++ [c])
        false cs

/-- The method `CString::onReadContent`.  `content` holds the characters of
`getRepr()->content()` up to the terminating zero, `hasPrev` is
`object->getPrev() != NULL` and `hasNext` is `object->getRepr()->next() != NULL`. -/
def CString.onReadContent (s : SPString) (hasPrev hasNext : Bool) (content : List Char) :
    SPString :=
  let cleared : List Char := []
  let built : List Char :=
    if s.xml_space = SP_XML_SPACE_PRESERVE then preserveLoop cleared content
    else
      let r := defaultLoop hasPrev cleared false content
      if r.2 = true ∧ hasNext = true then r.1 ++ [' '] else r.1
  { s with string := built, requests := SP_OBJECT_MODIFIED_FLAG :: s.requests }

/-! ## `PovOutput::doCurve` (extension/internal/pov-out.cpp) -/

/-- A curve of a `Geom::Path` as `doCurve` tells them apart: a line segment
(`LineSegment`, `HLineSegment`, `VLineSegment`) with its two end points, a
`CubicBezier` with its four points, or a curve of another kind with its two end
points. -/
inductive Curve where
  | line (p0 p1 : Point)
  | cubic (p0 p1 p2 p3 : Point)
  | other (p0 p1 : Point)

/-- The point `Curve::finalPoint()`. -/
def Curve.finalPoint : Curve → Point
  | Curve.line _ p1 => p1
  | Curve.cubic _ _ _ p3 => p3
  | Curve.other _ p1 => p1

/-- A subpath, `Geom::Path` of lib2geom: the starting point, the curves drawn
from it, and the flag `closed()`.  The container keeps one more curve after the
drawn ones, the closing line segment from the final point back to the starting
point, whether or not the subpath is closed. -/
structure Path where
  start : Point
  curves : List Curve
  closed : Bool

/-- The point `Path::initialPoint()`. -/
def Path.initialPoint (p : Path) : Point := p.start

/-- The point `Path::finalPoint()`: the end of the last drawn curve, the
starting point when nothing is drawn. -/
def Path.finalPoint (p : Path) : Point :=
  match p.curves.getLast? with
  | some c => c.finalPoint
  | none => p.start

/-- The count `Path::size()`: the drawn curves, the closing segment not
counted. -/
def Path.size (p : Path) : Nat := p.curves.length

/-- The curves from `Path::begin()` up to `Path::end_closed()`: the drawn
curves and then the closing line segment. -/
def Path.toEndClosed (p : Path) : List Curve :=
  p.curves ++ [Curve.line p.finalPoint p.initialPoint]

/-- An argument of a `printf`-style call: a string (`%s`), an integer (`%d`),
or the string `dstr(d)` of a double. -/
inductive Arg where
  | str (s : String)
  | int (n : Int)
  | dstr (d : ℚ)

/-- One call `out(fmt, ...)`: the format and its arguments; the text it appends
to `outbuf` is the format filled in by `g_strdup_vprintf`. -/
structure Out where
  fmt : String
  args : List Arg

/-- An entry of `povShapes`.  The text `color`, `rgbf <%s, %s, %s, %s>`, is kept
as its four numbers and is the empty list when it is the empty string. -/
structure PovShapeInfo where
  id : String
  color : List Arg

/-- The fields of `PovOutput` that `doCurve` uses; `outbuf` is kept as the
sequence of `out` calls, first call first. -/
structure PovOutput where
  outbuf : List Out
  nrNodes : Int
  nrSegments : Int
  nrShapes : Int
  povShapes : List PovShapeInfo
  minx : ℚ
  miny : ℚ
  maxx : ℚ
  maxy : ℚ

/-- The method `PovOutput::out (fmt, ...)`. -/
def PovOutput.out (pov : PovOutput) (fmt : String) (args : List Arg) : PovOutput :=
  { pov with outbuf := pov.outbuf ++ [⟨fmt, args⟩] }

/-- The method `PovOutput::vec2 (a, b)`. -/
def PovOutput.vec2 (pov : PovOutput) (a b : ℚ) : PovOutput :=
  pov.out "<%s, %s>" [Arg.dstr a, Arg.dstr b]

/-- The method `PovOutput::segment`: the number of the segment in a comment and
the four points, separated by commas. -/
def PovOutput.segment (pov : PovOutput) (segNr : Int)
    (startX startY startCtrlX startCtrlY endCtrlX endCtrlY endX endY : ℚ) : PovOutput :=
  ((((((pov.out "    /*%4d*/ " [Arg.int segNr]).vec2 startX startY).out ", " []).vec2
    startCtrlX startCtrlY).out ", " []).vec2 endCtrlX endCtrlY).out ", " [] |>.vec2 endX endY

/-- The method `Rect::expandTo (p)`: the smallest rectangle holding the
rectangle and the point. -/
def Rect.expandTo (r : Rect) (p : Point) : Rect :=
  ⟨min r.x0 p.x, min r.y0 p.y, max r.x1 p.x, max r.y1 p.y⟩

/-- The local variables the two loops of `doCurve` carry, with the exporter. -/
structure CurveLoop where
  pov : PovOutput
  segmentNr : Int
  cminmax : Rect

/-- The end of the body of the inner loop, after the segment is written: the
comma or the line end, and the bounding box grown by the final point. -/
def afterSegment (segmentCount : Int) (st : CurveLoop) (c : Curve) : CurveLoop :=
  { st with
    pov := if st.segmentNr < segmentCount then st.pov.out ",\n" [] else st.pov.out "\n" []
    cminmax := st.cminmax.expandTo c.finalPoint }

/-- The inner loop `for (cit = pit->begin(); cit != pit->end_closed(); ++cit)`
over the curves of one subpath; the first component is `false` when the loop
leaves the function with `return false`. -/
def curveLoop (segmentCount : Int) : CurveLoop → List Curve → Bool × CurveLoop
  | st, [] => (true, st)
  | st, Curve.line p0 p1 :: cs =>
    curveLoop segmentCount
      (afterSegment segmentCount
        { st with
          pov := { st.pov.segment st.segmentNr p0.x p0.y p0.x p0.y p1.x p1.y p1.x p1.y with
            nrNodes := st.pov.nrNodes + 8 }
          segmentNr := st.segmentNr + 1 }
        (Curve.line p0 p1)) cs
  | st, Curve.cubic p0 p1 p2 p3 :: cs =>
    curveLoop segmentCount
      (afterSegment segmentCount
        { st with
          pov := { st.pov.segment st.segmentNr p0.x p0.y p1.x p1.y p2.x p2.y p3.x p3.y with
            nrNodes := st.pov.nrNodes + 8 }
          segmentNr := st.segmentNr + 1 }
        (Curve.cubic p0 p1 p2 p3)) cs
  | st, Curve.other _ _ :: _ => (false, st)

/-- The outer loop `for (pit = pathv.begin(); pit != pathv.end(); ++pit)`. -/
def pathLoop (segmentCount : Int) : CurveLoop → List Path → Bool × CurveLoop
  | st, [] => (true, st)
  | st, p :: ps =>
    match curveLoop segmentCount { st with cminmax := st.cminmax.expandTo p.initialPoint }
        p.toEndClosed with
    | (false, st1) => (false, st1)
    | (true, st1) => pathLoop segmentCount st1 ps

/-- The count `segmentCount` of `doCurve`: for every subpath its `size()`, and
one more when it is `closed()`. -/
def segmentCountOf (pathv : List Path) : Int :=
  pathv.foldl (fun n p => if p.closed then n + (p.size : Int) + 1 else n + (p.size : Int)) 0

/-- A shape as `doCurve` reads it: the path vector of its curve, already
transformed to the desktop and converted by `pathv_to_linear_and_cubic_beziers`,
and, when the style has a plain fill colour, the three colour values and the
opacity `dopacity`. -/
structure Shape where
  pathv : List Path
  fill : Option (ℚ × ℚ × ℚ × ℚ)

/-- The method `PovOutput::doCurve (item, id)`; `item` is `none` when the item
is not a shape.  The result is the returned flag and the exporter afterwards. -/
def PovOutput.doCurve (pov : PovOutput) (item : Option Shape) (id : String) :
    Bool × PovOutput :=
  match item with
  | none => (true, pov)
  | some shape =>
    match shape.pathv with
    | [] => (true, pov)
    | front :: rest =>
      let pathv := front :: rest
      let pov1 : PovOutput := { pov with nrShapes := pov.nrShapes + 1 }
      let color : List Arg :=
        match shape.fill with
        | some (r, g, b, dopacity) => [Arg.dstr r, Arg.dstr g, Arg.dstr b, Arg.dstr (1 - dopacity)]
        | none => []
      let pov2 : PovOutput := { pov1 with povShapes := pov1.povShapes ++ [⟨id, color⟩] }
      let segmentCount : Int := segmentCountOf pathv
      let pov3 : PovOutput :=
        ((((((((pov2.out "/*###################################################\n" []).out
          "### PRISM:  %s\n" [Arg.str id]).out
          "###################################################*/\n" []).out
          "#declare %s = prism \x7b\n" [Arg.str id]).out
          "    linear_sweep\n" []).out
          "    bezier_spline\n" []).out
          "    1.0, //top\n" []).out
          "    0.0, //bottom\n" []).out
          "    %d //nr points\n" [Arg.int (segmentCount * 4)]
      let pov4 : PovOutput := { pov3 with nrSegments := pov3.nrSegments + segmentCount }
      match pathLoop segmentCount
          ⟨pov4, 0, Rect.ofPoints front.initialPoint front.initialPoint⟩ pathv with
      | (false, st) => (false, st.pov)
      | (true, st) =>
        let cminx : ℚ := st.cminmax.minPt.x
        let cmaxx : ℚ := st.cminmax.maxPt.x
        let cminy : ℚ := st.cminmax.minPt.y
        let cmaxy : ℚ := st.cminmax.maxPt.y
        let pov5 : PovOutput :=
          ((((((((st.pov.out "\x7d\n" []).out
            "#declare %s_MIN_X    = %s;\n" [Arg.str id, Arg.dstr cminx]).out
            "#declare %s_CENTER_X = %s;\n" [Arg.str id, Arg.dstr ((cmaxx + cminx) / 2)]).out
            "#declare %s_MAX_X    = %s;\n" [Arg.str id, Arg.dstr cmaxx]).out
            "#declare %s_WIDTH    = %s;\n" [Arg.str id, Arg.dstr (cmaxx - cminx)]).out
            "#declare %s_MIN_Y    = %s;\n" [Arg.str id, Arg.dstr cminy]).out
            "#declare %s_CENTER_Y = %s;\n" [Arg.str id, Arg.dstr ((cmaxy + cminy) / 2)]).out
            "#declare %s_MAX_Y    = %s;\n" [Arg.str id, Arg.dstr cmaxy]).out
            "#declare %s_HEIGHT   = %s;\n" [Arg.str id, Arg.dstr (cmaxy - cminy)]
        let pov6 : PovOutput :=
          if color.length > 0 then pov5.out "#declare %s_COLOR    = %s;\n" (Arg.str id :: color)
          else pov5
        let pov7 : PovOutput :=
          ((pov6.out "/*###################################################\n" []).out
            "### end %s\n" [Arg.str id]).out
            "###################################################*/\n\n\n\n" []
        (true,
         { pov7 with
           minx := if cminx < pov7.minx then cminx else pov7.minx
           maxx := if cmaxx > pov7.maxx then cmaxx else pov7.maxx
           miny := if cminy < pov7.miny then cminy else pov7.miny
           maxy := if cmaxy > pov7.maxy then cmaxy else pov7.maxy })

/-- The calls of `segment` in an output: the `out` calls that write the number
of a segment. -/
def segmentLines (outbuf : List Out) : List Out :=
  outbuf.filter (fun o => o.fmt = "    /*%4d*/ ")

/-- The exporter after `PovOutput::reset` and the first statements of
`doCurves`: nothing written, the counters at zero, the bounds at plus and minus
`bignum`. -/
def PovOutput.new : PovOutput := ⟨[], 0, 0, 0, [], 1000000, 1000000, -1000000, -1000000⟩

/-- A shape with one open subpath: a single line from (0, 0) to (1, 0). -/
def openLine : Shape := ⟨[⟨⟨0, 0⟩, [Curve.line ⟨0, 0⟩ ⟨1, 0⟩], false⟩], none⟩

/-- The integer arguments of an `out` call. -/
def Out.intArgs (o : Out) : List Int :=
  o.args.filterMap (fun a => match a with
    | Arg.int n => some n
    | _ => none)

/-- The formats of the `out` calls of an output, in the order of the calls. -/
def formats (outbuf : List Out) : List String := outbuf.map (fun o => o.fmt)

/-! ## Rounded arithmetic

The operations on `double` values, each the exact result followed by a rounding
`rnd`.  With `rnd` the identity they are the exact operations used above; with
`roundToDouble` they are the IEEE 754 operations on finite numbers. -/

/-- The integer nearest to `n / d`, the even one of the two when `n / d` lies
half way between them. -/
def roundHalfEven (n d : Nat) : Nat :=
  if 2 * (n % d) < d then n / d
  else if d < 2 * (n % d) then n / d + 1
  else if (n / d) % 2 = 0 then n / d
  else n / d + 1

/-- The number of binary digits of `n`, counted with at most `fuel` halvings. -/
def bitLength : Nat → Nat → Nat
  | 0, _ => 0
  | fuel + 1, n => if n = 0 then 0 else bitLength fuel (n / 2) + 1

/-- The position of the leading binary digit of a positive `n`: the largest `k`
with `2^k ≤ n`. -/
def log2Floor (n : Nat) : Nat := bitLength n n - 1

/-- The exponent `e` with `2^52 ≤ (n / d) / 2^e < 2^53`, for positive `n`, `d`. -/
def binaryExponent (n d : Nat) : Int :=
  let e0 : Int := (log2Floor n : Int) - (log2Floor d : Int) - 52
  if n * 2 ^ (-e0).toNat < d * 2 ^ e0.toNat * 2 ^ 52 then e0 - 1 else e0

/-- Rounding of a rational to the nearest `double` (IEEE 754 binary64, ties to
even, subnormal numbers included).  Magnitudes of 2^1024 and more, which a
`double` rounds to an infinity, are outside the range of this function. -/
def roundToDouble (q : ℚ) : ℚ :=
  if q = 0 then 0
  else
    let n : Nat := q.num.natAbs
    let d : Nat := q.den
    let e : Int := max (binaryExponent n d) (-1074)
    let mant : Nat := roundHalfEven (n * 2 ^ (-e).toNat) (d * 2 ^ e.toNat)
    (if q < 0 then -(mant : ℚ) else (mant : ℚ)) * (2 : ℚ) ^ e

/-- The function `Geom::Rect::from_xywh` with its two sums rounded. -/
def Rect.from_xywhR (rnd : ℚ → ℚ) (x y w h : ℚ) : Rect :=
  Rect.ofPoints ⟨x, y⟩ ⟨rnd (x + w), rnd (y + h)⟩

/-- The width `Rect::width()`, a rounded difference. -/
def Rect.widthR (rnd : ℚ → ℚ) (r : Rect) : ℚ := rnd (r.x1 - r.x0)

/-- The height `Rect::height()`, a rounded difference. -/
def Rect.heightR (rnd : ℚ → ℚ) (r : Rect) : ℚ := rnd (r.y1 - r.y0)

/-- Division of two doubles, the quotient rounded; a zero divisor is a failure. -/
def fdivR (rnd : ℚ → ℚ) (a b : ℚ) : Option ℚ := if b = 0 then none else some (rnd (a / b))

/-- Composition `a * b` of lib2geom with every product and sum rounded. -/
def Affine.mulR (rnd : ℚ → ℚ) (a b : Affine) : Affine :=
  { c0 := rnd (rnd (a.c0 * b.c0) + rnd (a.c1 * b.c2))
    c1 := rnd (rnd (a.c0 * b.c1) + rnd (a.c1 * b.c3))
    c2 := rnd (rnd (a.c2 * b.c0) + rnd (a.c3 * b.c2))
    c3 := rnd (rnd (a.c2 * b.c1) + rnd (a.c3 * b.c3))
    c4 := rnd (rnd (rnd (a.c4 * b.c0) + rnd (a.c5 * b.c2)) + b.c4)
    c5 := rnd (rnd (rnd (a.c4 * b.c1) + rnd (a.c5 * b.c3)) + b.c5) }

/-- The body of the `SP_ATTR_VIEWBOX` case with the two sums `x + width` and
`y + height` rounded; the test `width > 0 && height > 0` is on the parsed
numbers. -/
def readViewBoxR (rnd : ℚ → ℚ) (ext : Extern) (value : Option (List Char)) : Option Rect :=
  match value with
  | none => none
  | some v =>
    let f := viewBoxFields ext v
    let x := f.1
    let y := f.2.1
    let width := f.2.2.1
    let height := f.2.2.2
    if width > 0 ∧ height > 0 then
      some (Rect.ofPoints ⟨x, y⟩ ⟨rnd (x + width), rnd (y + height)⟩)
    else none

/-- The method `SPMarker::set(key, value)` in rounded arithmetic: the viewBox
case is the only one that computes with doubles. -/
def SPMarker.setR (rnd : ℚ → ℚ) (ext : Extern) (m : SPMarker) (key : SPAttr)
    (value : Option (List Char)) : SPMarker :=
  match key with
  | SP_ATTR_VIEWBOX =>
    ({ m with viewBox := readViewBoxR rnd ext value }).requestDisplayUpdate
      (SP_OBJECT_MODIFIED_FLAG ||| SP_OBJECT_VIEWPORT_MODIFIED_FLAG)
  | _ => m.set ext key value

/-- The rectangle `rctx.viewport` of `update` in rounded arithmetic. -/
def SPMarker.viewportR (rnd : ℚ → ℚ) (m : SPMarker) : Rect :=
  Rect.from_xywhR rnd 0 0 m.markerWidth.computed m.markerHeight.computed

/-- The rectangle `vb` of `update` in rounded arithmetic. -/
def SPMarker.vbR (rnd : ℚ → ℚ) (m : SPMarker) : Rect :=
  match m.viewBox with
  | some r => r
  | none => m.viewportR rnd

/-- The method `SPMarker::update` in rounded arithmetic: every division,
product, sum and difference of doubles is followed by `rnd`.  The result is
`none` when one of the divisions has a zero divisor. -/
def SPMarker.updateR (rnd : ℚ → ℚ) (m : SPMarker) : Option SPMarker := do
  let viewport := m.viewportR rnd
  let vb := m.vbR rnd
  let wh ←
    if m.aspect_align = SP_ASPECT_NONE then
      some (viewport.widthR rnd, viewport.heightR rnd)
    else do
      let scalex ← fdivR rnd (viewport.widthR rnd) (vb.widthR rnd)
      let scaley ← fdivR rnd (viewport.heightR rnd) (vb.heightR rnd)
      let scale := if m.aspect_clip = SP_ASPECT_MEET then MIN scalex scaley else MAX scalex scaley
      some (rnd (vb.widthR rnd * scale), rnd (vb.heightR rnd * scale))
  let sx ← fdivR rnd wh.1 (vb.widthR rnd)
  let sy ← fdivR rnd wh.2 (vb.heightR rnd)
  let c2p := Affine.mulR rnd (Translate (-m.refX.computed) (-m.refY.computed)) (Scale sx sy)
  some (m.storeC2p c2p)

/-- The coefficients `c0` and `c3` of the `c2p` that `update` computes in
rounded arithmetic: the scale part. -/
def SPMarker.scalePartR (rnd : ℚ → ℚ) (m : SPMarker) : Option (ℚ × ℚ) :=
  (m.updateR rnd).map (fun s => (s.c2p.c0, s.c2p.c3))

/-- The factor `scaleX` of a marker with the viewBox `box`, in rounded
arithmetic: the width of the viewport divided by the width of the viewBox. -/
def SPMarker.scaleXR (rnd : ℚ → ℚ) (m : SPMarker) (box : Rect) : ℚ :=
  rnd ((m.viewportR rnd).widthR rnd / box.widthR rnd)

/-- The factor `scaleY` of a marker with the viewBox `box`, in rounded
arithmetic: the height of the viewport divided by the height of the viewBox. -/
def SPMarker.scaleYR (rnd : ℚ → ℚ) (m : SPMarker) (box : Rect) : ℚ :=
  rnd ((m.viewportR rnd).heightR rnd / box.heightR rnd)

/-! ## Auxiliary lemmas -/

theorem Affine.mul_eq (a b : Affine) :
    a * b = ⟨a.c0 * b.c0 + a.c1 * b.c2, a.c0 * b.c1 + a.c1 * b.c3, a.c2 * b.c0 + a.c3 * b.c2,
      a.c2 * b.c1 + a.c3 * b.c3, a.c4 * b.c0 + a.c5 * b.c2 + b.c4,
      a.c4 * b.c1 + a.c5 * b.c3 + b.c5⟩ := rfl

theorem MIN_eq_min (a b : ℚ) : MIN a b = min a b := by
  unfold MIN
  rcases lt_trichotomy a b with h | h | h
  · rw [if_pos h, min_eq_left h.le]
  · subst h; simp
  · rw [if_neg (not_lt.mpr h.le), min_eq_right h.le]

theorem MAX_eq_max (a b : ℚ) : MAX a b = max a b := by
  unfold MAX
  rcases lt_trichotomy a b with h | h | h
  · rw [if_neg (not_lt.mpr h.le), max_eq_right h.le]
  · subst h; simp
  · rw [if_pos h, max_eq_left h.le]

theorem from_xywh_width (w h : ℚ) : (Rect.from_xywh 0 0 w h).width = |w| := by
  simp only [Rect.from_xywh, Rect.ofPoints, Rect.width, zero_add]
  rcases le_total 0 w with hw | hw
  · rw [max_eq_right hw, min_eq_left hw, abs_of_nonneg hw, sub_zero]
  · rw [max_eq_left hw, min_eq_right hw, abs_of_nonpos hw, zero_sub]

theorem from_xywh_height (w h : ℚ) : (Rect.from_xywh 0 0 w h).height = |h| := by
  simp only [Rect.from_xywh, Rect.ofPoints, Rect.height, zero_add]
  rcases le_total 0 h with hh | hh
  · rw [max_eq_right hh, min_eq_left hh, abs_of_nonneg hh, sub_zero]
  · rw [max_eq_left hh, min_eq_right hh, abs_of_nonpos hh, zero_sub]

theorem viewport_width (m : SPMarker) : m.viewport.width = |m.markerWidth.computed| :=
  from_xywh_width _ _

theorem viewport_height (m : SPMarker) : m.viewport.height = |m.markerHeight.computed| :=
  from_xywh_height _ _

theorem vb_of_viewBox (m : SPMarker) (r : Rect) (h : m.viewBox = some r) : m.vb = r := by
  simp [SPMarker.vb, h]

theorem vb_of_no_viewBox (m : SPMarker) (h : m.viewBox = none) : m.vb = m.viewport := by
  simp [SPMarker.vb, h]

/-- With non-zero divisors `update` succeeds, and its `c2p` is the reference
translation followed by the scale `fitScale`. -/
theorem update_of_divisors (m : SPMarker) (hw : m.vb.width ≠ 0) (hh : m.vb.height ≠ 0) :
    ∃ m1, m.update = some m1 ∧
      m1.c2p = Translate (-m.refX.computed) (-m.refY.computed) *
        Scale m.fitScale.1 m.fitScale.2 := by
  refine ⟨m.storeC2p (Translate (-m.refX.computed) (-m.refY.computed) *
    Scale m.fitScale.1 m.fitScale.2), ?_, rfl⟩
  by_cases ha : m.aspect_align = SP_ASPECT_NONE
  · simp [SPMarker.update, SPMarker.fitScale, ha, fdiv, hw, hh]
  · by_cases hc : m.aspect_clip = SP_ASPECT_MEET
    · simp [SPMarker.update, SPMarker.fitScale, ha, hc, fdiv, hw, hh, MIN_eq_min,
        mul_div_cancel_left₀]
    · simp [SPMarker.update, SPMarker.fitScale, ha, hc, fdiv, hw, hh, MAX_eq_max,
        mul_div_cancel_left₀]

/-! ## Viewport fitting (`SPMarker::update`) -/

/-- C2. The code at the specification's example: declared size 200x100, viewBox
(0,0,50,50), xMidYMid meet, refX = refY = 0.  `update` yields the pure scale 2,
without any alignment offset: the viewBox centre (25,25) goes to (50,50), not to
the viewport centre (100,50). -/
theorem update_xMidYMid_offset_missing :
    ∃ m1, (SPMarker.sized 200 100 (some ⟨0, 0, 50, 50⟩) SP_ASPECT_XMID_YMID
        SP_ASPECT_MEET).update = some m1 ∧
      m1.c2p = Scale 2 2 ∧ m1.c2p.apply ⟨25, 25⟩ = ⟨50, 50⟩ ∧
      m1.c2p.apply ⟨25, 25⟩ ≠ ⟨100, 50⟩ := by
  obtain ⟨m1, h1, h2⟩ := update_of_divisors
    (SPMarker.sized 200 100 (some ⟨0, 0, 50, 50⟩) SP_ASPECT_XMID_YMID SP_ASPECT_MEET)
    (by norm_num [SPMarker.vb, SPMarker.sized, Rect.width])
    (by norm_num [SPMarker.vb, SPMarker.sized, Rect.height])
  have h3 : m1.c2p = Scale 2 2 := by
    rw [h2]
    norm_num [SPMarker.fitScale, SPMarker.vb, SPMarker.viewport, Rect.from_xywh, Rect.ofPoints,
      SPMarker.sized, SPMarker.new, SVGLength.new, Rect.width, Rect.height,
      SP_ASPECT_XMID_YMID, SP_ASPECT_NONE, SP_ASPECT_MEET, Translate, Scale, Affine.mul_eq]
  refine ⟨m1, h1, h3, ?_, ?_⟩
  · rw [h3]; norm_num [Affine.apply, Scale]
  · rw [h3]; norm_num [Affine.apply, Scale]

/-- C4. The code at a marker with the declared width 0, the declared height 5,
the reference point (1, 2) and no viewBox: `vb` is the viewport, the divisor
`vb.width()` is 0 and `update` computes `width / vb.width()` as 0/0, in exact
and in double arithmetic alike; no `c2p` results that sends the reference point
to the origin. -/
theorem update_reference_point_lost :
    ({ SPMarker.sized 0 5 none SP_ASPECT_NONE SP_ASPECT_MEET with
        refX := ⟨true, SVGLength.NONE, 1, 1⟩
        refY := ⟨true, SVGLength.NONE, 2, 2⟩ } : SPMarker).vb.width = 0 ∧
    Rect.widthR roundToDouble
      (({ SPMarker.sized 0 5 none SP_ASPECT_NONE SP_ASPECT_MEET with
        refX := ⟨true, SVGLength.NONE, 1, 1⟩
        refY := ⟨true, SVGLength.NONE, 2, 2⟩ } : SPMarker).vbR roundToDouble) = 0 ∧
    (({ SPMarker.sized 0 5 none SP_ASPECT_NONE SP_ASPECT_MEET with
        refX := ⟨true, SVGLength.NONE, 1, 1⟩
        refY := ⟨true, SVGLength.NONE, 2, 2⟩ } : SPMarker).update).map (fun s => s.c2p) = none ∧
    (({ SPMarker.sized 0 5 none SP_ASPECT_NONE SP_ASPECT_MEET with
        refX := ⟨true, SVGLength.NONE, 1, 1⟩
        refY := ⟨true, SVGLength.NONE, 2, 2⟩ } : SPMarker).updateR roundToDouble).map
      (fun s => s.c2p) = none := by
  refine ⟨?_, ?_, ?_, ?_⟩ <;> decide!

/-- Off the zero divisors: with non-zero `vb.width()` and `vb.height()`, in
exact arithmetic, `update` succeeds and `c2p` is the translation by
`(-refX, -refY)` followed by a scale, so the reference point maps to the origin;
without a viewBox and with non-zero markerWidth and markerHeight `c2p` is the
translation alone. -/
theorem update_reference_point (m : SPMarker) :
    (m.vb.width ≠ 0 → m.vb.height ≠ 0 →
      ∃ m1 sx sy, m.update = some m1 ∧
        m1.c2p = Translate (-m.refX.computed) (-m.refY.computed) * Scale sx sy ∧
        m1.c2p.apply ⟨m.refX.computed, m.refY.computed⟩ = ⟨0, 0⟩) ∧
    (m.viewBox = none → m.markerWidth.computed ≠ 0 → m.markerHeight.computed ≠ 0 →
      ∃ m1, m.update = some m1 ∧
        m1.c2p = Translate (-m.refX.computed) (-m.refY.computed)) := by
  constructor
  · intro hw hh
    obtain ⟨m1, h1, h2⟩ := update_of_divisors m hw hh
    refine ⟨m1, _, _, h1, h2, ?_⟩
    rw [h2]
    simp [Affine.apply, Affine.mul_eq, Translate, Scale]
  · intro hnone hmw hmh
    have hvb : m.vb = m.viewport := vb_of_no_viewBox m hnone
    have hw : m.vb.width ≠ 0 := by rw [hvb, viewport_width]; exact abs_ne_zero.mpr hmw
    have hh : m.vb.height ≠ 0 := by rw [hvb, viewport_height]; exact abs_ne_zero.mpr hmh
    obtain ⟨m1, h1, h2⟩ := update_of_divisors m hw hh
    refine ⟨m1, h1, ?_⟩
    rw [h2]
    have e1 : m.viewport.width / m.vb.width = 1 := by rw [hvb]; rw [hvb] at hw; exact div_self hw
    have e2 : m.viewport.height / m.vb.height = 1 := by
      rw [hvb]; rw [hvb] at hh; exact div_self hh
    simp only [SPMarker.fitScale, e1, e2]
    split_ifs <;> simp [Affine.mul_eq, Translate, Scale]

/-! ## Reading the viewBox (`SPMarker::set`) -/

/-- C6. The code at a state reached through `set`: on a constructed marker,
markerWidth = "0" and markerHeight = "5" are read and no viewBox is set.  Then
`vb` is the viewport, the divisor `vb.width()` is 0, and `update` divides by it. -/
theorem update_divides_by_zero :
    (SPMarker.new.setAll decimalExtern
      [(SP_ATTR_MARKERWIDTH, some "0".toList), (SP_ATTR_MARKERHEIGHT, some "5".toList)]).viewBox
        = none ∧
    (SPMarker.new.setAll decimalExtern
      [(SP_ATTR_MARKERWIDTH, some "0".toList), (SP_ATTR_MARKERHEIGHT, some "5".toList)]).vb.width
        = 0 ∧
    (SPMarker.new.setAll decimalExtern
      [(SP_ATTR_MARKERWIDTH, some "0".toList), (SP_ATTR_MARKERHEIGHT, some "5".toList)]).update
        = none := by
  refine ⟨?_, ?_, ?_⟩
  · simp [SPMarker.setAll, SPMarker.set, SPMarker.requestDisplayUpdate, SPMarker.new]
  · simp [SPMarker.setAll, SPMarker.set, SPMarker.requestDisplayUpdate, SPMarker.new,
      SVGLength.readOrUnset, decimalExtern, readDecimal, readDigits, SPMarker.vb,
      SPMarker.viewport, Rect.from_xywh, Rect.ofPoints, Rect.width]
  · simp [SPMarker.setAll, SPMarker.set, SPMarker.requestDisplayUpdate, SPMarker.new,
      SVGLength.readOrUnset, decimalExtern, readDecimal, readDigits, SPMarker.vb,
      SPMarker.viewport, Rect.from_xywh, Rect.ofPoints, Rect.width, Rect.height,
      SPMarker.update, fdiv, SP_ASPECT_NONE]

/-! ## The view cache -/

theorem viewOf_cons_eq (v : SPMarkerView) (vs : List SPMarkerView) (key : Nat)
    (h : v.key = key) : viewOf (v :: vs) key = some v := by
  simp [viewOf, h]

theorem viewOf_cons_ne (v : SPMarkerView) (vs : List SPMarkerView) (key : Nat)
    (h : ¬ v.key = key) : viewOf (v :: vs) key = viewOf vs key := by
  simp [viewOf, h]

theorem findView_some_get (views : List SPMarkerView) (key i : Nat)
    (h : findView views key = some i) : ∃ v, views[i]? = some v ∧ viewOf views key = some v := by
  induction views generalizing i with
  | nil => simp [findView] at h
  | cons v vs ih =>
    by_cases hk : v.key = key
    · simp only [findView, hk, if_true, Option.some.injEq] at h
      subst h
      exact ⟨v, by simp, viewOf_cons_eq v vs key hk⟩
    · simp only [findView, hk, if_false, Option.map_eq_some'] at h
      obtain ⟨j, hj, rfl⟩ := h
      obtain ⟨w, hw1, hw2⟩ := ih j hj
      refine ⟨w, ?_, ?_⟩
      · rw [List.getElem?_cons_succ]; exact hw1
      · rw [viewOf_cons_ne v vs key hk]; exact hw2

theorem findView_none_viewOf (views : List SPMarkerView) (key : Nat)
    (h : findView views key = none) : viewOf views key = none := by
  induction views with
  | nil => rfl
  | cons v vs ih =>
    by_cases hk : v.key = key
    · simp [findView, hk] at h
    · simp only [findView, hk, if_false, Option.map_eq_none'] at h
      rw [viewOf_cons_ne v vs key hk]; exact ih h

theorem viewOf_mem (views : List SPMarkerView) (key : Nat) (v : SPMarkerView)
    (h : viewOf views key = some v) : v ∈ views ∧ v.key = key := by
  induction views with
  | nil => simp [viewOf] at h
  | cons w ws ih =>
    by_cases hk : w.key = key
    · rw [viewOf_cons_eq w ws key hk, Option.some.injEq] at h
      subst h
      exact ⟨List.mem_cons_self _ _, hk⟩
    · rw [viewOf_cons_ne w ws key hk] at h
      exact ⟨List.mem_cons_of_mem _ (ih h).1, (ih h).2⟩

theorem showInstanceAt_key (ext : Extern) (marker : SPMarker) (shown : Option DrawingItem)
    (parent pos : Nat) (base : Affine) (lw : ℚ) (d : Drawing) (v : SPMarkerView) :
    (showInstanceAt ext marker shown parent pos base lw d v).2.1.key = v.key := by
  unfold showInstanceAt
  by_cases h : pos ≥ v.items.length
  · rw [if_pos h]
  · rw [if_neg h]

theorem showInstanceAt_length (ext : Extern) (marker : SPMarker) (shown : Option DrawingItem)
    (parent pos : Nat) (base : Affine) (lw : ℚ) (d : Drawing) (v : SPMarkerView) :
    (showInstanceAt ext marker shown parent pos base lw d v).2.1.items.length = v.items.length := by
  unfold showInstanceAt
  by_cases h : pos ≥ v.items.length
  · rw [if_pos h]
  · rw [if_neg h]
    exact List.length_set _ _ _

theorem showInstanceLoop_cons_eq (ext : Extern) (marker : SPMarker) (shown : Option DrawingItem)
    (parent key pos : Nat) (base : Affine) (lw : ℚ) (d : Drawing) (v : SPMarkerView)
    (vs : List SPMarkerView) (h : v.key = key) :
    showInstanceLoop ext marker shown parent key pos base lw d (v :: vs) =
      ((showInstanceAt ext marker shown parent pos base lw d v).1,
       (showInstanceAt ext marker shown parent pos base lw d v).2.1 :: vs,
       (showInstanceAt ext marker shown parent pos base lw d v).2.2) := by
  simp [showInstanceLoop, h]

theorem showInstanceLoop_cons_ne (ext : Extern) (marker : SPMarker) (shown : Option DrawingItem)
    (parent key pos : Nat) (base : Affine) (lw : ℚ) (d : Drawing) (v : SPMarkerView)
    (vs : List SPMarkerView) (h : ¬ v.key = key) :
    showInstanceLoop ext marker shown parent key pos base lw d (v :: vs) =
      ((showInstanceLoop ext marker shown parent key pos base lw d vs).1,
       v :: (showInstanceLoop ext marker shown parent key pos base lw d vs).2.1,
       (showInstanceLoop ext marker shown parent key pos base lw d vs).2.2) := by
  simp [showInstanceLoop, h]

/-- The loop returns what its body returns on the view reached by the key, and
that view is replaced by the one the body leaves. -/
theorem showInstanceLoop_viewOf (ext : Extern) (marker : SPMarker) (shown : Option DrawingItem)
    (parent key pos : Nat) (base : Affine) (lw : ℚ) (d : Drawing) (views : List SPMarkerView) :
    (showInstanceLoop ext marker shown parent key pos base lw d views).1 =
        (viewOf views key).bind
          (fun v => (showInstanceAt ext marker shown parent pos base lw d v).1) ∧
    viewOf (showInstanceLoop ext marker shown parent key pos base lw d views).2.1 key =
        (viewOf views key).map
          (fun v => (showInstanceAt ext marker shown parent pos base lw d v).2.1) := by
  induction views with
  | nil => exact ⟨rfl, rfl⟩
  | cons v vs ih =>
    by_cases hk : v.key = key
    · have hk2 : (showInstanceAt ext marker shown parent pos base lw d v).2.1.key = key :=
        (showInstanceAt_key ext marker shown parent pos base lw d v).trans hk
      rw [showInstanceLoop_cons_eq _ _ _ _ _ _ _ _ _ _ _ hk, viewOf_cons_eq v vs key hk]
      exact ⟨rfl, viewOf_cons_eq _ _ _ hk2⟩
    · rw [showInstanceLoop_cons_ne _ _ _ _ _ _ _ _ _ _ _ hk, viewOf_cons_ne v vs key hk]
      exact ⟨ih.1, (viewOf_cons_ne _ _ _ hk).trans ih.2⟩

/-- The loop keeps, for every key, the number of slots of the view reached. -/
theorem showInstanceLoop_length (ext : Extern) (marker : SPMarker) (shown : Option DrawingItem)
    (parent key pos : Nat) (base : Affine) (lw : ℚ) (d : Drawing) (views : List SPMarkerView)
    (k : Nat) :
    (viewOf (showInstanceLoop ext marker shown parent key pos base lw d views).2.1 k).map
        (fun v => v.items.length) = (viewOf views k).map (fun v => v.items.length) := by
  induction views with
  | nil => rfl
  | cons v vs ih =>
    by_cases hk : v.key = key
    · have hk2 := showInstanceAt_key ext marker shown parent pos base lw d v
      have hl := showInstanceAt_length ext marker shown parent pos base lw d v
      rw [showInstanceLoop_cons_eq _ _ _ _ _ _ _ _ _ _ _ hk]
      by_cases hk3 : v.key = k
      · rw [viewOf_cons_eq v vs k hk3, viewOf_cons_eq _ vs k (hk2.trans hk3)]
        simp only [Option.map_some', hl]
      · rw [viewOf_cons_ne v vs k hk3, viewOf_cons_ne _ vs k (by rw [hk2]; exact hk3)]
    · rw [showInstanceLoop_cons_ne _ _ _ _ _ _ _ _ _ _ _ hk]
      by_cases hk3 : v.key = k
      · rw [viewOf_cons_eq v vs k hk3, viewOf_cons_eq v _ k hk3]
      · rw [viewOf_cons_ne v vs k hk3, viewOf_cons_ne v _ k hk3]
        exact ih

theorem show_instance_length (ext : Extern) (marker : SPMarker) (d : Drawing)
    (shown : Option DrawingItem) (parent key pos : Nat) (base : Affine) (lw : ℚ) (k : Nat) :
    (viewOf (sp_marker_show_instance ext marker d shown parent key pos base lw).2.1.views k).map
        (fun v => v.items.length) = (viewOf marker.views k).map (fun v => v.items.length) := by
  unfold sp_marker_show_instance
  by_cases h : marker.markerUnits = SP_MARKER_UNITS_STROKEWIDTH ∧ lw = 0
  · rw [if_pos h]
  · rw [if_neg h]
    exact showInstanceLoop_length ext marker shown parent key pos base lw d marker.views k

theorem showAll_length (ext : Extern) (calls : List ShowCall) (k : Nat) :
    ∀ st : SPMarker × Drawing,
      (viewOf (showAll ext st calls).1.views k).map (fun v => v.items.length) =
        (viewOf st.1.views k).map (fun v => v.items.length) := by
  induction calls with
  | nil => intro st; rfl
  | cons c cs ih =>
    intro st
    have h := ih (sp_marker_show_instance ext st.1 st.2 c.shown c.parent c.key c.pos c.base
      c.linewidth).2
    have e : showAll ext st (c :: cs) = showAll ext (sp_marker_show_instance ext st.1 st.2 c.shown
        c.parent c.key c.pos c.base c.linewidth).2 cs := rfl
    rw [e, h]
    exact show_instance_length ext st.1 st.2 c.shown c.parent c.key c.pos c.base c.linewidth k

/-- What `sp_marker_show_dimension` does, by the view its search loop reaches. -/
theorem show_dimension_cases (marker : SPMarker) (d : Drawing) (key size : Nat) :
    (viewOf marker.views key = none ∧
      sp_marker_show_dimension marker d key size =
        ({ marker with views := ⟨key, List.replicate size none⟩ :: marker.views }, d)) ∨
    (∃ v, viewOf marker.views key = some v ∧ v.items.length = size ∧
      sp_marker_show_dimension marker d key size = (marker, d)) ∨
    (∃ i v, findView marker.views key = some i ∧ viewOf marker.views key = some v ∧
      v.items.length ≠ size ∧
      sp_marker_show_dimension marker d key size =
        ({ marker with views := ⟨key, List.replicate size none⟩ :: marker.views.eraseIdx i },
         { d.hide key with destroyed := (handlesOf v.items).reverse ++ (d.hide key).destroyed })) := by
  cases hf : findView marker.views key with
  | none =>
    left
    refine ⟨findView_none_viewOf _ _ hf, ?_⟩
    simp only [sp_marker_show_dimension, hf]
  | some i =>
    right
    obtain ⟨v, hv1, hv2⟩ := findView_some_get _ _ _ hf
    by_cases hl : v.items.length = size
    · left
      refine ⟨v, hv2, hl, ?_⟩
      simp only [sp_marker_show_dimension, hf, hv1, Option.map_some', hl, ne_eq,
        not_true_eq_false, if_false]
    · right
      refine ⟨i, v, rfl, hv2, hl, ?_⟩
      have hne : Option.map (fun v => v.items.length) (some v) ≠ some size := by
        simpa using hl
      simp only [sp_marker_show_dimension, hf, hv1, hne, ne_eq, not_false_eq_true, if_true,
        sp_marker_view_remove, Drawing.hide]

theorem showInstanceAt_result (ext : Extern) (marker : SPMarker) (shown : Option DrawingItem)
    (parent pos : Nat) (base : Affine) (lw : ℚ) (d : Drawing) (v : SPMarkerView) :
    (∀ it, (showInstanceAt ext marker shown parent pos base lw d v).1 = some it →
      it.transform =
        (if marker.markerUnits = SP_MARKER_UNITS_STROKEWIDTH then
          Scale lw lw *
            (if marker.orient_auto then base
             else ext.from_degrees marker.orient * Translate base.translation.x base.translation.y)
         else
          (if marker.orient_auto then base
           else ext.from_degrees marker.orient * Translate base.translation.x base.translation.y)) ∧
      ((showInstanceAt ext marker shown parent pos base lw d v).2.1.items[pos]?).join = some it) ∧
    (pos < v.items.length → ((v.items[pos]?).join ≠ none ∨ shown ≠ none) →
      ∃ it, (showInstanceAt ext marker shown parent pos base lw d v).1 = some it) := by
  unfold showInstanceAt
  by_cases h : pos ≥ v.items.length
  · rw [if_pos h]
    exact ⟨fun it hit => by simp at hit, fun hlt => absurd h (not_le.mpr hlt)⟩
  · rw [if_neg h]
    have hlt : pos < v.items.length := not_le.mp h
    cases hcur : (v.items[pos]?).join with
    | some it0 =>
      refine ⟨fun it hit => ?_, fun _ _ => ⟨_, rfl⟩⟩
      simp only [Option.some.injEq] at hit
      subst hit
      refine ⟨by split_ifs <;> rfl, ?_⟩
      simp [List.getElem?_set, hlt]
    | none =>
      cases shown with
      | none =>
        refine ⟨fun it hit => by simp at hit, fun _ hor => ?_⟩
        rcases hor with hor | hor <;> exact absurd rfl hor
      | some it1 =>
        refine ⟨fun it hit => ?_, fun _ _ => ⟨_, rfl⟩⟩
        simp only [Option.some.injEq] at hit
        subst hit
        refine ⟨by split_ifs <;> rfl, ?_⟩
        simp [List.getElem?_set, hlt]

theorem mem_handlesOf (items : List (Option DrawingItem)) (h : Nat) :
    h ∈ handlesOf items ↔ ∃ g, some g ∈ items ∧ g.id = h := by
  unfold handlesOf
  rw [List.mem_filterMap]
  constructor
  · rintro ⟨slot, hs, hm⟩
    cases slot with
    | none => simp at hm
    | some g => exact ⟨g, hs, by simpa using hm⟩
  · rintro ⟨g, hg, rfl⟩
    exact ⟨some g, hg, rfl⟩

theorem showInstanceAt_out_of_range (ext : Extern) (marker : SPMarker)
    (shown : Option DrawingItem) (parent pos : Nat) (base : Affine) (lw : ℚ) (d : Drawing)
    (v : SPMarkerView) (h : pos ≥ v.items.length) :
    showInstanceAt ext marker shown parent pos base lw d v = (none, v, d) := by
  unfold showInstanceAt
  rw [if_pos h]

theorem showInstanceAt_items (ext : Extern) (marker : SPMarker) (shown : Option DrawingItem)
    (parent pos : Nat) (base : Affine) (lw : ℚ) (d : Drawing) (v : SPMarkerView)
    (h : pos < v.items.length) :
    (showInstanceAt ext marker shown parent pos base lw d v).2.1.items =
      v.items.set pos (showInstanceAt ext marker shown parent pos base lw d v).1 := by
  unfold showInstanceAt
  rw [if_neg (not_le.mpr h)]

theorem showInstanceAt_reuse (ext : Extern) (marker : SPMarker) (shown : Option DrawingItem)
    (parent pos : Nat) (base : Affine) (lw : ℚ) (d : Drawing) (v : SPMarkerView)
    (it0 : DrawingItem) (h : v.items[pos]? = some (some it0)) :
    ∃ it, (showInstanceAt ext marker shown parent pos base lw d v).1 = some it ∧
      it.id = it0.id ∧ it.childTransform = it0.childTransform ∧
      (showInstanceAt ext marker shown parent pos base lw d v).2.2 = d := by
  have hlt : pos < v.items.length := by
    by_contra hc
    rw [List.getElem?_eq_none (not_lt.mp hc)] at h
    exact absurd h (by simp)
  unfold showInstanceAt
  rw [if_neg (not_le.mpr hlt)]
  simp only [h, Option.join]
  exact ⟨_, rfl, rfl, rfl, rfl⟩

/-- The body of the loop keeps every item of the view and adds the one it returns. -/
theorem showInstanceAt_handles (ext : Extern) (marker : SPMarker) (shown : Option DrawingItem)
    (parent pos : Nat) (base : Affine) (lw : ℚ) (d : Drawing) (v : SPMarkerView) :
    (∀ h ∈ handlesOf v.items,
      h ∈ handlesOf (showInstanceAt ext marker shown parent pos base lw d v).2.1.items) ∧
    (∀ it, (showInstanceAt ext marker shown parent pos base lw d v).1 = some it →
      it.id ∈ handlesOf (showInstanceAt ext marker shown parent pos base lw d v).2.1.items) := by
  by_cases hr : pos ≥ v.items.length
  · rw [showInstanceAt_out_of_range ext marker shown parent pos base lw d v hr]
    exact ⟨fun h hh => hh, fun it hit => by simp at hit⟩
  · have hlt : pos < v.items.length := not_le.mp hr
    have hitems := showInstanceAt_items ext marker shown parent pos base lw d v hlt
    constructor
    · intro h hh
      obtain ⟨g, hg, hid⟩ := (mem_handlesOf _ _).mp hh
      obtain ⟨i, hi⟩ := List.mem_iff_getElem?.mp hg
      rw [mem_handlesOf, hitems]
      by_cases hip : pos = i
      · subst hip
        obtain ⟨it, hit, hid2, _, _⟩ :=
          showInstanceAt_reuse ext marker shown parent pos base lw d v g hi
        refine ⟨it, ?_, hid2.trans hid⟩
        rw [hit]
        exact List.mem_iff_getElem?.mpr ⟨pos, List.getElem?_set_self hlt⟩
      · refine ⟨g, ?_, hid⟩
        exact List.mem_iff_getElem?.mpr ⟨i, by rw [List.getElem?_set_ne hip]; exact hi⟩
    · intro it hit
      rw [mem_handlesOf, hitems]
      refine ⟨it, ?_, rfl⟩
      rw [hit]
      exact List.mem_iff_getElem?.mpr ⟨pos, List.getElem?_set_self hlt⟩

theorem handlesUnder_cons_eq (v : SPMarkerView) (vs : List SPMarkerView) (key : Nat)
    (h : v.key = key) : handlesUnder (v :: vs) key = handlesOf v.items := by
  simp [handlesUnder, viewOf_cons_eq v vs key h]

theorem handlesUnder_cons_ne (v : SPMarkerView) (vs : List SPMarkerView) (key : Nat)
    (h : ¬ v.key = key) : handlesUnder (v :: vs) key = handlesUnder vs key := by
  simp [handlesUnder, viewOf_cons_ne v vs key h]

/-- The loop keeps every item held under every key and adds the one it returns
to those held under its own key. -/
theorem showInstanceLoop_handles (ext : Extern) (marker : SPMarker)
    (shown : Option DrawingItem) (parent key pos : Nat) (base : Affine) (lw : ℚ) (d : Drawing)
    (views : List SPMarkerView) :
    (∀ k, ∀ h ∈ handlesUnder views k,
      h ∈ handlesUnder (showInstanceLoop ext marker shown parent key pos base lw d views).2.1 k) ∧
    (∀ it, (showInstanceLoop ext marker shown parent key pos base lw d views).1 = some it →
      it.id ∈
        handlesUnder (showInstanceLoop ext marker shown parent key pos base lw d views).2.1 key) := by
  induction views with
  | nil => exact ⟨fun k h hh => hh, fun it hit => by simp [showInstanceLoop] at hit⟩
  | cons v vs ih =>
    by_cases hk : v.key = key
    · have hk2 : (showInstanceAt ext marker shown parent pos base lw d v).2.1.key = v.key :=
        showInstanceAt_key ext marker shown parent pos base lw d v
      have hat := showInstanceAt_handles ext marker shown parent pos base lw d v
      rw [showInstanceLoop_cons_eq _ _ _ _ _ _ _ _ _ _ _ hk]
      constructor
      · intro k h hh
        by_cases hk3 : v.key = k
        · rw [handlesUnder_cons_eq v vs k hk3] at hh
          rw [handlesUnder_cons_eq _ vs k (hk2.trans hk3)]
          exact hat.1 h hh
        · rw [handlesUnder_cons_ne v vs k hk3] at hh
          rw [handlesUnder_cons_ne _ vs k (by rw [hk2]; exact hk3)]
          exact hh
      · intro it hit
        rw [handlesUnder_cons_eq _ vs key (hk2.trans hk)]
        exact hat.2 it hit
    · rw [showInstanceLoop_cons_ne _ _ _ _ _ _ _ _ _ _ _ hk]
      constructor
      · intro k h hh
        by_cases hk3 : v.key = k
        · rw [handlesUnder_cons_eq v vs k hk3] at hh
          rw [handlesUnder_cons_eq v _ k hk3]
          exact hh
        · rw [handlesUnder_cons_ne v vs k hk3] at hh
          rw [handlesUnder_cons_ne v _ k hk3]
          exact ih.1 k h hh
      · intro it hit
        rw [handlesUnder_cons_ne v _ key hk]
        exact ih.2 it hit

theorem show_instance_handles (ext : Extern) (marker : SPMarker) (d : Drawing)
    (shown : Option DrawingItem) (parent key pos : Nat) (base : Affine) (lw : ℚ) :
    (∀ k, ∀ h ∈ handlesUnder marker.views k,
      h ∈ handlesUnder
        (sp_marker_show_instance ext marker d shown parent key pos base lw).2.1.views k) ∧
    (∀ it, (sp_marker_show_instance ext marker d shown parent key pos base lw).1 = some it →
      it.id ∈ handlesUnder
        (sp_marker_show_instance ext marker d shown parent key pos base lw).2.1.views key) := by
  unfold sp_marker_show_instance
  by_cases h : marker.markerUnits = SP_MARKER_UNITS_STROKEWIDTH ∧ lw = 0
  · rw [if_pos h]
    exact ⟨fun k x hx => hx, fun it hit => by simp at hit⟩
  · rw [if_neg h]
    exact showInstanceLoop_handles ext marker shown parent key pos base lw d marker.views

/-- Every item returned by one of a sequence of calls is held, after the whole
sequence, under the key of its call; items held before stay held. -/
theorem showAll_handles (ext : Extern) (calls : List ShowCall) :
    ∀ st : SPMarker × Drawing,
      (∀ k, ∀ h ∈ handlesUnder st.1.views k, h ∈ handlesUnder (showAll ext st calls).1.views k) ∧
      (∀ k it, (k, some it) ∈ showAllReturned ext st calls →
        it.id ∈ handlesUnder (showAll ext st calls).1.views k) := by
  induction calls with
  | nil =>
    intro st
    exact ⟨fun k h hh => hh, fun k it hit => by simp [showAllReturned] at hit⟩
  | cons c cs ih =>
    intro st
    have h1 := show_instance_handles ext st.1 st.2 c.shown c.parent c.key c.pos c.base c.linewidth
    have h2 := ih (sp_marker_show_instance ext st.1 st.2 c.shown c.parent c.key c.pos c.base
      c.linewidth).2
    have e : showAll ext st (c :: cs) = showAll ext (sp_marker_show_instance ext st.1 st.2 c.shown
        c.parent c.key c.pos c.base c.linewidth).2 cs := rfl
    rw [e]
    constructor
    · intro k h hh
      exact h2.1 k h (h1.1 k h hh)
    · intro k it hit
      simp only [showAllReturned, List.mem_cons, Prod.mk.injEq] at hit
      rcases hit with ⟨hk, hret⟩ | hit
      · subst hk
        exact h2.1 _ _ (h1.2 it hret.symm)
      · exact h2.2 k it hit

/-- C7. Suppression: for a marker whose markerUnits is strokeWidth, and for every
key, pos, parent and base, `sp_marker_show_instance` with linewidth 0 returns NULL
and leaves the marker, its whole view cache included, and the backend as they
were: no view is added or removed, no slot changes, no item is created,
returned or transformed. -/
theorem show_instance_suppressed (ext : Extern) (marker : SPMarker) (d : Drawing)
    (shown : Option DrawingItem) (parent key pos : Nat) (base : Affine)
    (h : marker.markerUnits = SP_MARKER_UNITS_STROKEWIDTH) :
    sp_marker_show_instance ext marker d shown parent key pos base 0 = (none, marker, d) := by
  unfold sp_marker_show_instance
  rw [if_pos ⟨h, rfl⟩]

/-- Witness of C7: the view with key 7 holds the item 1 in slot 0; the call for
that slot with linewidth 0 returns NULL and changes nothing. -/
theorem show_instance_suppressed_witness :
    sp_marker_show_instance decimalExtern
      { SPMarker.new with
        views := [⟨7, [some ⟨1, Affine.identity, Affine.identity⟩, none]⟩] }
      Drawing.empty (some ⟨2, Affine.identity, Affine.identity⟩) 0 7 0 (Translate 3 4) 0 =
    (none,
     { SPMarker.new with
        views := [⟨7, [some ⟨1, Affine.identity, Affine.identity⟩, none]⟩] },
     Drawing.empty) :=
  show_instance_suppressed decimalExtern _ Drawing.empty _ 0 7 0 (Translate 3 4) rfl

/-- C8. For every call of `sp_marker_show_instance` that is not suppressed: an
item the call returns has the transform `P` when markerUnits is not strokeWidth
(userSpaceOnUse) and `Scale(linewidth) * P` (the scale first) when markerUnits is
strokeWidth, where `P` is `base` when orient_auto is set and otherwise the
rotation by `orient` degrees followed by the translation by `base.translation()`,
and that item is the content of slot `(key, pos)` afterwards; and an item is
returned whenever the key has a view, `pos` is below its slot count and the slot
holds an item or the parent class `show` delivers one. -/
theorem show_instance_transform (ext : Extern) (marker : SPMarker) (d : Drawing)
    (shown : Option DrawingItem) (parent key pos : Nat) (base : Affine) (lw : ℚ)
    (hns : ¬ (marker.markerUnits = SP_MARKER_UNITS_STROKEWIDTH ∧ lw = 0)) :
    (∀ it, (sp_marker_show_instance ext marker d shown parent key pos base lw).1 = some it →
      it.transform =
        (if marker.markerUnits = SP_MARKER_UNITS_STROKEWIDTH then
          Scale lw lw *
            (if marker.orient_auto then base
             else ext.from_degrees marker.orient * Translate base.translation.x base.translation.y)
         else
          (if marker.orient_auto then base
           else ext.from_degrees marker.orient * Translate base.translation.x base.translation.y)) ∧
      slotAt (sp_marker_show_instance ext marker d shown parent key pos base lw).2.1.views key pos
        = some it) ∧
    (∀ v, viewOf marker.views key = some v → pos < v.items.length →
      ((v.items[pos]?).join ≠ none ∨ shown ≠ none) →
      ∃ it, (sp_marker_show_instance ext marker d shown parent key pos base lw).1 = some it) := by
  have hloop := showInstanceLoop_viewOf ext marker shown parent key pos base lw d marker.views
  unfold sp_marker_show_instance
  rw [if_neg hns]
  simp only [slotAt]
  rw [hloop.1, hloop.2]
  cases hv : viewOf marker.views key with
  | none =>
    exact ⟨fun it hit => by simp at hit, fun v hv2 => by simp at hv2⟩
  | some v =>
    have hat := showInstanceAt_result ext marker shown parent pos base lw d v
    refine ⟨fun it hit => ?_, fun w hw hlt hor => ?_⟩
    · exact hat.1 it hit
    · simp only [Option.some.injEq] at hw
      subst hw
      exact hat.2 hlt hor

/-- Witness of C8: markerUnits strokeWidth, linewidth 2, orient 90 degrees, base
the translation by (3,4), and an empty slot 0 under key 7 for which the parent
class `show` delivers the item 5. -/
theorem show_instance_transform_witness :
    ∃ it, (sp_marker_show_instance decimalExtern
        { SPMarker.new with orient := 90, orient_set := true, views := [⟨7, [none]⟩] }
        Drawing.empty (some ⟨5, Affine.identity, Affine.identity⟩) 0 7 0 (Translate 3 4) 2).1
          = some it ∧
      it.transform = Scale 2 2 * (rightAngleRotation 90 * Translate 3 4) := by
  have h := show_instance_transform decimalExtern
    { SPMarker.new with orient := 90, orient_set := true, views := [⟨7, [none]⟩] }
    Drawing.empty (some ⟨5, Affine.identity, Affine.identity⟩) 0 7 0 (Translate 3 4) 2
    (by norm_num)
  obtain ⟨it, hit⟩ := h.2 ⟨7, [none]⟩ rfl (by decide) (Or.inr (by simp))
  exact ⟨it, hit, (h.1 it hit).1⟩

theorem viewOf_show_dimension (marker : SPMarker) (d : Drawing) (key size : Nat) :
    ∃ v, viewOf (sp_marker_show_dimension marker d key size).1.views key = some v ∧
      v.key = key ∧ v.items.length = size := by
  rcases show_dimension_cases marker d key size with ⟨_, h⟩ | ⟨v, hv, hl, h⟩ | ⟨i, v, _, _, _, h⟩
  · rw [h]
    exact ⟨⟨key, List.replicate size none⟩, viewOf_cons_eq _ _ _ rfl, rfl, List.length_replicate _ _⟩
  · rw [h]
    exact ⟨v, hv, (viewOf_mem _ _ _ hv).2, hl⟩
  · rw [h]
    exact ⟨⟨key, List.replicate size none⟩, viewOf_cons_eq _ _ _ rfl, rfl, List.length_replicate _ _⟩

/-- C9. For every marker, key and size, after
`sp_marker_show_dimension (marker, key, size)` the view cache contains a view
with that key, the one every lookup by that key reaches, and it has exactly
`size` slots. -/
theorem show_dimension_slots (marker : SPMarker) (d : Drawing) (key size : Nat) :
    ∃ v, v ∈ (sp_marker_show_dimension marker d key size).1.views ∧
      viewOf (sp_marker_show_dimension marker d key size).1.views key = some v ∧
      v.key = key ∧ v.items.length = size := by
  obtain ⟨v, hv, hk, hl⟩ := viewOf_show_dimension marker d key size
  exact ⟨v, (viewOf_mem _ _ _ hv).1, hv, hk, hl⟩

/-- C10. Destructive resize: after `sp_marker_show_dimension (key, n)` and any
sequence of `sp_marker_show_instance` calls, the view of `key` has `n` slots and
holds every item those calls returned (created or found) under `key`; a
following `sp_marker_show_dimension (key, m)` with `m != n` deletes every item
held in those slots and leaves under `key` a view of `m` empty slots, and with
`m == n` it changes neither the marker nor the backend. -/
theorem show_dimension_resize (ext : Extern) (marker : SPMarker) (d : Drawing) (key n m : Nat)
    (calls : List ShowCall) (s2 s3 : SPMarker × Drawing)
    (h2 : s2 = showAll ext (sp_marker_show_dimension marker d key n) calls)
    (h3 : s3 = sp_marker_show_dimension s2.1 s2.2 key m) :
    ∃ v, viewOf s2.1.views key = some v ∧ v.items.length = n ∧
      (∀ it, (key, some it) ∈
          showAllReturned ext (sp_marker_show_dimension marker d key n) calls →
        it.id ∈ handlesOf v.items) ∧
      (m ≠ n →
        (∀ h ∈ handlesOf v.items, h ∈ s3.2.destroyed) ∧
        viewOf s3.1.views key = some ⟨key, List.replicate m none⟩) ∧
      (m = n → s3 = s2) := by
  obtain ⟨v1, hv1, _, hl1⟩ := viewOf_show_dimension marker d key n
  have hlen := showAll_length ext calls key (sp_marker_show_dimension marker d key n)
  have hret := (showAll_handles ext calls (sp_marker_show_dimension marker d key n)).2 key
  rw [← h2, hv1, Option.map_some', hl1] at hlen
  rw [← h2] at hret
  cases hv : viewOf s2.1.views key with
  | none => rw [hv] at hlen; simp at hlen
  | some v =>
    rw [hv] at hlen
    simp only [Option.map_some', Option.some.injEq] at hlen
    simp only [handlesUnder, hv] at hret
    refine ⟨v, rfl, hlen, hret, ?_, ?_⟩
    · intro hne
      rcases show_dimension_cases s2.1 s2.2 key m with ⟨hnone, _⟩ | ⟨w, hw, hl, _⟩ |
        ⟨i, w, _, hw, _, h⟩
      · rw [hv] at hnone; simp at hnone
      · rw [hv, Option.some.injEq] at hw
        subst hw
        exact absurd (hl.symm.trans hlen) hne
      · rw [hv, Option.some.injEq] at hw
        subst hw
        rw [h3, h]
        refine ⟨fun x hx => ?_, viewOf_cons_eq _ _ _ rfl⟩
        simp only [List.mem_append, List.mem_reverse]
        exact Or.inl hx
    · intro heq
      rcases show_dimension_cases s2.1 s2.2 key m with ⟨hnone, _⟩ | ⟨w, _, _, h⟩ |
        ⟨i, w, _, hw, hl, _⟩
      · rw [hv] at hnone; simp at hnone
      · rw [h3, h]
      · rw [hv, Option.some.injEq] at hw
        subst hw
        exact absurd (hlen.trans heq.symm) hl

/-- Witness of C10: on a constructed marker two slots are made under key 7, the
item 5 is created in slot 0 (linewidth 1), and the view is resized to three
slots: the item 5 is the one deleted and the three slots are empty. -/
theorem show_dimension_resize_witness :
    ∃ v, viewOf (showAll decimalExtern
          (sp_marker_show_dimension SPMarker.new Drawing.empty 7 2)
          [⟨some ⟨5, Affine.identity, Affine.identity⟩, 0, 7, 0, Translate 3 4, 1⟩]).1.views 7
        = some v ∧
      v.items.length = 2 ∧
      (∀ it, (7, some it) ∈
          showAllReturned decimalExtern (sp_marker_show_dimension SPMarker.new Drawing.empty 7 2)
            [⟨some ⟨5, Affine.identity, Affine.identity⟩, 0, 7, 0, Translate 3 4, 1⟩] →
        it.id ∈ handlesOf v.items) ∧
      (∀ h ∈ handlesOf v.items,
        h ∈ (sp_marker_show_dimension
          (showAll decimalExtern (sp_marker_show_dimension SPMarker.new Drawing.empty 7 2)
            [⟨some ⟨5, Affine.identity, Affine.identity⟩, 0, 7, 0, Translate 3 4, 1⟩]).1
          (showAll decimalExtern (sp_marker_show_dimension SPMarker.new Drawing.empty 7 2)
            [⟨some ⟨5, Affine.identity, Affine.identity⟩, 0, 7, 0, Translate 3 4, 1⟩]).2
          7 3).2.destroyed) ∧
      viewOf (sp_marker_show_dimension
          (showAll decimalExtern (sp_marker_show_dimension SPMarker.new Drawing.empty 7 2)
            [⟨some ⟨5, Affine.identity, Affine.identity⟩, 0, 7, 0, Translate 3 4, 1⟩]).1
          (showAll decimalExtern (sp_marker_show_dimension SPMarker.new Drawing.empty 7 2)
            [⟨some ⟨5, Affine.identity, Affine.identity⟩, 0, 7, 0, Translate 3 4, 1⟩]).2
          7 3).1.views 7 = some ⟨7, [none, none, none]⟩ ∧
      (sp_marker_show_dimension
          (showAll decimalExtern (sp_marker_show_dimension SPMarker.new Drawing.empty 7 2)
            [⟨some ⟨5, Affine.identity, Affine.identity⟩, 0, 7, 0, Translate 3 4, 1⟩]).1
          (showAll decimalExtern (sp_marker_show_dimension SPMarker.new Drawing.empty 7 2)
            [⟨some ⟨5, Affine.identity, Affine.identity⟩, 0, 7, 0, Translate 3 4, 1⟩]).2
          7 3).2.destroyed = [5] := by
  obtain ⟨v, hv, hl, hret, hne, _⟩ := show_dimension_resize decimalExtern SPMarker.new
    Drawing.empty 7 2 3 [⟨some ⟨5, Affine.identity, Affine.identity⟩, 0, 7, 0, Translate 3 4, 1⟩]
    _ _ rfl rfl
  exact ⟨v, hv, hl, hret, (hne (by decide)).1, (hne (by decide)).2, by decide⟩

/-! ## View isolation -/

theorem showInstanceLoop_filter (ext : Extern) (marker : SPMarker) (shown : Option DrawingItem)
    (parent key pos : Nat) (base : Affine) (lw : ℚ) (d : Drawing) (views : List SPMarkerView)
    (k : Nat) (hk : key ≠ k) :
    (showInstanceLoop ext marker shown parent key pos base lw d views).2.1.filter
        (fun v => v.key = k) = views.filter (fun v => v.key = k) := by
  induction views with
  | nil => rfl
  | cons v vs ih =>
    by_cases h : v.key = key
    · have hk2 := showInstanceAt_key ext marker shown parent pos base lw d v
      rw [showInstanceLoop_cons_eq _ _ _ _ _ _ _ _ _ _ _ h]
      have h1 : ¬ v.key = k := fun e => hk (h.symm.trans e)
      have h2 : ¬ (showInstanceAt ext marker shown parent pos base lw d v).2.1.key = k := by
        rw [hk2]; exact h1
      simp [List.filter_cons, h1, h2]
    · rw [showInstanceLoop_cons_ne _ _ _ _ _ _ _ _ _ _ _ h]
      simp only [List.filter_cons]
      rw [ih]

theorem findView_key (views : List SPMarkerView) (key i : Nat)
    (h : findView views key = some i) : ∃ v, views[i]? = some v ∧ v.key = key := by
  obtain ⟨v, hv1, hv2⟩ := findView_some_get views key i h
  exact ⟨v, hv1, (viewOf_mem _ _ _ hv2).2⟩

theorem filter_eraseIdx_other (views : List SPMarkerView) (i k : Nat) (v : SPMarkerView)
    (hv : views[i]? = some v) (hk : ¬ v.key = k) :
    (views.eraseIdx i).filter (fun w => w.key = k) = views.filter (fun w => w.key = k) := by
  induction views generalizing i with
  | nil => rfl
  | cons w ws ih =>
    cases i with
    | zero =>
      simp only [List.getElem?_cons_zero, Option.some.injEq] at hv
      subst hv
      simp [List.filter_cons, hk]
    | succ j =>
      rw [List.getElem?_cons_succ] at hv
      simp only [List.eraseIdx_cons_succ, List.filter_cons]
      rw [ih j hv]

theorem viewOf_eq_filter_head (views : List SPMarkerView) (k : Nat) :
    viewOf views k = (views.filter (fun v => v.key = k)).head? := by
  induction views with
  | nil => rfl
  | cons v vs ih =>
    by_cases h : v.key = k
    · simp [viewOf, List.filter_cons, h]
    · simp [viewOf, List.filter_cons, h, ih]

theorem show_instance_filter (ext : Extern) (marker : SPMarker) (d : Drawing)
    (shown : Option DrawingItem) (parent key pos : Nat) (base : Affine) (lw : ℚ) (k : Nat)
    (hk : key ≠ k) :
    (sp_marker_show_instance ext marker d shown parent key pos base lw).2.1.views.filter
        (fun v => v.key = k) = marker.views.filter (fun v => v.key = k) := by
  unfold sp_marker_show_instance
  by_cases h : marker.markerUnits = SP_MARKER_UNITS_STROKEWIDTH ∧ lw = 0
  · rw [if_pos h]
  · rw [if_neg h]
    exact showInstanceLoop_filter ext marker shown parent key pos base lw d marker.views k hk

theorem show_dimension_filter (marker : SPMarker) (d : Drawing) (key size k : Nat)
    (hk : key ≠ k) :
    (sp_marker_show_dimension marker d key size).1.views.filter (fun v => v.key = k) =
      marker.views.filter (fun v => v.key = k) := by
  rcases show_dimension_cases marker d key size with ⟨_, h⟩ | ⟨v, _, _, h⟩ | ⟨i, v, hf, _, _, h⟩
  · rw [h]
    simp [List.filter_cons, hk]
  · rw [h]
  · rw [h]
    obtain ⟨w, hw1, hw2⟩ := findView_key _ _ _ hf
    have hne : ¬ w.key = k := by rw [hw2]; exact hk
    simp only [List.filter_cons, hk, decide_False, Bool.false_eq_true, if_false]
    exact filter_eraseIdx_other _ _ _ w hw1 hne

/-- C11. View isolation: for two distinct keys `k1 != k2`, a call
`sp_marker_show_instance (marker, parent, k1, pos, base, linewidth)` leaves the
views with key `k2` as they were, with their slots, items and item transforms
(the list of all views carrying `k2`, and so the view a lookup by `k2` reaches);
likewise `sp_marker_show_dimension (marker, k1, size)`. -/
theorem view_isolation (ext : Extern) (marker : SPMarker) (d : Drawing)
    (shown : Option DrawingItem) (parent k1 k2 pos size : Nat) (base : Affine) (lw : ℚ)
    (hk : k1 ≠ k2) :
    ((sp_marker_show_instance ext marker d shown parent k1 pos base lw).2.1.views.filter
        (fun v => v.key = k2) = marker.views.filter (fun v => v.key = k2) ∧
      viewOf (sp_marker_show_instance ext marker d shown parent k1 pos base lw).2.1.views k2 =
        viewOf marker.views k2) ∧
    ((sp_marker_show_dimension marker d k1 size).1.views.filter (fun v => v.key = k2) =
        marker.views.filter (fun v => v.key = k2) ∧
      viewOf (sp_marker_show_dimension marker d k1 size).1.views k2 = viewOf marker.views k2) := by
  have h1 := show_instance_filter ext marker d shown parent k1 pos base lw k2 hk
  have h2 := show_dimension_filter marker d k1 size k2 hk
  refine ⟨⟨h1, ?_⟩, ⟨h2, ?_⟩⟩
  · rw [viewOf_eq_filter_head, viewOf_eq_filter_head, h1]
  · rw [viewOf_eq_filter_head, viewOf_eq_filter_head, h2]

/-- Witness of C11: the views with keys 1 and 2 each hold one item; a call for
key 1 (linewidth 2, base the translation by (3,4)) and a resize of key 1 leave the
view of key 2 as it was. -/
theorem view_isolation_witness :
    viewOf (sp_marker_show_instance decimalExtern
        { SPMarker.new with
          views := [⟨1, [some ⟨10, Affine.identity, Affine.identity⟩]⟩,
                    ⟨2, [some ⟨20, Affine.identity, Scale 5 5⟩]⟩] }
        Drawing.empty none 0 1 0 (Translate 3 4) 2).2.1.views 2 =
      some ⟨2, [some ⟨20, Affine.identity, Scale 5 5⟩]⟩ ∧
    viewOf (sp_marker_show_dimension
        { SPMarker.new with
          views := [⟨1, [some ⟨10, Affine.identity, Affine.identity⟩]⟩,
                    ⟨2, [some ⟨20, Affine.identity, Scale 5 5⟩]⟩] }
        Drawing.empty 1 4).1.views 2 =
      some ⟨2, [some ⟨20, Affine.identity, Scale 5 5⟩]⟩ :=
  ⟨(view_isolation decimalExtern
      { SPMarker.new with
        views := [⟨1, [some ⟨10, Affine.identity, Affine.identity⟩]⟩,
                  ⟨2, [some ⟨20, Affine.identity, Scale 5 5⟩]⟩] }
      Drawing.empty none 0 1 2 0 4 (Translate 3 4) 2 (by decide)).1.2,
   (view_isolation decimalExtern
      { SPMarker.new with
        views := [⟨1, [some ⟨10, Affine.identity, Affine.identity⟩]⟩,
                  ⟨2, [some ⟨20, Affine.identity, Scale 5 5⟩]⟩] }
      Drawing.empty none 0 1 2 0 4 (Translate 3 4) 2 (by decide)).2.2⟩

/-! ## `sp_marker_hide` and `SPMarker::release` -/

theorem findView_none_iff (views : List SPMarkerView) (key : Nat) :
    findView views key = none ↔ ∀ v ∈ views, ¬ v.key = key := by
  induction views with
  | nil => simp [findView]
  | cons w ws ih =>
    by_cases hk : w.key = key
    · simp [findView, hk]
    · simp [findView, hk, ih]

theorem hide_cases (marker : SPMarker) (d : Drawing) (key : Nat) :
    (findView marker.views key = none ∧ sp_marker_hide marker d key = (marker, d)) ∨
    (∃ i v, findView marker.views key = some i ∧ marker.views[i]? = some v ∧ v.key = key ∧
      viewOf marker.views key = some v ∧
      sp_marker_hide marker d key =
        ({ marker with views := marker.views.eraseIdx i },
         { d.hide key with destroyed := (handlesOf v.items).reverse ++ (d.hide key).destroyed })) := by
  cases hf : findView marker.views key with
  | none =>
    left
    exact ⟨rfl, by simp only [sp_marker_hide, hf]⟩
  | some i =>
    right
    obtain ⟨v, hv1, hv2⟩ := findView_some_get _ _ _ hf
    refine ⟨i, v, rfl, hv1, (viewOf_mem _ _ _ hv2).2, hv2, ?_⟩
    simp only [sp_marker_hide, hf, sp_marker_view_remove, hv1, Drawing.hide, if_true]

theorem eraseIdx_findView_nodup (views : List SPMarkerView) (key i : Nat)
    (hf : findView views key = some i) (hnd : (views.map (fun v => v.key)).Nodup) :
    views.eraseIdx i = views.filter (fun v => ¬ v.key = key) := by
  induction views generalizing i with
  | nil => simp [findView] at hf
  | cons w ws ih =>
    rw [List.map_cons, List.nodup_cons] at hnd
    by_cases hk : w.key = key
    · simp only [findView, hk, if_true, Option.some.injEq] at hf
      subst hf
      have hall : ∀ v ∈ ws, ¬ v.key = key := by
        intro v hv e
        exact hnd.1 (List.mem_map.mpr ⟨v, hv, e.trans hk.symm⟩)
      have hfilter : ws.filter (fun v => ¬ v.key = key) = ws := by
        apply List.filter_eq_self.mpr
        intro v hv
        simpa using hall v hv
      have hfilter2 : ws.filter (fun v => !decide (v.key = key)) = ws := by
        simpa using hfilter
      simp [List.filter_cons, hk, hfilter2]
    · simp only [findView, hk, if_false, Option.map_eq_some'] at hf
      obtain ⟨j, hj, rfl⟩ := hf
      simp only [List.eraseIdx_cons_succ, List.filter_cons, hk, not_false_eq_true, decide_True,
        if_true]
      rw [ih j hj hnd.2]

/-- C12. For every marker whose views have pairwise distinct keys, after
`sp_marker_hide (marker, key)` the list of views is the old one without the view
of that key, so no view with that key is left and the views of all other keys
keep their order, slots and items; every item stored under that key is deleted;
nothing but the list of views changes in the marker.  When no view has that key,
marker and backend are unchanged. -/
theorem hide_removes_view (marker : SPMarker) (d : Drawing) (key : Nat) :
    ((marker.views.map (fun v => v.key)).Nodup →
      (sp_marker_hide marker d key).1 =
          { marker with views := marker.views.filter (fun v => ¬ v.key = key) } ∧
      (∀ v ∈ (sp_marker_hide marker d key).1.views, ¬ v.key = key) ∧
      viewOf (sp_marker_hide marker d key).1.views key = none ∧
      (∀ v ∈ marker.views, v.key = key →
        ∀ h ∈ handlesOf v.items, h ∈ (sp_marker_hide marker d key).2.destroyed)) ∧
    ((∀ v ∈ marker.views, ¬ v.key = key) → sp_marker_hide marker d key = (marker, d)) := by
  constructor
  · intro hnd
    have hviews : (sp_marker_hide marker d key).1 =
        { marker with views := marker.views.filter (fun v => ¬ v.key = key) } := by
      rcases hide_cases marker d key with ⟨hf, h⟩ | ⟨i, v, hf, _, _, _, h⟩
      · rw [h]
        have hall := (findView_none_iff _ _).mp hf
        have hfilter : marker.views.filter (fun v => ¬ v.key = key) = marker.views := by
          apply List.filter_eq_self.mpr
          intro v hv
          simpa using hall v hv
        rw [hfilter]
      · rw [h, eraseIdx_findView_nodup _ _ _ hf hnd]
    have hno : ∀ v ∈ (sp_marker_hide marker d key).1.views, ¬ v.key = key := by
      rw [hviews]
      intro v hv
      have := (List.mem_filter.mp hv).2
      simpa using this
    refine ⟨hviews, hno, ?_, ?_⟩
    · cases hv : viewOf (sp_marker_hide marker d key).1.views key with
      | none => rfl
      | some v => exact absurd (viewOf_mem _ _ _ hv).2 (hno v (viewOf_mem _ _ _ hv).1)
    · intro v hv hk h hh
      rcases hide_cases marker d key with ⟨hf, _⟩ | ⟨i, w, hf, hw, hwk, _, hres⟩
      · exact absurd hk ((findView_none_iff _ _).mp hf v hv)
      · rw [hres]
        have hvw : v = w := by
          have hinj := List.inj_on_of_nodup_map hnd
          exact hinj hv (List.mem_iff_getElem?.mpr ⟨i, hw⟩) (hk.trans hwk.symm)
        subst hvw
        simp only [List.mem_append, List.mem_reverse]
        exact Or.inl hh
  · intro hall
    rcases hide_cases marker d key with ⟨_, h⟩ | ⟨i, v, _, hv, hk, _, _⟩
    · exact h
    · exact absurd hk (hall v (List.mem_iff_getElem?.mpr ⟨i, hv⟩))

/-- Witness of C12: the views with keys 1 and 2 hold the items 10 and 20.
Hiding key 2 leaves the view of key 1 alone and deletes the item 20; hiding the
key 3, which no view has, changes nothing. -/
theorem hide_removes_view_witness :
    (sp_marker_hide
        { SPMarker.new with
          views := [⟨1, [some ⟨10, Affine.identity, Affine.identity⟩]⟩,
                    ⟨2, [some ⟨20, Affine.identity, Affine.identity⟩, none]⟩] }
        Drawing.empty 2).1.views = [⟨1, [some ⟨10, Affine.identity, Affine.identity⟩]⟩] ∧
    20 ∈ (sp_marker_hide
        { SPMarker.new with
          views := [⟨1, [some ⟨10, Affine.identity, Affine.identity⟩]⟩,
                    ⟨2, [some ⟨20, Affine.identity, Affine.identity⟩, none]⟩] }
        Drawing.empty 2).2.destroyed ∧
    sp_marker_hide
        { SPMarker.new with
          views := [⟨1, [some ⟨10, Affine.identity, Affine.identity⟩]⟩,
                    ⟨2, [some ⟨20, Affine.identity, Affine.identity⟩, none]⟩] }
        Drawing.empty 3 =
      ({ SPMarker.new with
          views := [⟨1, [some ⟨10, Affine.identity, Affine.identity⟩]⟩,
                    ⟨2, [some ⟨20, Affine.identity, Affine.identity⟩, none]⟩] },
       Drawing.empty) := by
  obtain ⟨h1, _, _, h4⟩ := (hide_removes_view
    { SPMarker.new with
      views := [⟨1, [some ⟨10, Affine.identity, Affine.identity⟩]⟩,
                ⟨2, [some ⟨20, Affine.identity, Affine.identity⟩, none]⟩] }
    Drawing.empty 2).1 (by decide)
  refine ⟨?_, ?_, ?_⟩
  · rw [h1]; rfl
  · exact h4 ⟨2, [some ⟨20, Affine.identity, Affine.identity⟩, none]⟩ (by simp) rfl 20
      (by simp [handlesOf])
  · exact (hide_removes_view
      { SPMarker.new with
        views := [⟨1, [some ⟨10, Affine.identity, Affine.identity⟩]⟩,
                  ⟨2, [some ⟨20, Affine.identity, Affine.identity⟩, none]⟩] }
      Drawing.empty 3).2 (by decide)

theorem view_remove_head (m : SPMarker) (d : Drawing) (v : SPMarkerView)
    (vs : List SPMarkerView) (h : m.views = v :: vs) :
    sp_marker_view_remove m d 0 true =
      ({ m with views := vs }, { d with destroyed := (handlesOf v.items).reverse ++ d.destroyed }) := by
  simp [sp_marker_view_remove, h]

theorem releaseLoop_nil (fuel : Nat) (m : SPMarker) (d : Drawing) (h : m.views = []) :
    releaseLoop fuel m d = some (m, d, 0) := by
  cases fuel <;> simp [releaseLoop, h]

theorem releaseLoop_cons (fuel : Nat) (m : SPMarker) (d : Drawing) (v : SPMarkerView)
    (vs : List SPMarkerView) (h : m.views = v :: vs) :
    releaseLoop (fuel + 1) m d =
      (releaseLoop fuel { m with views := vs }
        { d.hide v.key with destroyed := (handlesOf v.items).reverse ++ (d.hide v.key).destroyed }).map
        (fun r => (r.1, r.2.1, r.2.2 + 1)) := by
  simp only [releaseLoop, h, view_remove_head m (d.hide v.key) v vs h]

/-- With fuel for one iteration per view the loop of `release` ends with an
empty list of views after exactly that many iterations, and every item of every
view is among the deleted ones afterwards. -/
theorem releaseLoop_enough (fuel : Nat) :
    ∀ (m : SPMarker) (d : Drawing), m.views.length ≤ fuel →
      ∃ d1, releaseLoop fuel m d = some ({ m with views := [] }, d1, m.views.length) ∧
        (∀ h ∈ d.destroyed, h ∈ d1.destroyed) ∧
        (∀ v ∈ m.views, ∀ h ∈ handlesOf v.items, h ∈ d1.destroyed) ∧
        d1.prepended = d.prepended := by
  induction fuel with
  | zero =>
    intro m d hlen
    have hnil : m.views = [] := List.length_eq_zero.mp (Nat.le_zero.mp hlen)
    refine ⟨d, ?_, fun h hh => hh, ?_, rfl⟩
    · rw [releaseLoop_nil 0 m d hnil, hnil]
      cases m
      simp only at hnil
      subst hnil
      rfl
    · intro v hv
      rw [hnil] at hv
      simp at hv
  | succ fuel ih =>
    intro m d hlen
    cases hviews : m.views with
    | nil =>
      refine ⟨d, ?_, fun h hh => hh, ?_, rfl⟩
      · rw [releaseLoop_nil _ m d hviews]
        cases m
        simp only at hviews
        subst hviews
        rfl
      · intro v hv
        simp at hv
    | cons v vs =>
      rw [hviews, List.length_cons] at hlen
      obtain ⟨d1, h1, h2, h3, h4⟩ := ih { m with views := vs }
        { d.hide v.key with destroyed := (handlesOf v.items).reverse ++ (d.hide v.key).destroyed }
        (Nat.le_of_succ_le_succ hlen)
      refine ⟨d1, ?_, ?_, ?_, ?_⟩
      · rw [releaseLoop_cons fuel m d v vs hviews, h1]
        rfl
      · intro h hh
        apply h2
        simp only [List.mem_append, List.mem_reverse]
        exact Or.inr hh
      · intro w hw h hh
        rcases List.mem_cons.mp hw with hw | hw
        · subst hw
          apply h2
          simp only [List.mem_append, List.mem_reverse]
          exact Or.inl hh
        · exact h3 w hw h hh
      · rw [h4]; rfl

/-- With less fuel than views the loop of `release` does not come to its end. -/
theorem releaseLoop_short (fuel : Nat) :
    ∀ (m : SPMarker) (d : Drawing), fuel < m.views.length → releaseLoop fuel m d = none := by
  induction fuel with
  | zero =>
    intro m d hlen
    cases hviews : m.views with
    | nil => rw [hviews] at hlen; simp at hlen
    | cons v vs => simp [releaseLoop, hviews]
  | succ fuel ih =>
    intro m d hlen
    cases hviews : m.views with
    | nil => rw [hviews] at hlen; simp at hlen
    | cons v vs =>
      rw [hviews, List.length_cons] at hlen
      rw [releaseLoop_cons fuel m d v vs hviews, ih _ _ (by simpa using Nat.lt_of_succ_lt_succ hlen)]
      rfl

/-- C13. For every marker, whatever views it holds (none included),
`SPMarker::release` terminates: its loop needs exactly one iteration per view
(with that much fuel or more it ends after `views.length` iterations, with less
it does not end); afterwards the list of views is empty, nothing else of the
marker has changed, and every item of every slot of every view is deleted. -/
theorem release_destroys_all (m : SPMarker) (d : Drawing) (fuel : Nat) :
    (m.views.length ≤ fuel →
      ∃ d1, m.release fuel d = some ({ m with views := [] }, d1, m.views.length) ∧
        (∀ v ∈ m.views, ∀ h ∈ handlesOf v.items, h ∈ d1.destroyed)) ∧
    (fuel < m.views.length → m.release fuel d = none) := by
  constructor
  · intro hlen
    obtain ⟨d1, h1, _, h3, _⟩ := releaseLoop_enough fuel m d hlen
    exact ⟨d1, h1, h3⟩
  · intro hlen
    exact releaseLoop_short fuel m d hlen

/-- Witness of C13: a marker with two views, holding the items 10 and 20, is
released in two iterations and not in one; a constructed marker, never updated
or shown, is released in none. -/
theorem release_destroys_all_witness :
    (∃ d1, SPMarker.release 2
        { SPMarker.new with
          views := [⟨1, [some ⟨10, Affine.identity, Affine.identity⟩]⟩,
                    ⟨2, [some ⟨20, Affine.identity, Affine.identity⟩, none]⟩] }
        Drawing.empty = some (SPMarker.new, d1, 2) ∧ 10 ∈ d1.destroyed ∧ 20 ∈ d1.destroyed) ∧
    SPMarker.release 1
        { SPMarker.new with
          views := [⟨1, [some ⟨10, Affine.identity, Affine.identity⟩]⟩,
                    ⟨2, [some ⟨20, Affine.identity, Affine.identity⟩, none]⟩] }
        Drawing.empty = none ∧
    (∃ d1, SPMarker.release 0 SPMarker.new Drawing.empty = some (SPMarker.new, d1, 0)) := by
  refine ⟨?_, ?_, ?_⟩
  · obtain ⟨d1, h1, h2⟩ := (release_destroys_all
      { SPMarker.new with
        views := [⟨1, [some ⟨10, Affine.identity, Affine.identity⟩]⟩,
                  ⟨2, [some ⟨20, Affine.identity, Affine.identity⟩, none]⟩] }
      Drawing.empty 2).1 (by decide)
    refine ⟨d1, h1, ?_, ?_⟩
    · exact h2 ⟨1, [some ⟨10, Affine.identity, Affine.identity⟩]⟩ (by simp) 10 (by simp [handlesOf])
    · exact h2 ⟨2, [some ⟨20, Affine.identity, Affine.identity⟩, none]⟩ (by simp) 20
        (by simp [handlesOf])
  · exact (release_destroys_all
      { SPMarker.new with
        views := [⟨1, [some ⟨10, Affine.identity, Affine.identity⟩]⟩,
                  ⟨2, [some ⟨20, Affine.identity, Affine.identity⟩, none]⟩] }
      Drawing.empty 1).2 (by decide)
  · obtain ⟨d1, h1, _⟩ := (release_destroys_all SPMarker.new Drawing.empty 0).1 (by decide)
    exact ⟨d1, h1⟩

/-! ## `sp_marker_fork_if_necessary` -/

theorem lookupAttr_dropAttr_same (key : String) (l : List (String × List Char)) :
    lookupAttr key (dropAttr key l) = none := by
  induction l with
  | nil => rfl
  | cons a as ih =>
    by_cases h : a.1 = key
    · simp only [dropAttr, h, if_true]; exact ih
    · simp only [dropAttr, h, if_false, lookupAttr]; exact ih

theorem lookupAttr_dropAttr_ne (key k : String) (l : List (String × List Char)) (hk : ¬ k = key) :
    lookupAttr k (dropAttr key l) = lookupAttr k l := by
  have hk2 : ¬ key = k := fun e => hk e.symm
  induction l with
  | nil => rfl
  | cons a as ih =>
    by_cases h : a.1 = key
    · have h2 : ¬ a.1 = k := fun e => hk (e.symm.trans h)
      have e1 : dropAttr key (a :: as) = dropAttr key as := by simp [dropAttr, h]
      have e2 : lookupAttr k (a :: as) = lookupAttr k as := by simp [lookupAttr, h2]
      rw [e1, e2, ih]
    · have e1 : dropAttr key (a :: as) = a :: dropAttr key as := by simp [dropAttr, h]
      rw [e1]
      by_cases h2 : a.1 = k
      · have e2 : lookupAttr k (a :: as) = some a.2 := by simp [lookupAttr, h2]
        have e3 : lookupAttr k (a :: dropAttr key as) = some a.2 := by simp [lookupAttr, h2]
        rw [e2, e3]
      · have e2 : lookupAttr k (a :: as) = lookupAttr k as := by simp [lookupAttr, h2]
        have e3 : lookupAttr k (a :: dropAttr key as) = lookupAttr k (dropAttr key as) := by
          simp [lookupAttr, h2]
        rw [e2, e3, ih]

theorem attribute_setAttribute_same (n : Node) (key : String) (value : Option (List Char)) :
    (n.setAttribute key value).attribute key = value := by
  cases value with
  | none => exact lookupAttr_dropAttr_same key n.attrs
  | some v => simp [Node.setAttribute, Node.attribute, lookupAttr]

theorem attribute_setAttribute_ne (n : Node) (key k : String) (value : Option (List Char))
    (hk : ¬ k = key) : (n.setAttribute key value).attribute k = n.attribute k := by
  cases value with
  | none => exact lookupAttr_dropAttr_ne key k n.attrs hk
  | some v =>
    have hk2 : ¬ key = k := fun e => hk e.symm
    simp only [Node.setAttribute, Node.attribute, lookupAttr, hk2, if_false]
    exact lookupAttr_dropAttr_ne key k n.attrs hk

/-- The three ways through `sp_marker_fork_if_necessary`. -/
theorem fork_cases (prefs : Preferences) (docAdd : Node → Node) (marker : SPObject)
    (doc : Document) :
    (marker.hrefcount < 2 →
      sp_marker_fork_if_necessary prefs docAdd marker doc = (Forked.original, marker, doc)) ∧
    (2 ≤ marker.hrefcount → gateSaysNo prefs marker →
      sp_marker_fork_if_necessary prefs docAdd marker doc = (Forked.original, marker, doc)) ∧
    (2 ≤ marker.hrefcount → ¬ gateSaysNo prefs marker →
      sp_marker_fork_if_necessary prefs docAdd marker doc =
        (Forked.duplicate,
         { marker with
           repr := (marker.repr.setAttribute "inkscape:collect" none).setAttribute
             "inkscape:collect" (some "always".toList) },
         { doc with defs := forkedNode docAdd marker :: doc.defs })) := by
  refine ⟨?_, ?_, ?_⟩
  · intro h
    unfold sp_marker_fork_if_necessary
    rw [if_pos h]
  · intro h hg
    unfold sp_marker_fork_if_necessary
    rw [if_neg (not_lt.mpr h)]
    unfold gateSaysNo at hg
    by_cases hs : marker.repr.attribute "inkscape:isstock" = none ∨
        marker.repr.attribute "inkscape:isstock" = some "true".toList
    · rcases hg with ⟨_, hc⟩ | ⟨hn, _⟩
      · simp only [decide_eq_true hs, hc, if_true, Bool.not_false]
      · exact absurd hs hn
    · rcases hg with ⟨hy, _⟩ | ⟨_, hc⟩
      · exact absurd hy hs
      · simp only [decide_eq_false hs, hc, Bool.false_eq_true, if_false, Bool.not_false, if_true]
  · intro h hg
    unfold sp_marker_fork_if_necessary
    rw [if_neg (not_lt.mpr h)]
    unfold gateSaysNo at hg
    by_cases hs : marker.repr.attribute "inkscape:isstock" = none ∨
        marker.repr.attribute "inkscape:isstock" = some "true".toList
    · have hc : prefs.getBool "/options/markers/colorStockMarkers" true = true := by
        by_contra hc
        exact hg (Or.inl ⟨hs, by simpa using hc⟩)
      simp only [decide_eq_true hs, hc, if_true, Bool.not_true, Bool.false_eq_true, if_false,
        forkedNode]
    · have hc : prefs.getBool "/options/markers/colorCustomMarkers" false = true := by
        by_contra hc
        exact hg (Or.inr ⟨hs, by simpa using hc⟩)
      simp only [decide_eq_false hs, hc, Bool.not_true, Bool.false_eq_true, if_false, forkedNode]


/-- C14. For every marker with hrefcount < 2, `sp_marker_fork_if_necessary`
returns that same marker and changes nothing: the marker (its node and every
attribute of it) and the children of `defs` are as before, for every value of the
preference settings. -/
theorem fork_unshared (prefs : Preferences) (docAdd : Node → Node) (marker : SPObject)
    (doc : Document) (h : marker.hrefcount < 2) :
    sp_marker_fork_if_necessary prefs docAdd marker doc = (Forked.original, marker, doc) :=
  (fork_cases prefs docAdd marker doc).1 h

/-- Witness of C14: hrefcount 1, both colouring preferences switched on. -/
theorem fork_unshared_witness :
    sp_marker_fork_if_necessary
      ⟨[("/options/markers/colorStockMarkers", true),
        ("/options/markers/colorCustomMarkers", true)]⟩
      id ⟨1, ⟨[("id", "Arrow1".toList)]⟩⟩ ⟨[]⟩ =
    (Forked.original, ⟨1, ⟨[("id", "Arrow1".toList)]⟩⟩, ⟨[]⟩) :=
  fork_unshared _ id ⟨1, ⟨[("id", "Arrow1".toList)]⟩⟩ ⟨[]⟩ (by decide)

/-- C15. Fork policy gate: for every marker with hrefcount >= 2,
`sp_marker_fork_if_necessary` returns the original marker, with marker and
document unchanged, exactly when the gate says no (the marker is stock and
colorStockMarkers is false, or it is not stock and colorCustomMarkers is false);
in every other case it returns the object built for the duplicate, and the
duplicate of the marker's node is the new first child of `defs`. -/
theorem fork_gate (prefs : Preferences) (docAdd : Node → Node) (marker : SPObject)
    (doc : Document) (h : 2 ≤ marker.hrefcount) :
    (gateSaysNo prefs marker →
      sp_marker_fork_if_necessary prefs docAdd marker doc = (Forked.original, marker, doc)) ∧
    (¬ gateSaysNo prefs marker →
      (sp_marker_fork_if_necessary prefs docAdd marker doc).1 = Forked.duplicate ∧
      (sp_marker_fork_if_necessary prefs docAdd marker doc).2.2.defs =
        forkedNode docAdd marker :: doc.defs) ∧
    ((sp_marker_fork_if_necessary prefs docAdd marker doc).1 = Forked.original ↔
      gateSaysNo prefs marker) := by
  have hc := fork_cases prefs docAdd marker doc
  refine ⟨hc.2.1 h, fun hg => ?_, ?_⟩
  · rw [hc.2.2 h hg]
    exact ⟨rfl, rfl⟩
  · constructor
    · intro ho
      by_contra hg
      rw [hc.2.2 h hg] at ho
      exact Forked.noConfusion ho
    · intro hg
      rw [hc.2.1 h hg]

/-- Witness of C15, with the default preferences (colorStockMarkers true,
colorCustomMarkers false) and hrefcount 2: a custom marker (`inkscape:isstock`
"false") is returned as it is, a marker without `inkscape:isstock` is forked. -/
theorem fork_gate_witness :
    sp_marker_fork_if_necessary ⟨[]⟩ id ⟨2, ⟨[("inkscape:isstock", "false".toList)]⟩⟩ ⟨[]⟩ =
      (Forked.original, ⟨2, ⟨[("inkscape:isstock", "false".toList)]⟩⟩, ⟨[]⟩) ∧
    (sp_marker_fork_if_necessary ⟨[]⟩ id ⟨2, ⟨[("id", "Arrow1".toList)]⟩⟩ ⟨[]⟩).1 =
      Forked.duplicate :=
  ⟨(fork_gate ⟨[]⟩ id ⟨2, ⟨[("inkscape:isstock", "false".toList)]⟩⟩ ⟨[]⟩ (by decide)).1
      (by decide),
   ((fork_gate ⟨[]⟩ id ⟨2, ⟨[("id", "Arrow1".toList)]⟩⟩ ⟨[]⟩ (by decide)).2.1 (by decide)).1⟩

/-- C16. The code on a marker that is forked and has no `inkscape:collect`
attribute (hrefcount 2, default preferences): before the call the attribute is
absent, after the call the original node carries `inkscape:collect` = "always". -/
theorem fork_collect_not_restored :
    (sp_marker_fork_if_necessary ⟨[]⟩ id ⟨2, ⟨[("id", "Arrow1".toList)]⟩⟩ ⟨[]⟩).1 =
      Forked.duplicate ∧
    (Node.mk [("id", "Arrow1".toList)]).attribute "inkscape:collect" = none ∧
    (sp_marker_fork_if_necessary ⟨[]⟩ id ⟨2, ⟨[("id", "Arrow1".toList)]⟩⟩
      ⟨[]⟩).2.1.repr.attribute "inkscape:collect" = some "always".toList := by
  decide

/-- C17, counterexample: a marker with hrefcount 3 is forked (default
preferences) and its hrefcount after the call is 3, not 2. -/
theorem fork_hrefcount_counterexample :
    (sp_marker_fork_if_necessary ⟨[]⟩ id ⟨3, ⟨[("id", "Arrow1".toList)]⟩⟩ ⟨[]⟩).1 =
      Forked.duplicate ∧
    (sp_marker_fork_if_necessary ⟨[]⟩ id ⟨3, ⟨[("id", "Arrow1".toList)]⟩⟩
      ⟨[]⟩).2.1.hrefcount = 3 ∧
    (sp_marker_fork_if_necessary ⟨[]⟩ id ⟨3, ⟨[("id", "Arrow1".toList)]⟩⟩
      ⟨[]⟩).2.1.hrefcount ≠ 3 - 1 := by
  decide

/-- C17, amended. For every marker with hrefcount >= 2 that is forked (the gate
does not say no), `sp_marker_fork_if_necessary` returns the object built for the
duplicated node, which is not the original and whose node is the new first child
of `defs`, and the call leaves the hrefcount of the original as it was (as every
call does). -/
theorem fork_keeps_hrefcount (prefs : Preferences) (docAdd : Node → Node) (marker : SPObject)
    (doc : Document) :
    (sp_marker_fork_if_necessary prefs docAdd marker doc).2.1.hrefcount = marker.hrefcount ∧
    (2 ≤ marker.hrefcount → ¬ gateSaysNo prefs marker →
      (sp_marker_fork_if_necessary prefs docAdd marker doc).1 = Forked.duplicate ∧
      (sp_marker_fork_if_necessary prefs docAdd marker doc).1 ≠ Forked.original ∧
      (sp_marker_fork_if_necessary prefs docAdd marker doc).2.2.defs =
        forkedNode docAdd marker :: doc.defs) := by
  have hc := fork_cases prefs docAdd marker doc
  constructor
  · by_cases h : marker.hrefcount < 2
    · rw [hc.1 h]
    · by_cases hg : gateSaysNo prefs marker
      · rw [hc.2.1 (not_lt.mp h) hg]
      · rw [hc.2.2 (not_lt.mp h) hg]
  · intro h hg
    rw [hc.2.2 h hg]
    exact ⟨rfl, fun e => Forked.noConfusion e, rfl⟩

/-- Witness of C17 (amended): hrefcount 3, default preferences. -/
theorem fork_keeps_hrefcount_witness :
    (sp_marker_fork_if_necessary ⟨[]⟩ id ⟨3, ⟨[("id", "Arrow1".toList)]⟩⟩
      ⟨[]⟩).2.1.hrefcount = 3 ∧
    (sp_marker_fork_if_necessary ⟨[]⟩ id ⟨3, ⟨[("id", "Arrow1".toList)]⟩⟩ ⟨[]⟩).1 =
      Forked.duplicate ∧
    (sp_marker_fork_if_necessary ⟨[]⟩ id ⟨3, ⟨[("id", "Arrow1".toList)]⟩⟩ ⟨[]⟩).2.2.defs =
      [forkedNode id ⟨3, ⟨[("id", "Arrow1".toList)]⟩⟩] :=
  ⟨(fork_keeps_hrefcount ⟨[]⟩ id ⟨3, ⟨[("id", "Arrow1".toList)]⟩⟩ ⟨[]⟩).1,
   ((fork_keeps_hrefcount ⟨[]⟩ id ⟨3, ⟨[("id", "Arrow1".toList)]⟩⟩ ⟨[]⟩).2 (by decide)
      (by decide)).1,
   ((fork_keeps_hrefcount ⟨[]⟩ id ⟨3, ⟨[("id", "Arrow1".toList)]⟩⟩ ⟨[]⟩).2 (by decide)
      (by decide)).2.2⟩

/-! ## `SPMarker::write` and `SPMarker::build` -/

theorem setAttribute_ite (c : Prop) [Decidable c] (n : Node) (k : String)
    (a b : Option (List Char)) :
    (if c then n.setAttribute k a else n.setAttribute k b) =
      n.setAttribute k (if c then a else b) := by
  split_ifs <;> rfl

theorem write_eq (pr : Printer) (m : SPMarker) (own : Node) (repr : Option Node) (flags : Nat) :
    m.write pr own repr flags = (writeTarget repr flags).map (writeOnto pr m own) := by
  unfold SPMarker.write writeTarget
  cases h : (if flags &&& SP_OBJECT_WRITE_BUILD ≠ 0 ∧ repr = none then some (Node.mk [])
      else repr) with
  | none => rfl
  | some r0 =>
    simp only [Option.map_some', writeOnto, unitsText, lengthText, orientText, setAttribute_ite]

theorem writeOnto_attribute (pr : Printer) (m : SPMarker) (own r0 : Node) :
    (writeOnto pr m own r0).attribute "markerUnits" = unitsText m ∧
    (writeOnto pr m own r0).attribute "refX" = lengthText pr m.refX ∧
    (writeOnto pr m own r0).attribute "refY" = lengthText pr m.refY ∧
    (writeOnto pr m own r0).attribute "markerWidth" = lengthText pr m.markerWidth ∧
    (writeOnto pr m own r0).attribute "markerHeight" = lengthText pr m.markerHeight ∧
    (writeOnto pr m own r0).attribute "orient" = orientText pr m ∧
    (writeOnto pr m own r0).attribute "viewBox" = own.attribute "viewBox" ∧
    (writeOnto pr m own r0).attribute "preserveAspectRatio" =
      own.attribute "preserveAspectRatio" := by
  unfold writeOnto
  refine ⟨?_, ?_, ?_, ?_, ?_, ?_, ?_, ?_⟩
  · rw [attribute_setAttribute_ne _ _ _ _ (by decide), attribute_setAttribute_ne _ _ _ _ (by decide),
      attribute_setAttribute_ne _ _ _ _ (by decide), attribute_setAttribute_ne _ _ _ _ (by decide),
      attribute_setAttribute_ne _ _ _ _ (by decide), attribute_setAttribute_ne _ _ _ _ (by decide),
      attribute_setAttribute_ne _ _ _ _ (by decide), attribute_setAttribute_same]
  · rw [attribute_setAttribute_ne _ _ _ _ (by decide), attribute_setAttribute_ne _ _ _ _ (by decide),
      attribute_setAttribute_ne _ _ _ _ (by decide), attribute_setAttribute_ne _ _ _ _ (by decide),
      attribute_setAttribute_ne _ _ _ _ (by decide), attribute_setAttribute_ne _ _ _ _ (by decide),
      attribute_setAttribute_same]
  · rw [attribute_setAttribute_ne _ _ _ _ (by decide), attribute_setAttribute_ne _ _ _ _ (by decide),
      attribute_setAttribute_ne _ _ _ _ (by decide), attribute_setAttribute_ne _ _ _ _ (by decide),
      attribute_setAttribute_ne _ _ _ _ (by decide), attribute_setAttribute_same]
  · rw [attribute_setAttribute_ne _ _ _ _ (by decide), attribute_setAttribute_ne _ _ _ _ (by decide),
      attribute_setAttribute_ne _ _ _ _ (by decide), attribute_setAttribute_ne _ _ _ _ (by decide),
      attribute_setAttribute_same]
  · rw [attribute_setAttribute_ne _ _ _ _ (by decide), attribute_setAttribute_ne _ _ _ _ (by decide),
      attribute_setAttribute_ne _ _ _ _ (by decide), attribute_setAttribute_same]
  · rw [attribute_setAttribute_ne _ _ _ _ (by decide), attribute_setAttribute_ne _ _ _ _ (by decide),
      attribute_setAttribute_same]
  · rw [attribute_setAttribute_ne _ _ _ _ (by decide), attribute_setAttribute_same]
  · rw [attribute_setAttribute_same]

theorem writeTarget_some (repr : Option Node) (flags : Nat)
    (h : repr ≠ none ∨ flags &&& SP_OBJECT_WRITE_BUILD ≠ 0) :
    ∃ r0, writeTarget repr flags = some r0 := by
  unfold writeTarget
  cases repr with
  | some r =>
    exact ⟨r, by simp⟩
  | none =>
    rcases h with h | h
    · exact absurd rfl h
    · exact ⟨⟨[]⟩, by rw [if_pos ⟨h, rfl⟩]⟩

/-- C18. For every marker state and every target (a node, or none when the
flag `SP_OBJECT_WRITE_BUILD` asks for a new element), `SPMarker::write` returns a
node on which each of markerUnits, refX, refY, markerWidth, markerHeight and
orient is absent exactly when the field is not set, and otherwise carries a
value made from the field: "strokeWidth" or "userSpaceOnUse", the printed
computed length, "auto" or the printed angle.  No unset field is written as a
default or sentinel value. -/
theorem write_unset_absent (pr : Printer) (m : SPMarker) (own : Node) (repr : Option Node)
    (flags : Nat) (h : repr ≠ none ∨ flags &&& SP_OBJECT_WRITE_BUILD ≠ 0) :
    ∃ r, m.write pr own repr flags = some r ∧
      (r.attribute "markerUnits" = none ↔ m.markerUnits_set = false) ∧
      (r.attribute "refX" = none ↔ m.refX._set = false) ∧
      (r.attribute "refY" = none ↔ m.refY._set = false) ∧
      (r.attribute "markerWidth" = none ↔ m.markerWidth._set = false) ∧
      (r.attribute "markerHeight" = none ↔ m.markerHeight._set = false) ∧
      (r.attribute "orient" = none ↔ m.orient_set = false) ∧
      (m.markerUnits_set = true →
        r.attribute "markerUnits" =
          some (if m.markerUnits = SP_MARKER_UNITS_STROKEWIDTH then "strokeWidth".toList
                else "userSpaceOnUse".toList)) ∧
      (m.refX._set = true → r.attribute "refX" = some (pr.svgDouble m.refX.computed)) ∧
      (m.refY._set = true → r.attribute "refY" = some (pr.svgDouble m.refY.computed)) ∧
      (m.markerWidth._set = true →
        r.attribute "markerWidth" = some (pr.svgDouble m.markerWidth.computed)) ∧
      (m.markerHeight._set = true →
        r.attribute "markerHeight" = some (pr.svgDouble m.markerHeight.computed)) ∧
      (m.orient_set = true →
        r.attribute "orient" =
          some (if m.orient_auto then "auto".toList else pr.cssDouble m.orient)) := by
  obtain ⟨r0, hr0⟩ := writeTarget_some repr flags h
  obtain ⟨h1, h2, h3, h4, h5, h6, _, _⟩ := writeOnto_attribute pr m own r0
  refine ⟨writeOnto pr m own r0, by rw [write_eq, hr0]; rfl, ?_, ?_, ?_, ?_, ?_, ?_, ?_, ?_, ?_,
    ?_, ?_, ?_⟩
  · rw [h1, unitsText]
    by_cases hs : m.markerUnits_set = true
    · rw [if_pos hs]; split_ifs <;> simp [hs]
    · rw [if_neg hs]; simp [hs]
  · rw [h2, lengthText]; cases m.refX._set <;> simp
  · rw [h3, lengthText]; cases m.refY._set <;> simp
  · rw [h4, lengthText]; cases m.markerWidth._set <;> simp
  · rw [h5, lengthText]; cases m.markerHeight._set <;> simp
  · rw [h6, orientText]
    by_cases hs : m.orient_set = true
    · rw [if_pos hs]; split_ifs <;> simp [hs]
    · rw [if_neg hs]; simp [hs]
  · intro hs; rw [h1, unitsText, if_pos hs]; split_ifs <;> rfl
  · intro hs; rw [h2, lengthText, if_pos hs]
  · intro hs; rw [h3, lengthText, if_pos hs]
  · intro hs; rw [h4, lengthText, if_pos hs]
  · intro hs; rw [h5, lengthText, if_pos hs]
  · intro hs; rw [h6, orientText, if_pos hs]; split_ifs <;> rfl

/-- Witness of C18: a marker on which only refX (value 1) is set, written to a
new element: refX is written as "1", the five other attributes are absent. -/
theorem write_unset_absent_witness :
    ∃ r, ({ SPMarker.new with refX := ⟨true, SVGLength.NONE, 1, 1⟩ } : SPMarker).write
        decimalPrinter ⟨[]⟩ none SP_OBJECT_WRITE_BUILD = some r ∧
      r.attribute "refX" = some "1".toList ∧
      r.attribute "markerUnits" = none ∧ r.attribute "refY" = none ∧
      r.attribute "markerWidth" = none ∧ r.attribute "markerHeight" = none ∧
      r.attribute "orient" = none := by
  obtain ⟨r, hr, h1, _, h3, h4, h5, h6, _, h8, _⟩ := write_unset_absent decimalPrinter
    ({ SPMarker.new with refX := ⟨true, SVGLength.NONE, 1, 1⟩ } : SPMarker) ⟨[]⟩ none
    SP_OBJECT_WRITE_BUILD (Or.inr (by decide))
  refine ⟨r, hr, ?_, h1.mpr rfl, h3.mpr rfl, h4.mpr rfl, h5.mpr rfl, h6.mpr rfl⟩
  rw [h8 rfl]
  simp [decimalPrinter, smallDigits]

theorem set_markerUnits_eq (ext : Extern) (m : SPMarker) (v : Option (List Char)) :
    m.set ext SP_ATTR_MARKERUNITS v =
      { m with
        markerUnits_set := (unitsOf v).1
        markerUnits := (unitsOf v).2
        requests := (SP_OBJECT_MODIFIED_FLAG ||| SP_OBJECT_VIEWPORT_MODIFIED_FLAG) :: m.requests } := by
  cases v with
  | none => rfl
  | some v =>
    simp only [SPMarker.set, unitsOf, SPMarker.requestDisplayUpdate]
    split_ifs <;> rfl

theorem set_orient_eq (ext : Extern) (m : SPMarker) (v : Option (List Char)) :
    m.set ext SP_ATTR_ORIENT v =
      { m with
        orient_set := (orientOf ext v).1
        orient_auto := (orientOf ext v).2.1
        orient := (orientOf ext v).2.2
        requests := SP_OBJECT_MODIFIED_FLAG :: m.requests } := by
  cases v with
  | none => rfl
  | some v =>
    simp only [SPMarker.set, orientOf, SPMarker.requestDisplayUpdate]
    split_ifs
    · rfl
    · cases ext.sp_svg_number_read_f v <;> rfl

theorem set_aspect_eq (ext : Extern) (m : SPMarker) (v : Option (List Char)) :
    m.set ext SP_ATTR_PRESERVEASPECTRATIO v =
      { m with
        aspect_set := (aspectOf v).1
        aspect_align := (aspectOf v).2.1
        aspect_clip := (aspectOf v).2.2
        requests := (SP_OBJECT_MODIFIED_FLAG ||| SP_OBJECT_VIEWPORT_MODIFIED_FLAG) :: m.requests } := by
  simp only [SPMarker.set, aspectOf, SPMarker.requestDisplayUpdate]
  cases v.bind readAspect with
  | none => rfl
  | some ac => rfl

/-- The fields of a marker after `build`, each as a function of one attribute
of the node. -/
theorem build_fields (ext : Extern) (m : SPMarker) (repr : Node) :
    (m.build ext repr).markerUnits_set = (unitsOf (repr.attribute "markerUnits")).1 ∧
    (m.build ext repr).markerUnits = (unitsOf (repr.attribute "markerUnits")).2 ∧
    (m.build ext repr).refX =
      SVGLength.readOrUnset ext (repr.attribute "refX") SVGLength.NONE 0 0 ∧
    (m.build ext repr).refY =
      SVGLength.readOrUnset ext (repr.attribute "refY") SVGLength.NONE 0 0 ∧
    (m.build ext repr).markerWidth =
      SVGLength.readOrUnset ext (repr.attribute "markerWidth") SVGLength.NONE 3 3 ∧
    (m.build ext repr).markerHeight =
      SVGLength.readOrUnset ext (repr.attribute "markerHeight") SVGLength.NONE 3 3 ∧
    (m.build ext repr).orient_set = (orientOf ext (repr.attribute "orient")).1 ∧
    (m.build ext repr).orient_auto = (orientOf ext (repr.attribute "orient")).2.1 ∧
    (m.build ext repr).orient = (orientOf ext (repr.attribute "orient")).2.2 ∧
    (m.build ext repr).viewBox = readViewBox ext (repr.attribute "viewBox") ∧
    (m.build ext repr).aspect_set = (aspectOf (repr.attribute "preserveAspectRatio")).1 ∧
    (m.build ext repr).aspect_align = (aspectOf (repr.attribute "preserveAspectRatio")).2.1 ∧
    (m.build ext repr).aspect_clip = (aspectOf (repr.attribute "preserveAspectRatio")).2.2 := by
  unfold SPMarker.build
  simp only [set_markerUnits_eq, set_orient_eq, set_aspect_eq]
  simp [SPMarker.set, SPMarker.requestDisplayUpdate]

/-- The matrix `update` stores is `fitC2p` of the attribute fields. -/
theorem update_eq_fit (m : SPMarker) :
    m.update = (fitC2p m.markerWidth.computed m.markerHeight.computed m.viewBox m.aspect_align
      m.aspect_clip m.refX.computed m.refY.computed).map m.storeC2p := by
  unfold SPMarker.update fitC2p SPMarker.vb SPMarker.viewport
  by_cases ha : m.aspect_align = SP_ASPECT_NONE
  · simp only [ha, if_true, Option.map_eq_map, Option.bind_eq_bind, Option.map_bind,
      Option.map_some', Function.comp_def, Option.some_bind]
  · simp only [ha, if_false, Option.map_eq_map, Option.bind_eq_bind, Option.map_bind,
      Option.map_some', Function.comp_def, Option.some_bind]

theorem storeC2p_storeC2p (m : SPMarker) (c : Affine) :
    (m.storeC2p c).storeC2p c = m.storeC2p c := by
  unfold SPMarker.storeC2p
  simp only [List.map_map]
  congr 1
  apply List.map_congr_left
  intro v _
  simp only [Function.comp_def, List.map_map]
  congr 1
  apply List.map_congr_left
  intro slot _
  cases slot <;> rfl

theorem update_update (m : SPMarker) : m.update.bind SPMarker.update = m.update := by
  rw [update_eq_fit m]
  cases h : fitC2p m.markerWidth.computed m.markerHeight.computed m.viewBox m.aspect_align
      m.aspect_clip m.refX.computed m.refY.computed with
  | none => rfl
  | some c =>
    simp only [Option.map_some', Option.some_bind]
    rw [update_eq_fit (m.storeC2p c)]
    have hf : fitC2p (m.storeC2p c).markerWidth.computed (m.storeC2p c).markerHeight.computed
        (m.storeC2p c).viewBox (m.storeC2p c).aspect_align (m.storeC2p c).aspect_clip
        (m.storeC2p c).refX.computed (m.storeC2p c).refY.computed = some c := h
    rw [hf, Option.map_some', storeC2p_storeC2p]

theorem update_c2p (m : SPMarker) :
    m.update.map (fun s => s.c2p) =
      fitC2p m.markerWidth.computed m.markerHeight.computed m.viewBox m.aspect_align
        m.aspect_clip m.refX.computed m.refY.computed := by
  rw [update_eq_fit m]
  cases fitC2p m.markerWidth.computed m.markerHeight.computed m.viewBox m.aspect_align
      m.aspect_clip m.refX.computed m.refY.computed <;> rfl

/-- C20. Idempotence of update: for every marker state, the `c2p` produced by
`SPMarker::update` is a function of markerWidth, markerHeight, viewBox,
aspect_align, aspect_clip, refX and refY alone and does not depend on the
previous `c2p`; calling `update` twice with no `set` in between leaves the same
state as calling it once, `c2p` and the child transform of every view slot
included, and the bounding box is the empty one in both cases. -/
theorem update_idempotent (m : SPMarker) :
    m.update.bind SPMarker.update = m.update ∧
    (∀ c : Affine, ({ m with c2p := c } : SPMarker).update = m.update) ∧
    m.update.map (fun s => s.c2p) =
      fitC2p m.markerWidth.computed m.markerHeight.computed m.viewBox m.aspect_align
        m.aspect_clip m.refX.computed m.refY.computed ∧
    (∀ (t : Affine) (ty : Nat),
      (m.update.bind SPMarker.update).map (fun s => s.bbox t ty) =
        m.update.map (fun s => s.bbox t ty)) ∧
    (∀ (s : SPMarker) (t : Affine) (ty : Nat), s.bbox t ty = none) := by
  refine ⟨update_update m, ?_, update_c2p m, ?_, fun _ _ _ => rfl⟩
  · intro c
    rw [update_eq_fit m, update_eq_fit ({ m with c2p := c } : SPMarker)]
    rfl
  · intro t ty
    rw [update_update m]

/-! ## Round trip through `write` and `build` -/

theorem unitsOf_unitsText (x : SPMarker) (v : Option (List Char))
    (h1 : x.markerUnits_set = (unitsOf v).1) (h2 : x.markerUnits = (unitsOf v).2) :
    unitsOf (unitsText x) = (x.markerUnits_set, x.markerUnits) := by
  have key : ∀ p : Bool × Nat,
      p = (false, SP_MARKER_UNITS_STROKEWIDTH) ∨ p = (true, SP_MARKER_UNITS_STROKEWIDTH) ∨
        p = (true, SP_MARKER_UNITS_USERSPACEONUSE) →
      x.markerUnits_set = p.1 → x.markerUnits = p.2 →
      unitsOf (unitsText x) = (x.markerUnits_set, x.markerUnits) := by
    intro p hp e1 e2
    rcases hp with rfl | rfl | rfl
    · simp only [unitsText, e1, e2]; rfl
    · simp only [unitsText, e1, e2]; decide
    · simp only [unitsText, e1, e2]; decide
  refine key (unitsOf v) ?_ h1 h2
  unfold unitsOf
  cases v with
  | none => exact Or.inl rfl
  | some s =>
    simp only
    split_ifs
    · exact Or.inr (Or.inl rfl)
    · exact Or.inr (Or.inr rfl)
    · exact Or.inl rfl

theorem readOrUnset_lengthText (ext : Extern) (pr : Printer) (v : Option (List Char)) (u0 : Nat)
    (dv dc : ℚ) (l : SVGLength) (hl : l = SVGLength.readOrUnset ext v u0 dv dc)
    (hp : l._set = true →
      ∃ u w, ext.lengthRead (pr.svgDouble l.computed) = some (u, w, l.computed)) :
    (SVGLength.readOrUnset ext (lengthText pr l) u0 dv dc)._set = l._set ∧
    (SVGLength.readOrUnset ext (lengthText pr l) u0 dv dc).computed = l.computed ∧
    (l._set = false → SVGLength.readOrUnset ext (lengthText pr l) u0 dv dc = l) := by
  by_cases hs : l._set = true
  · obtain ⟨u, w, h⟩ := hp hs
    have e : SVGLength.readOrUnset ext (lengthText pr l) u0 dv dc = ⟨true, u, w, l.computed⟩ := by
      simp only [lengthText, hs, if_true, SVGLength.readOrUnset, Option.some_bind, h]
    rw [e]
    exact ⟨hs.symm, rfl, fun hf => by rw [hs] at hf; exact absurd hf (by decide)⟩
  · have hf : l._set = false := by simpa using hs
    have e : SVGLength.readOrUnset ext (lengthText pr l) u0 dv dc = ⟨false, u0, dv, dc⟩ := by
      simp only [lengthText, hf, Bool.false_eq_true, if_false, SVGLength.readOrUnset,
        Option.none_bind]
    have hl2 : l = ⟨false, u0, dv, dc⟩ := by
      unfold SVGLength.readOrUnset at hl
      cases hb : v.bind ext.lengthRead with
      | none => rw [hb] at hl; exact hl
      | some t =>
        rw [hb] at hl
        rw [hl] at hf
        exact absurd hf (by simp)
    rw [e, hl2]
    exact ⟨rfl, rfl, fun _ => rfl⟩

theorem orientOf_orientText (ext : Extern) (pr : Printer) (x : SPMarker) (v : Option (List Char))
    (h1 : x.orient_set = (orientOf ext v).1) (h2 : x.orient_auto = (orientOf ext v).2.1)
    (h3 : x.orient = (orientOf ext v).2.2)
    (hp : x.orient_set = true → x.orient_auto = false →
      pr.cssDouble x.orient ≠ "auto".toList ∧
      ext.sp_svg_number_read_f (pr.cssDouble x.orient) = some x.orient) :
    orientOf ext (orientText pr x) = (x.orient_set, x.orient_auto, x.orient) := by
  have shape : (orientOf ext v = (false, false, 0)) ∨ (orientOf ext v = (true, true, 0)) ∨
      (∃ a, orientOf ext v = (true, false, a)) := by
    unfold orientOf
    cases v with
    | none => exact Or.inl rfl
    | some s =>
      simp only
      split_ifs
      · exact Or.inr (Or.inl rfl)
      · cases ext.sp_svg_number_read_f s with
        | none => exact Or.inl rfl
        | some a => exact Or.inr (Or.inr ⟨a, rfl⟩)
  rcases shape with e | e | ⟨a, e⟩
  · rw [e] at h1 h2 h3
    simp only at h1 h2 h3
    simp only [orientText, h1, h2, h3, Bool.false_eq_true, if_false]
    rfl
  · rw [e] at h1 h2 h3
    simp only at h1 h2 h3
    simp only [orientText, h1, h2, h3, if_true]
    simp [orientOf]
  · rw [e] at h1 h2 h3
    simp only at h1 h2 h3
    obtain ⟨hne, hread⟩ := hp h1 h2
    simp only [orientText, h1, h2, Bool.false_eq_true, if_false, if_true, orientOf, hne, hread]


/-- C19, counterexample: the node of the marker carries refX = "1px".  The state
read from it has refX with unit px; written to a new node refX is "1", and read
back its unit is none: the field refX is not the same. -/
theorem round_trip_unit_counterexample :
    ∃ node, (SPMarker.new.build pxExtern ⟨[("refX", "1px".toList)]⟩).write decimalPrinter
        ⟨[("refX", "1px".toList)]⟩ none SP_OBJECT_WRITE_BUILD = some node ∧
      node.attribute "refX" = some "1".toList ∧
      (SPMarker.new.build pxExtern ⟨[("refX", "1px".toList)]⟩).refX =
        ⟨true, SVGLength.PX, 1, 1⟩ ∧
      (SPMarker.new.build pxExtern node).refX = ⟨true, SVGLength.NONE, 1, 1⟩ ∧
      (SPMarker.new.build pxExtern node).refX ≠
        (SPMarker.new.build pxExtern ⟨[("refX", "1px".toList)]⟩).refX := by
  have hx : (SPMarker.new.build pxExtern ⟨[("refX", "1px".toList)]⟩).refX =
      ⟨true, SVGLength.PX, 1, 1⟩ := by
    rw [(build_fields pxExtern SPMarker.new ⟨[("refX", "1px".toList)]⟩).2.2.1]
    simp [Node.attribute, lookupAttr, SVGLength.readOrUnset, pxExtern, readDecimal, readDigits]
  have hattr : (writeOnto decimalPrinter (SPMarker.new.build pxExtern ⟨[("refX", "1px".toList)]⟩)
      ⟨[("refX", "1px".toList)]⟩ ⟨[]⟩).attribute "refX" = some "1".toList := by
    rw [(writeOnto_attribute _ _ _ _).2.1, hx]
    simp [lengthText, decimalPrinter, smallDigits]
  have hy : (SPMarker.new.build pxExtern (writeOnto decimalPrinter
      (SPMarker.new.build pxExtern ⟨[("refX", "1px".toList)]⟩) ⟨[("refX", "1px".toList)]⟩
      ⟨[]⟩)).refX = ⟨true, SVGLength.NONE, 1, 1⟩ := by
    rw [(build_fields pxExtern SPMarker.new _).2.2.1, hattr]
    simp [SVGLength.readOrUnset, pxExtern, readDecimal, readDigits]
  refine ⟨_, by rw [write_eq]; rfl, hattr, hx, hy, ?_⟩
  rw [hx, hy]
  decide

/-- C19, amended. For every marker state `x` read from the eight attributes of
its own node through `set`, and provided each number `write` prints for a set
field reads back to the same value, writing `x` to a new node and reading the
eight attributes of that node back through `set` yields the same markerUnits and
set flag, the same set flag and computed value of refX, refY, markerWidth and
markerHeight (an unset length is the same in all its parts; the unit and value of
a set length are not kept), the same orient, orient_auto, orient_set, viewBox,
aspect_align, aspect_clip and aspect_set, and hence the same `c2p` after
`update`. -/
theorem write_build_round_trip (ext : Extern) (pr : Printer) (m0 m1 : SPMarker) (own : Node)
    (x : SPMarker) (hx : x = m0.build ext own)
    (hrx : x.refX._set = true →
      ∃ u w, ext.lengthRead (pr.svgDouble x.refX.computed) = some (u, w, x.refX.computed))
    (hry : x.refY._set = true →
      ∃ u w, ext.lengthRead (pr.svgDouble x.refY.computed) = some (u, w, x.refY.computed))
    (hmw : x.markerWidth._set = true →
      ∃ u w, ext.lengthRead (pr.svgDouble x.markerWidth.computed) =
        some (u, w, x.markerWidth.computed))
    (hmh : x.markerHeight._set = true →
      ∃ u w, ext.lengthRead (pr.svgDouble x.markerHeight.computed) =
        some (u, w, x.markerHeight.computed))
    (hor : x.orient_set = true → x.orient_auto = false →
      pr.cssDouble x.orient ≠ "auto".toList ∧
      ext.sp_svg_number_read_f (pr.cssDouble x.orient) = some x.orient) :
    ∃ node, x.write pr own none SP_OBJECT_WRITE_BUILD = some node ∧
      ∀ y : SPMarker, y = m1.build ext node →
        y.markerUnits = x.markerUnits ∧ y.markerUnits_set = x.markerUnits_set ∧
        (y.refX._set = x.refX._set ∧ y.refX.computed = x.refX.computed ∧
          (x.refX._set = false → y.refX = x.refX)) ∧
        (y.refY._set = x.refY._set ∧ y.refY.computed = x.refY.computed ∧
          (x.refY._set = false → y.refY = x.refY)) ∧
        (y.markerWidth._set = x.markerWidth._set ∧
          y.markerWidth.computed = x.markerWidth.computed ∧
          (x.markerWidth._set = false → y.markerWidth = x.markerWidth)) ∧
        (y.markerHeight._set = x.markerHeight._set ∧
          y.markerHeight.computed = x.markerHeight.computed ∧
          (x.markerHeight._set = false → y.markerHeight = x.markerHeight)) ∧
        y.orient = x.orient ∧ y.orient_auto = x.orient_auto ∧ y.orient_set = x.orient_set ∧
        y.viewBox = x.viewBox ∧ y.aspect_align = x.aspect_align ∧
        y.aspect_clip = x.aspect_clip ∧ y.aspect_set = x.aspect_set ∧
        y.update.map (fun s => s.c2p) = x.update.map (fun s => s.c2p) := by
  refine ⟨writeOnto pr x own ⟨[]⟩, by rw [write_eq]; rfl, ?_⟩
  intro y hy
  obtain ⟨a1, a2, a3, a4, a5, a6, a7, a8⟩ := writeOnto_attribute pr x own ⟨[]⟩
  obtain ⟨x1, x2, x3, x4, x5, x6, x7, x8, x9, x10, x11, x12, x13⟩ := build_fields ext m0 own
  obtain ⟨y1, y2, y3, y4, y5, y6, y7, y8, y9, y10, y11, y12, y13⟩ :=
    build_fields ext m1 (writeOnto pr x own ⟨[]⟩)
  rw [← hx] at x1 x2 x3 x4 x5 x6 x7 x8 x9 x10 x11 x12 x13
  rw [← hy] at y1 y2 y3 y4 y5 y6 y7 y8 y9 y10 y11 y12 y13
  rw [a1] at y1 y2
  rw [a2] at y3
  rw [a3] at y4
  rw [a4] at y5
  rw [a5] at y6
  rw [a6] at y7 y8 y9
  rw [a7] at y10
  rw [a8] at y11 y12 y13
  have hu := unitsOf_unitsText x (own.attribute "markerUnits") x1 x2
  have ho := orientOf_orientText ext pr x (own.attribute "orient") x7 x8 x9 hor
  have hX := readOrUnset_lengthText ext pr (own.attribute "refX") SVGLength.NONE 0 0 x.refX x3 hrx
  have hY := readOrUnset_lengthText ext pr (own.attribute "refY") SVGLength.NONE 0 0 x.refY x4 hry
  have hW := readOrUnset_lengthText ext pr (own.attribute "markerWidth") SVGLength.NONE 3 3
    x.markerWidth x5 hmw
  have hH := readOrUnset_lengthText ext pr (own.attribute "markerHeight") SVGLength.NONE 3 3
    x.markerHeight x6 hmh
  rw [← y3] at hX
  rw [← y4] at hY
  rw [← y5] at hW
  rw [← y6] at hH
  have e1 : y.markerUnits = x.markerUnits := by rw [y2, hu]
  have e2 : y.markerUnits_set = x.markerUnits_set := by rw [y1, hu]
  have e3 : y.orient = x.orient := by rw [y9, ho]
  have e4 : y.orient_auto = x.orient_auto := by rw [y8, ho]
  have e5 : y.orient_set = x.orient_set := by rw [y7, ho]
  have e6 : y.viewBox = x.viewBox := by rw [y10, x10]
  have e7 : y.aspect_align = x.aspect_align := by rw [y12, x12]
  have e8 : y.aspect_clip = x.aspect_clip := by rw [y13, x13]
  have e9 : y.aspect_set = x.aspect_set := by rw [y11, x11]
  refine ⟨e1, e2, hX, hY, hW, hH, e3, e4, e5, e6, e7, e8, e9, ?_⟩
  rw [update_c2p y, update_c2p x, hW.2.1, hH.2.1, e6, e7, e8, hX.2.1, hY.2.1]


/-- Witness of C19 (amended): the marker read from `exampleNode` with the
decimal reader, written with the decimal printer and read back. -/
theorem write_build_round_trip_witness :
    ∃ node, (SPMarker.new.build decimalExtern exampleNode).write decimalPrinter exampleNode none
        SP_OBJECT_WRITE_BUILD = some node ∧
      (SPMarker.new.build decimalExtern node).markerUnits = SP_MARKER_UNITS_USERSPACEONUSE ∧
      (SPMarker.new.build decimalExtern node).refX.computed = 1 ∧
      (SPMarker.new.build decimalExtern node).markerWidth.computed = 4 ∧
      (SPMarker.new.build decimalExtern node).orient_auto = true ∧
      (SPMarker.new.build decimalExtern node).viewBox =
        (SPMarker.new.build decimalExtern exampleNode).viewBox ∧
      (SPMarker.new.build decimalExtern node).update.map (fun s => s.c2p) =
        (SPMarker.new.build decimalExtern exampleNode).update.map (fun s => s.c2p) := by
  obtain ⟨f1, f2, f3, f4, f5, f6, f7, f8, f9, _⟩ :=
    build_fields decimalExtern SPMarker.new exampleNode
  have hu : (SPMarker.new.build decimalExtern exampleNode).markerUnits =
      SP_MARKER_UNITS_USERSPACEONUSE := by
    rw [f2]; decide
  have hX : (SPMarker.new.build decimalExtern exampleNode).refX = ⟨true, 0, 1, 1⟩ := by
    rw [f3]
    simp [exampleNode, Node.attribute, lookupAttr, SVGLength.readOrUnset, decimalExtern,
      readDecimal, readDigits, SVGLength.NONE]
  have hY : (SPMarker.new.build decimalExtern exampleNode).refY = ⟨false, 0, 0, 0⟩ := by
    rw [f4]
    simp [exampleNode, Node.attribute, lookupAttr, SVGLength.readOrUnset, SVGLength.NONE]
  have hW : (SPMarker.new.build decimalExtern exampleNode).markerWidth = ⟨true, 0, 4, 4⟩ := by
    rw [f5]
    simp [exampleNode, Node.attribute, lookupAttr, SVGLength.readOrUnset, decimalExtern,
      readDecimal, readDigits, SVGLength.NONE]
  have hH : (SPMarker.new.build decimalExtern exampleNode).markerHeight = ⟨true, 0, 6, 6⟩ := by
    rw [f6]
    simp [exampleNode, Node.attribute, lookupAttr, SVGLength.readOrUnset, decimalExtern,
      readDecimal, readDigits, SVGLength.NONE]
  have hA : (SPMarker.new.build decimalExtern exampleNode).orient_auto = true := by
    rw [f8]; decide
  obtain ⟨node, hn, hall⟩ := write_build_round_trip decimalExtern decimalPrinter SPMarker.new
    SPMarker.new exampleNode (SPMarker.new.build decimalExtern exampleNode) rfl
    (fun _ => ⟨0, 1, by
      rw [hX]
      simp [decimalPrinter, smallDigits, decimalExtern, readDecimal, readDigits,
        SVGLength.NONE]⟩)
    (fun h => by rw [hY] at h; exact absurd h (by decide))
    (fun _ => ⟨0, 4, by
      rw [hW]
      simp [decimalPrinter, smallDigits, decimalExtern, readDecimal, readDigits,
        SVGLength.NONE]⟩)
    (fun _ => ⟨0, 6, by
      rw [hH]
      simp [decimalPrinter, smallDigits, decimalExtern, readDecimal, readDigits,
        SVGLength.NONE]⟩)
    (fun _ h => by rw [hA] at h; exact absurd h (by decide))
  obtain ⟨e1, _, eX, _, eW, _, _, eA, _, eV, _, _, _, eC⟩ :=
    hall (SPMarker.new.build decimalExtern node) rfl
  refine ⟨node, hn, e1.trans hu, ?_, ?_, eA.trans hA, eV, eC⟩
  · rw [eX.2.1, hX]
  · rw [eW.2.1, hW]


/-! ## Distinct keys are kept by the operations on the view cache -/

theorem showInstanceLoop_keys (ext : Extern) (marker : SPMarker) (shown : Option DrawingItem)
    (parent key pos : Nat) (base : Affine) (lw : ℚ) (d : Drawing) (views : List SPMarkerView) :
    (showInstanceLoop ext marker shown parent key pos base lw d views).2.1.map (fun v => v.key) =
      views.map (fun v => v.key) := by
  induction views with
  | nil => rfl
  | cons v vs ih =>
    by_cases hk : v.key = key
    · rw [showInstanceLoop_cons_eq _ _ _ _ _ _ _ _ _ _ _ hk]
      simp only [List.map_cons, showInstanceAt_key]
    · rw [showInstanceLoop_cons_ne _ _ _ _ _ _ _ _ _ _ _ hk]
      simp only [List.map_cons, ih]

theorem show_instance_keys (ext : Extern) (marker : SPMarker) (d : Drawing)
    (shown : Option DrawingItem) (parent key pos : Nat) (base : Affine) (lw : ℚ) :
    (sp_marker_show_instance ext marker d shown parent key pos base lw).2.1.views.map
        (fun v => v.key) = marker.views.map (fun v => v.key) := by
  unfold sp_marker_show_instance
  by_cases h : marker.markerUnits = SP_MARKER_UNITS_STROKEWIDTH ∧ lw = 0
  · rw [if_pos h]
  · rw [if_neg h]
    exact showInstanceLoop_keys ext marker shown parent key pos base lw d marker.views

theorem filter_keys_nodup (views : List SPMarkerView) (key : Nat)
    (hnd : (views.map (fun v => v.key)).Nodup) :
    ((views.filter (fun v => ¬ v.key = key)).map (fun v => v.key)).Nodup ∧
    key ∉ (views.filter (fun v => ¬ v.key = key)).map (fun v => v.key) := by
  constructor
  · exact List.Nodup.sublist (List.Sublist.map _ (List.filter_sublist _)) hnd
  · intro hmem
    obtain ⟨v, hv, hk⟩ := List.mem_map.mp hmem
    have := (List.mem_filter.mp hv).2
    simp only [decide_not, Bool.not_eq_true', decide_eq_false_iff_not] at this
    exact this hk

theorem show_dimension_nodup (marker : SPMarker) (d : Drawing) (key size : Nat)
    (hnd : (marker.views.map (fun v => v.key)).Nodup) :
    ((sp_marker_show_dimension marker d key size).1.views.map (fun v => v.key)).Nodup := by
  rcases show_dimension_cases marker d key size with ⟨hnone, h⟩ | ⟨v, _, _, h⟩ | ⟨i, v, hf, _, _, h⟩
  · rw [h]
    simp only [List.map_cons, List.nodup_cons]
    refine ⟨?_, hnd⟩
    intro hmem
    obtain ⟨w, hw, hk⟩ := List.mem_map.mp hmem
    have hall : ∀ u ∈ marker.views, ¬ u.key = key := by
      intro u hu hku
      cases hview : viewOf marker.views key with
      | some z => rw [hview] at hnone; exact absurd hnone (by simp)
      | none =>
        have hfil := viewOf_eq_filter_head marker.views key
        rw [hview] at hfil
        have hmemf : u ∈ marker.views.filter (fun v => v.key = key) :=
          List.mem_filter.mpr ⟨hu, by simpa using hku⟩
        cases hl : marker.views.filter (fun v => v.key = key) with
        | nil => rw [hl] at hmemf; simp at hmemf
        | cons a as => rw [hl] at hfil; simp at hfil
    exact hall w hw hk
  · rw [h]; exact hnd
  · rw [h]
    simp only [List.map_cons, List.nodup_cons]
    rw [eraseIdx_findView_nodup _ _ _ hf hnd]
    exact ⟨(filter_keys_nodup marker.views key hnd).2, (filter_keys_nodup marker.views key hnd).1⟩

theorem hide_nodup (marker : SPMarker) (d : Drawing) (key : Nat)
    (hnd : (marker.views.map (fun v => v.key)).Nodup) :
    ((sp_marker_hide marker d key).1.views.map (fun v => v.key)).Nodup := by
  rcases hide_cases marker d key with ⟨_, h⟩ | ⟨i, v, hf, _, _, _, h⟩
  · rw [h]; exact hnd
  · rw [h]
    simp only
    rw [eraseIdx_findView_nodup _ _ _ hf hnd]
    exact (filter_keys_nodup marker.views key hnd).1


/-! ## Reading preserveAspectRatio -/

theorem take_length_sub_dropWhile (q : Char → Bool) (l : List Char) :
    l.take (l.length - (l.dropWhile q).length) = l.takeWhile q := by
  have h := List.takeWhile_append_dropWhile q l
  have hl : l.length = (l.takeWhile q).length + (l.dropWhile q).length := by
    conv_lhs => rw [← h]
    exact List.length_append _ _
  have e : l.length - (l.dropWhile q).length = (l.takeWhile q).length := by omega
  rw [e]
  calc l.take (l.takeWhile q).length
      = (l.takeWhile q ++ l.dropWhile q).take (l.takeWhile q).length := by rw [h]
    _ = l.takeWhile q := List.take_left' rfl

theorem alignOfWord_space (t : List Char) : alignOfWord (' ' :: t) = none := by
  simp [alignOfWord]

theorem skipSpaces_eq_or (s : List Char) : skipSpaces s = s ∨ ∃ t, s = ' ' :: t := by
  cases s with
  | nil => exact Or.inl rfl
  | cons c cs =>
    by_cases h : c = ' '
    · exact Or.inr ⟨cs, by rw [h]⟩
    · exact Or.inl (by simp [skipSpaces, List.dropWhile, h])

theorem skipSpaces_head (s : List Char) (c : Char) (t : List Char)
    (h : skipSpaces s = c :: t) : c ≠ ' ' := by
  induction s with
  | nil => simp [skipSpaces] at h
  | cons a as ih =>
    by_cases ha : a = ' '
    · apply ih
      simpa [skipSpaces, List.dropWhile, ha] using h
    · have e : skipSpaces (a :: as) = a :: as := by simp [skipSpaces, List.dropWhile, ha]
      rw [e] at h
      have := (List.cons.inj h).1
      rw [← this]; exact ha

/-- The word `readAspect` hands to the chain of `strcmp` tests is the first word
of the value when the value has no leading space, and begins with a space
otherwise. -/
theorem readAspect_none_of_word (value : List Char)
    (h : alignOfWord (firstWord value) = none) : readAspect value = none := by
  unfold readAspect
  simp only
  by_cases hp : List.dropWhile (fun ch => decide (ch = ' ')) value = []
  · rw [if_pos hp]
  · rw [if_neg hp]
    by_cases hlen : (List.dropWhile (fun ch => decide (ch = ' ')) value).length -
        (List.dropWhile (fun ch => decide (ch ≠ ' '))
          (List.dropWhile (fun ch => decide (ch = ' ')) value)).length > 8
    · rw [if_pos hlen]
    · rw [if_neg hlen]
      have hc : alignOfWord (value.take
          ((List.dropWhile (fun ch => decide (ch = ' ')) value).length -
            (List.dropWhile (fun ch => decide (ch ≠ ' '))
              (List.dropWhile (fun ch => decide (ch = ' ')) value)).length)) = none := by
        rcases skipSpaces_eq_or value with hs | ⟨t, ht⟩
        · have hs2 : List.dropWhile (fun ch => decide (ch = ' ')) value = value := hs
          rw [hs2, take_length_sub_dropWhile]
          have hw : firstWord value = value.takeWhile (fun ch => decide (ch ≠ ' ')) := by
            unfold firstWord
            rw [hs]
          rw [← hw]; exact h
        · cases hq : List.dropWhile (fun ch => decide (ch = ' ')) value with
          | nil => exact absurd hq hp
          | cons c cs =>
            have hne : c ≠ ' ' := skipSpaces_head value c cs hq
            have hpos : 0 < (c :: cs).length -
                (List.dropWhile (fun ch => decide (ch ≠ ' ')) (c :: cs)).length := by
              have hd : (List.dropWhile (fun ch => decide (ch ≠ ' ')) (c :: cs)).length ≤
                  cs.length := by
                have e : List.dropWhile (fun ch => decide (ch ≠ ' ')) (c :: cs) =
                    List.dropWhile (fun ch => decide (ch ≠ ' ')) cs := by
                  simp [List.dropWhile, hne]
                rw [e]
                exact (List.dropWhile_sublist _).length_le
              simp only [List.length_cons]
              omega
            obtain ⟨n, hn⟩ := Nat.exists_eq_succ_of_ne_zero (Nat.pos_iff_ne_zero.mp hpos)
            rw [hn, ht, List.take_succ_cons]
            exact alignOfWord_space _
      rw [hc]

theorem readAspect_none_of_clip (value : List Char)
    (h1 : firstWord (afterFirstWord value) ≠ [])
    (h2 : firstWord (afterFirstWord value) ≠ "meet".toList)
    (h3 : firstWord (afterFirstWord value) ≠ "slice".toList) : readAspect value = none := by
  have hfw : ∀ s : List Char, (s = "meet".toList ∨ s = "slice".toList) → firstWord s = s := by
    intro s hs
    rcases hs with rfl | rfl <;> decide
  have e1 : afterFirstWord value ≠ [] := by
    intro e; rw [e] at h1; exact h1 rfl
  have e2 : afterFirstWord value ≠ "meet".toList := by
    intro e; rw [e] at h2; exact h2 (hfw _ (Or.inl rfl))
  have e3 : afterFirstWord value ≠ "slice".toList := by
    intro e; rw [e] at h3; exact h3 (hfw _ (Or.inr rfl))
  unfold readAspect
  simp only
  by_cases hp : List.dropWhile (fun ch => decide (ch = ' ')) value = []
  · rw [if_pos hp]
  · rw [if_neg hp]
    by_cases hlen : (List.dropWhile (fun ch => decide (ch = ' ')) value).length -
        (List.dropWhile (fun ch => decide (ch ≠ ' '))
          (List.dropWhile (fun ch => decide (ch = ' ')) value)).length > 8
    · rw [if_pos hlen]
    · rw [if_neg hlen]
      cases alignOfWord _ with
      | none => rfl
      | some align =>
        have ea : List.dropWhile (fun ch => decide (ch = ' '))
            (List.dropWhile (fun ch => decide (ch ≠ ' '))
              (List.dropWhile (fun ch => decide (ch = ' ')) value)) = afterFirstWord value := rfl
        simp only [ea, e1, e2, e3, if_false]



theorem alignOfWord_none_of_not_keyword (w : List Char) (h : w ∉ alignmentKeywords) :
    alignOfWord w = none := by
  simp only [alignmentKeywords, List.mem_cons, List.mem_singleton, not_or, List.not_mem_nil,
    or_false] at h
  obtain ⟨h1, h2, h3, h4, h5, h6, h7, h8, h9, h10⟩ := h
  simp only [alignOfWord, h1, h2, h3, h4, h5, h6, h7, h8, h9, h10, if_false]

theorem firstWord_of_blank (v : List Char) (h : skipSpaces v = []) : firstWord v = [] := by
  unfold firstWord
  rw [h]
  rfl

/-- C21. For every preserveAspectRatio value that is absent, blank, has a first
word that is not one of the ten alignment keywords, or has a valid alignment
followed by a clip word other than meet or slice, `SPMarker::set` leaves the
whole attribute at its default (aspect_set false, aspect_align none, aspect_clip
meet) whatever was stored before; a valid alignment before an invalid clip word
is not applied. -/
theorem set_aspect_malformed (ext : Extern) (m : SPMarker) (value : Option (List Char))
    (h : value = none ∨
      ∃ v, value = some v ∧
        (skipSpaces v = [] ∨ firstWord v ∉ alignmentKeywords ∨
          (firstWord v ∈ alignmentKeywords ∧ firstWord (afterFirstWord v) ≠ [] ∧
            firstWord (afterFirstWord v) ≠ "meet".toList ∧
            firstWord (afterFirstWord v) ≠ "slice".toList))) :
    (m.set ext SP_ATTR_PRESERVEASPECTRATIO value).aspect_set = false ∧
    (m.set ext SP_ATTR_PRESERVEASPECTRATIO value).aspect_align = SP_ASPECT_NONE ∧
    (m.set ext SP_ATTR_PRESERVEASPECTRATIO value).aspect_clip = SP_ASPECT_MEET := by
  have hnone : value.bind readAspect = none := by
    rcases h with rfl | ⟨v, rfl, hv⟩
    · rfl
    · simp only [Option.some_bind]
      rcases hv with hb | hw | ⟨_, h1, h2, h3⟩
      · apply readAspect_none_of_word
        rw [firstWord_of_blank v hb]
        rfl
      · exact readAspect_none_of_word v (alignOfWord_none_of_not_keyword _ hw)
      · exact readAspect_none_of_clip v h1 h2 h3
  rw [set_aspect_eq]
  simp [aspectOf, hnone]

/-- Witness of C21: on a marker that stores xMaxYMax slice, the value
"xMidYMid foo" (valid alignment, invalid clip word) and the value "xMidYMi"
(unknown keyword) both leave the default. -/
theorem set_aspect_malformed_witness :
    ((sliceMarker.set decimalExtern
        SP_ATTR_PRESERVEASPECTRATIO (some "xMidYMid foo".toList)).aspect_set = false ∧
      (sliceMarker.set decimalExtern
        SP_ATTR_PRESERVEASPECTRATIO (some "xMidYMid foo".toList)).aspect_align = SP_ASPECT_NONE ∧
      (sliceMarker.set decimalExtern
        SP_ATTR_PRESERVEASPECTRATIO (some "xMidYMid foo".toList)).aspect_clip = SP_ASPECT_MEET) ∧
    (sliceMarker.set decimalExtern
        SP_ATTR_PRESERVEASPECTRATIO (some "xMidYMi".toList)).aspect_set = false :=
  ⟨set_aspect_malformed decimalExtern _ (some "xMidYMid foo".toList)
      (Or.inr ⟨"xMidYMid foo".toList, rfl, Or.inr (Or.inr (by decide))⟩),
   (set_aspect_malformed decimalExtern _ (some "xMidYMi".toList)
      (Or.inr ⟨"xMidYMi".toList, rfl, Or.inr (Or.inl (by decide))⟩)).1⟩

/-- C28. The code on a value with a leading space: "xMidYMid slice" stores
xMidYMid slice, while " xMidYMid slice" stores the default (not set, none,
meet): the leading space is skipped for the length of the word, but the word is
copied from the start of the value. -/
theorem set_aspect_leading_space :
    aspectOf (some "xMidYMid slice".toList) = (true, SP_ASPECT_XMID_YMID, SP_ASPECT_SLICE) ∧
    aspectOf (some " xMidYMid slice".toList) = (false, SP_ASPECT_NONE, SP_ASPECT_MEET) ∧
    (SPMarker.new.set decimalExtern SP_ATTR_PRESERVEASPECTRATIO
        (some "xMidYMid slice".toList)).aspect_align = SP_ASPECT_XMID_YMID ∧
    (SPMarker.new.set decimalExtern SP_ATTR_PRESERVEASPECTRATIO
        (some " xMidYMid slice".toList)).aspect_align = SP_ASPECT_NONE ∧
    (SPMarker.new.set decimalExtern SP_ATTR_PRESERVEASPECTRATIO
        (some "xMidYMid slice".toList)).aspect_set = true ∧
    (SPMarker.new.set decimalExtern SP_ATTR_PRESERVEASPECTRATIO
        (some " xMidYMid slice".toList)).aspect_set = false := by
  simp only [set_aspect_eq]
  decide

/-! ## Reading the viewBox: fields that cannot be parsed -/

theorem skipSep_skipSep (s : List Char) : skipSep (skipSep s) = skipSep s := by
  induction s with
  | nil => rfl
  | cons c cs ih =>
    by_cases h : c = ',' ∨ c = ' '
    · simp only [skipSep, h, if_true]; exact ih
    · simp only [skipSep, h, if_false]

theorem readViewBox_none_of_width (ext : Extern) (value : List Char)
    (h : (viewBoxFields ext value).2.2.1 = 0 ∨ (viewBoxFields ext value).2.2.2 = 0) :
    readViewBox ext (some value) = none := by
  simp only [readViewBox]
  rw [if_neg]
  rintro ⟨hw, hh⟩
  rcases h with h | h
  · rw [h] at hw; exact lt_irrefl _ hw
  · rw [h] at hh; exact lt_irrefl _ hh

/-- C22, amended. For every viewBox value in which the `y`, the `width` or the
`height` field cannot be parsed at its position, or in which `x` cannot be parsed
and the value does not begin with a separator (comma or space), `SPMarker::set`
leaves viewBox absent, whatever viewBox was stored before: the failed parse
yields 0 without advancing, so the width or the height reads 0 and the check
`width > 0 && height > 0` rejects the box. -/
theorem set_viewBox_unparsed (ext : Extern) (m : SPMarker) (value : List Char)
    (h : (parseFails ext value ∧ skipSep value = value) ∨
      parseFails ext (viewBoxInputs ext value).2.1 ∨
      parseFails ext (viewBoxInputs ext value).2.2.1 ∨
      parseFails ext (viewBoxInputs ext value).2.2.2) :
    (m.set ext SP_ATTR_VIEWBOX (some value)).viewBox = none := by
  have hy : ∀ s2, s2 = skipSep (ext.g_ascii_strtod value).2 → parseFails ext s2 →
      (viewBoxFields ext value).2.2.1 = 0 := by
    intro s2 hs2 hf
    unfold parseFails at hf
    simp only [viewBoxFields]
    rw [← hs2, hf]
    simp only
    rw [hs2, skipSep_skipSep, ← hs2, hf]
  have hnone : readViewBox ext (some value) = none := by
    apply readViewBox_none_of_width
    rcases h with ⟨hx, hsep⟩ | h2 | h3 | h4
    · left
      apply hy value
      · unfold parseFails at hx
        rw [hx]; exact hsep.symm
      · exact hx
    · left
      exact hy _ rfl h2
    · left
      unfold parseFails viewBoxInputs at h3
      simp only at h3
      simp only [viewBoxFields]
      rw [h3]
    · right
      unfold parseFails viewBoxInputs at h4
      simp only at h4
      simp only [viewBoxFields]
      rw [h4]
  simp only [SPMarker.set, SPMarker.requestDisplayUpdate, hnone]


/-- C22, counterexample: in the value ",1 2 3" no number can be parsed at the
position of `x` (the value begins with a comma), yet the separator is skipped and
the remaining numbers are read as `y`, `width` and `height`: a viewBox is stored. -/
theorem set_viewBox_unparsed_counterexample :
    decimalExtern.g_ascii_strtod ",1 2 3".toList = (0, ",1 2 3".toList) ∧
    (SPMarker.new.set decimalExtern SP_ATTR_VIEWBOX (some ",1 2 3".toList)).viewBox =
      some ⟨0, 1, 2, 4⟩ := by
  constructor
  · simp [decimalExtern, readDecimal]
  · simp [SPMarker.set, SPMarker.requestDisplayUpdate, readViewBox, viewBoxFields, decimalExtern,
      readDecimal, readDigits, skipSep, Rect.ofPoints, SPMarker.new]
    norm_num

/-- Witness of C22 (amended): on a marker holding the viewBox (0,0,50,50), the
values "a 1 2 3" (`x` fails, no separator first), "1 a 2 3" (`y` fails),
"1 2 a 3" (`width` fails) and "1 2 3 a" (`height` fails) leave the viewBox
absent. -/
theorem set_viewBox_unparsed_witness :
    ((SPMarker.sized 3 3 (some ⟨0, 0, 50, 50⟩) SP_ASPECT_NONE SP_ASPECT_MEET).set decimalExtern
        SP_ATTR_VIEWBOX (some "a 1 2 3".toList)).viewBox = none ∧
    ((SPMarker.sized 3 3 (some ⟨0, 0, 50, 50⟩) SP_ASPECT_NONE SP_ASPECT_MEET).set decimalExtern
        SP_ATTR_VIEWBOX (some "1 a 2 3".toList)).viewBox = none ∧
    ((SPMarker.sized 3 3 (some ⟨0, 0, 50, 50⟩) SP_ASPECT_NONE SP_ASPECT_MEET).set decimalExtern
        SP_ATTR_VIEWBOX (some "1 2 a 3".toList)).viewBox = none ∧
    ((SPMarker.sized 3 3 (some ⟨0, 0, 50, 50⟩) SP_ASPECT_NONE SP_ASPECT_MEET).set decimalExtern
        SP_ATTR_VIEWBOX (some "1 2 3 a".toList)).viewBox = none :=
  ⟨set_viewBox_unparsed decimalExtern _ "a 1 2 3".toList
      (Or.inl ⟨by simp [parseFails, decimalExtern, readDecimal], by simp [skipSep]⟩),
   set_viewBox_unparsed decimalExtern _ "1 a 2 3".toList
      (Or.inr (Or.inl (by
        simp [parseFails, viewBoxInputs, decimalExtern, readDecimal, readDigits, skipSep]))),
   set_viewBox_unparsed decimalExtern _ "1 2 a 3".toList
      (Or.inr (Or.inr (Or.inl (by
        simp [parseFails, viewBoxInputs, decimalExtern, readDecimal, readDigits, skipSep])))),
   set_viewBox_unparsed decimalExtern _ "1 2 3 a".toList
      (Or.inr (Or.inr (Or.inr (by
        simp [parseFails, viewBoxInputs, decimalExtern, readDecimal, readDigits, skipSep]))))⟩

/-! ## Update requests of `set` -/

/-- C23. For each of the eight marker attributes and every value, absent and
malformed ones included, `SPMarker::set` makes exactly one
`requestDisplayUpdate` call, and its flags include the modified flag; for
viewBox and preserveAspectRatio (and for markerUnits) they also include the
viewport-modified flag. -/
theorem set_requests_update (ext : Extern) (m : SPMarker) (value : Option (List Char)) :
    (m.set ext SP_ATTR_MARKERUNITS value).requests =
        (SP_OBJECT_MODIFIED_FLAG ||| SP_OBJECT_VIEWPORT_MODIFIED_FLAG) :: m.requests ∧
    (m.set ext SP_ATTR_REFX value).requests = SP_OBJECT_MODIFIED_FLAG :: m.requests ∧
    (m.set ext SP_ATTR_REFY value).requests = SP_OBJECT_MODIFIED_FLAG :: m.requests ∧
    (m.set ext SP_ATTR_MARKERWIDTH value).requests = SP_OBJECT_MODIFIED_FLAG :: m.requests ∧
    (m.set ext SP_ATTR_MARKERHEIGHT value).requests = SP_OBJECT_MODIFIED_FLAG :: m.requests ∧
    (m.set ext SP_ATTR_ORIENT value).requests = SP_OBJECT_MODIFIED_FLAG :: m.requests ∧
    (m.set ext SP_ATTR_VIEWBOX value).requests =
        (SP_OBJECT_MODIFIED_FLAG ||| SP_OBJECT_VIEWPORT_MODIFIED_FLAG) :: m.requests ∧
    (m.set ext SP_ATTR_PRESERVEASPECTRATIO value).requests =
        (SP_OBJECT_MODIFIED_FLAG ||| SP_OBJECT_VIEWPORT_MODIFIED_FLAG) :: m.requests ∧
    SP_OBJECT_MODIFIED_FLAG &&& SP_OBJECT_MODIFIED_FLAG = SP_OBJECT_MODIFIED_FLAG ∧
    (SP_OBJECT_MODIFIED_FLAG ||| SP_OBJECT_VIEWPORT_MODIFIED_FLAG) &&& SP_OBJECT_MODIFIED_FLAG =
        SP_OBJECT_MODIFIED_FLAG ∧
    (SP_OBJECT_MODIFIED_FLAG ||| SP_OBJECT_VIEWPORT_MODIFIED_FLAG) &&&
        SP_OBJECT_VIEWPORT_MODIFIED_FLAG = SP_OBJECT_VIEWPORT_MODIFIED_FLAG := by
  refine ⟨?_, rfl, rfl, rfl, rfl, ?_, rfl, ?_, by decide, by decide, by decide⟩
  · rw [set_markerUnits_eq]
  · rw [set_orient_eq]
  · rw [set_aspect_eq]


/-! ## No lifecycle check in the marker methods -/

theorem release_result (m : SPMarker) (d : Drawing) (fuel : Nat) (m1 : SPMarker) (d1 : Drawing)
    (n : Nat) (h : m.release fuel d = some (m1, d1, n)) :
    m1 = { m with views := [] } ∧ n = m.views.length := by
  unfold SPMarker.release at h
  by_cases hlen : m.views.length ≤ fuel
  · obtain ⟨d2, h2, _⟩ := releaseLoop_enough fuel m d hlen
    rw [h2] at h
    simp only [Option.some.injEq, Prod.mk.injEq] at h
    exact ⟨h.1.symm, h.2.2.symm⟩
  · rw [releaseLoop_short fuel m d (not_le.mp hlen)] at h
    exact absurd h (by simp)

theorem set_views (ext : Extern) (m : SPMarker) (key : SPAttr) (v : Option (List Char))
    (vs : List SPMarkerView) :
    ({ m with views := vs } : SPMarker).set ext key v = { m.set ext key v with views := vs } := by
  cases key with
  | SP_ATTR_MARKERUNITS => rw [set_markerUnits_eq, set_markerUnits_eq]
  | SP_ATTR_ORIENT => rw [set_orient_eq, set_orient_eq]
  | SP_ATTR_PRESERVEASPECTRATIO => rw [set_aspect_eq, set_aspect_eq]
  | SP_ATTR_REFX => rfl
  | SP_ATTR_REFY => rfl
  | SP_ATTR_MARKERWIDTH => rfl
  | SP_ATTR_MARKERHEIGHT => rfl
  | SP_ATTR_VIEWBOX => rfl
  | SP_ATTR_OTHER c => rfl

theorem update_no_views (m : SPMarker) :
    ({ m with views := [] } : SPMarker).update =
      m.update.map (fun s => { s with views := [] }) := by
  rw [update_eq_fit m, update_eq_fit ({ m with views := [] } : SPMarker)]
  cases fitC2p m.markerWidth.computed m.markerHeight.computed m.viewBox m.aspect_align
      m.aspect_clip m.refX.computed m.refY.computed <;> rfl

theorem set_requests_length (ext : Extern) (m : SPMarker) (key : SPAttr)
    (v : Option (List Char)) (hk : ∀ c, key ≠ SP_ATTR_OTHER c) :
    (m.set ext key v).requests.length = m.requests.length + 1 := by
  cases key with
  | SP_ATTR_MARKERUNITS => rw [set_markerUnits_eq]; rfl
  | SP_ATTR_ORIENT => rw [set_orient_eq]; rfl
  | SP_ATTR_PRESERVEASPECTRATIO => rw [set_aspect_eq]; rfl
  | SP_ATTR_REFX => rfl
  | SP_ATTR_REFY => rfl
  | SP_ATTR_MARKERWIDTH => rfl
  | SP_ATTR_MARKERHEIGHT => rfl
  | SP_ATTR_VIEWBOX => rfl
  | SP_ATTR_OTHER c => exact absurd rfl (hk c)

/-- C24, counterexample: a marker with one view under key 7, the reference
point (1, 2) and the `c2p` of a constructed marker is released, which empties its
list of views.  On the released marker `set` is executed: markerUnits goes from
strokeWidth to userSpaceOnUse and a display update is requested; and `update` is
executed: `c2p` becomes the translation by (-1, -2). -/
theorem lifecycle_counterexample :
    SPMarker.release 1 shownMarker Drawing.empty =
      some ({ shownMarker with views := [] }, ⟨[], [], [7]⟩, 1) ∧
    ({ shownMarker with views := [] } : SPMarker).markerUnits = SP_MARKER_UNITS_STROKEWIDTH ∧
    (({ shownMarker with views := [] } : SPMarker).set decimalExtern SP_ATTR_MARKERUNITS
        (some "userSpaceOnUse".toList)).markerUnits = SP_MARKER_UNITS_USERSPACEONUSE ∧
    (({ shownMarker with views := [] } : SPMarker).set decimalExtern SP_ATTR_MARKERUNITS
        (some "userSpaceOnUse".toList)).requests =
      [SP_OBJECT_MODIFIED_FLAG ||| SP_OBJECT_VIEWPORT_MODIFIED_FLAG] ∧
    ({ shownMarker with views := [] } : SPMarker).c2p = Affine.identity ∧
    (({ shownMarker with views := [] } : SPMarker).update).map (fun s => s.c2p) =
      some (Translate (-1) (-2)) := by
  refine ⟨by decide, rfl, ?_, ?_, rfl, ?_⟩
  · rw [set_markerUnits_eq]; decide
  · rw [set_markerUnits_eq]; decide
  · decide!

/-- C24, amended. `SPMarker::set` and `SPMarker::update` make no lifecycle
check: called on a marker after `release` they are executed.  `set` stores the
attribute and, for each of the eight marker attributes, requests a display
update, and `update` recomputes `c2p`, exactly as on the same marker before the
release, apart from the list of views, which `release` has emptied. -/
theorem lifecycle_set_update (ext : Extern) (m : SPMarker) (d : Drawing)
    (fuel : Nat) (m1 : SPMarker) (d1 : Drawing) (n : Nat)
    (h : m.release fuel d = some (m1, d1, n)) :
    (∀ (key : SPAttr) (v : Option (List Char)),
      m1.set ext key v = { m.set ext key v with views := [] }) ∧
    (∀ (key : SPAttr) (v : Option (List Char)), (∀ c, key ≠ SP_ATTR_OTHER c) →
      (m1.set ext key v).requests.length = m1.requests.length + 1) ∧
    m1.update = m.update.map (fun s => { s with views := [] }) := by
  obtain ⟨hm1, _⟩ := release_result m d fuel m1 d1 n h
  subst hm1
  exact ⟨fun key v => set_views ext m key v [],
    fun key v hk => set_requests_length ext _ key v hk, update_no_views m⟩

/-- Witness of C24 (amended): the marker with one view under key 7, released
with fuel 1; afterwards `set` of refX stores the value 5 and `update` yields
what it yields before the release, without the view. -/
theorem lifecycle_set_update_witness :
    (({ shownMarker with views := [] } : SPMarker).set decimalExtern SP_ATTR_REFX
        (some "5".toList)) =
      { shownMarker.set decimalExtern SP_ATTR_REFX (some "5".toList) with views := [] } ∧
    ({ shownMarker with views := [] } : SPMarker).update =
      shownMarker.update.map (fun s => { s with views := [] }) :=
  ⟨(lifecycle_set_update decimalExtern shownMarker Drawing.empty 1
      { shownMarker with views := [] } ⟨[], [], [7]⟩ 1 (by decide)).1 SP_ATTR_REFX
      (some "5".toList),
   (lifecycle_set_update decimalExtern shownMarker Drawing.empty 1
      { shownMarker with views := [] } ⟨[], [], [7]⟩ 1 (by decide)).2.2⟩


/-! ## The invariant of the view cache -/

theorem runOp_nodup (ext : Extern) (st : SPMarker × Drawing) (op : CacheOp)
    (hnd : (st.1.views.map (fun v => v.key)).Nodup) :
    ((runOp ext st op).1.views.map (fun v => v.key)).Nodup := by
  cases op with
  | showDimension key size => exact show_dimension_nodup st.1 st.2 key size hnd
  | showInstance c =>
    show ((sp_marker_show_instance ext st.1 st.2 c.shown c.parent c.key c.pos c.base
      c.linewidth).2.1.views.map (fun v => v.key)).Nodup
    rw [show_instance_keys]
    exact hnd
  | hide key => exact hide_nodup st.1 st.2 key hnd
  | release =>
    obtain ⟨d2, h2, _⟩ := releaseLoop_enough st.1.views.length st.1 st.2 (le_refl _)
    have h3 : st.1.release st.1.views.length st.2 =
        some ({ st.1 with views := [] }, d2, st.1.views.length) := h2
    simp only [runOp, h3]
    exact List.nodup_nil

theorem runOps_nodup (ext : Extern) (ops : List CacheOp) :
    ∀ st : SPMarker × Drawing, (st.1.views.map (fun v => v.key)).Nodup →
      ((runOps ext st ops).1.views.map (fun v => v.key)).Nodup := by
  induction ops with
  | nil => exact fun st h => h
  | cons op ops ih => exact fun st h => ih (runOp ext st op) (runOp_nodup ext st op h)

theorem eq_of_key_eq (views : List SPMarkerView) (hnd : (views.map (fun v => v.key)).Nodup)
    (v w : SPMarkerView) (hv : v ∈ views) (hw : w ∈ views) (hk : v.key = w.key) : v = w :=
  List.inj_on_of_nodup_map hnd hv hw hk

/-- C25. Starting from a newly constructed marker, after every sequence of
`sp_marker_show_dimension`, `sp_marker_show_instance`, `sp_marker_hide` and
`SPMarker::release` calls the keys in the list of views are pairwise distinct:
two views of the list with the same key are the same view, so a key and a slot
position reach at most one item. -/
theorem view_keys_distinct (ext : Extern) (ops : List CacheOp) :
    ((runOps ext (SPMarker.new, Drawing.empty) ops).1.views.map (fun v => v.key)).Nodup ∧
    (∀ v ∈ (runOps ext (SPMarker.new, Drawing.empty) ops).1.views,
      ∀ w ∈ (runOps ext (SPMarker.new, Drawing.empty) ops).1.views, v.key = w.key → v = w) ∧
    (∀ v ∈ (runOps ext (SPMarker.new, Drawing.empty) ops).1.views, ∀ pos : Nat,
      slotAt (runOps ext (SPMarker.new, Drawing.empty) ops).1.views v.key pos =
        (v.items[pos]?).join) := by
  have hnd := runOps_nodup ext ops (SPMarker.new, Drawing.empty) List.nodup_nil
  refine ⟨hnd, fun v hv w hw hk => eq_of_key_eq _ hnd v w hv hw hk, fun v hv pos => ?_⟩
  obtain ⟨u, hu⟩ : ∃ u, viewOf (runOps ext (SPMarker.new, Drawing.empty) ops).1.views v.key
      = some u := by
    cases hq : viewOf (runOps ext (SPMarker.new, Drawing.empty) ops).1.views v.key with
    | some u => exact ⟨u, rfl⟩
    | none =>
      have hfil := viewOf_eq_filter_head (runOps ext (SPMarker.new, Drawing.empty) ops).1.views
        v.key
      rw [hq] at hfil
      have hmemf : v ∈ (runOps ext (SPMarker.new, Drawing.empty) ops).1.views.filter
          (fun u => u.key = v.key) := List.mem_filter.mpr ⟨hv, by simp⟩
      cases hl : (runOps ext (SPMarker.new, Drawing.empty) ops).1.views.filter
          (fun u => u.key = v.key) with
      | nil => rw [hl] at hmemf; simp at hmemf
      | cons a as => rw [hl] at hfil; simp at hfil
  obtain ⟨hmem, hkey⟩ := viewOf_mem _ _ _ hu
  have huv : u = v := eq_of_key_eq _ hnd u v hmem hv hkey
  simp only [slotAt, hu, huv]

/-- Witness of C25: a sequence in which the key 7 is shown twice, used, and a
second key is shown and hidden; one view is left, the one of key 7 with the
size of the second call. -/
theorem view_keys_distinct_witness :
    ((runOps decimalExtern (SPMarker.new, Drawing.empty)
        [CacheOp.showDimension 7 2, CacheOp.showDimension 8 1, CacheOp.showDimension 7 3,
          CacheOp.hide 8]).1.views.map (fun v => v.key)).Nodup ∧
    (runOps decimalExtern (SPMarker.new, Drawing.empty)
        [CacheOp.showDimension 7 2, CacheOp.showDimension 8 1, CacheOp.showDimension 7 3,
          CacheOp.hide 8]).1.views.map (fun v => v.key) = [7] :=
  ⟨(view_keys_distinct decimalExtern
      [CacheOp.showDimension 7 2, CacheOp.showDimension 8 1, CacheOp.showDimension 7 3,
        CacheOp.hide 8]).1, by decide⟩


/-! ## Reuse of the item of a slot -/

theorem join_eq_some (items : List (Option DrawingItem)) (pos : Nat) (it0 : DrawingItem)
    (h : (items[pos]?).join = some it0) : items[pos]? = some (some it0) := by
  cases hq : items[pos]? with
  | none => rw [hq] at h; exact absurd h (by simp)
  | some slot =>
    rw [hq] at h
    cases slot with
    | none => exact absurd h (by simp)
    | some g => exact congrArg some h

theorem showInstanceAt_filled (ext : Extern) (marker : SPMarker) (shown : Option DrawingItem)
    (parent pos : Nat) (base : Affine) (lw : ℚ) (d : Drawing) (v : SPMarkerView)
    (it0 : DrawingItem) (h : (v.items[pos]?).join = some it0) :
    showInstanceAt ext marker shown parent pos base lw d v =
      showInstanceAt ext marker none parent pos base lw d v ∧
    (showInstanceAt ext marker shown parent pos base lw d v).2.2 = d ∧
    ∃ it, (showInstanceAt ext marker shown parent pos base lw d v).1 = some it ∧
      it = { it0 with transform := it.transform } := by
  have h2 := join_eq_some v.items pos it0 h
  have hlt : pos < v.items.length := by
    by_contra hc
    rw [List.getElem?_eq_none (not_lt.mp hc)] at h2
    exact absurd h2 (by simp)
  unfold showInstanceAt
  rw [if_neg (not_le.mpr hlt), if_neg (not_le.mpr hlt)]
  refine ⟨?_, ?_, ?_⟩
  · simp only [h]
  · simp only [h]
  · simp only [h]
    exact ⟨_, rfl, rfl⟩

theorem showInstanceLoop_no_view (ext : Extern) (marker : SPMarker) (shown : Option DrawingItem)
    (parent key pos : Nat) (base : Affine) (lw : ℚ) (d : Drawing) (views : List SPMarkerView)
    (h : viewOf views key = none) :
    showInstanceLoop ext marker shown parent key pos base lw d views = (none, views, d) := by
  induction views with
  | nil => rfl
  | cons v vs ih =>
    by_cases hk : v.key = key
    · rw [viewOf_cons_eq v vs key hk] at h
      exact absurd h (by simp)
    · rw [viewOf_cons_ne v vs key hk] at h
      rw [showInstanceLoop_cons_ne _ _ _ _ _ _ _ _ _ _ _ hk, ih h]

theorem showInstanceLoop_at (ext : Extern) (marker : SPMarker) (shown : Option DrawingItem)
    (parent key pos : Nat) (base : Affine) (lw : ℚ) (d : Drawing) (views : List SPMarkerView)
    (v : SPMarkerView) (h : viewOf views key = some v) :
    (showInstanceLoop ext marker shown parent key pos base lw d views).1 =
      (showInstanceAt ext marker shown parent pos base lw d v).1 ∧
    (showInstanceLoop ext marker shown parent key pos base lw d views).2.2 =
      (showInstanceAt ext marker shown parent pos base lw d v).2.2 ∧
    ((showInstanceAt ext marker shown parent pos base lw d v).2.1 = v →
      (showInstanceLoop ext marker shown parent key pos base lw d views).2.1 = views) ∧
    (showInstanceAt ext marker shown parent pos base lw d v =
        showInstanceAt ext marker none parent pos base lw d v →
      showInstanceLoop ext marker shown parent key pos base lw d views =
        showInstanceLoop ext marker none parent key pos base lw d views) := by
  induction views with
  | nil => simp [viewOf] at h
  | cons w ws ih =>
    by_cases hk : w.key = key
    · rw [viewOf_cons_eq w ws key hk, Option.some.injEq] at h
      subst h
      rw [showInstanceLoop_cons_eq _ _ _ _ _ _ _ _ _ _ _ hk,
        showInstanceLoop_cons_eq _ _ _ _ _ _ _ _ _ _ _ hk]
      exact ⟨rfl, rfl, fun e => by rw [e], fun e => by rw [e]⟩
    · rw [viewOf_cons_ne w ws key hk] at h
      rw [showInstanceLoop_cons_ne _ _ _ _ _ _ _ _ _ _ _ hk,
        showInstanceLoop_cons_ne _ _ _ _ _ _ _ _ _ _ _ hk]
      obtain ⟨i1, i2, i3, i4⟩ := ih h
      exact ⟨i1, i2, fun e => by rw [i3 e], fun e => by rw [i4 e]⟩

theorem showInstanceAt_drawing (ext : Extern) (marker : SPMarker) (shown : Option DrawingItem)
    (parent pos : Nat) (base : Affine) (lw : ℚ) (d : Drawing) (v : SPMarkerView) :
    (showInstanceAt ext marker shown parent pos base lw d v).2.2 = d ∨
    ((v.items[pos]?).join = none ∧ pos < v.items.length ∧
      ∃ it, shown = some it ∧
        (showInstanceAt ext marker shown parent pos base lw d v).2.2 =
          { d with prepended := (parent, it.id) :: d.prepended }) := by
  by_cases hr : pos ≥ v.items.length
  · rw [showInstanceAt_out_of_range ext marker shown parent pos base lw d v hr]
    exact Or.inl rfl
  · unfold showInstanceAt
    rw [if_neg hr]
    cases hcur : (v.items[pos]?).join with
    | some it0 => exact Or.inl rfl
    | none =>
      cases shown with
      | none => exact Or.inl rfl
      | some it => exact Or.inr ⟨rfl, not_le.mp hr, it, rfl, rfl⟩

/-- C26. Reuse of an item: when the slot `(key, pos)` already holds an item, a
call of `sp_marker_show_instance` that is not suppressed returns that item with
nothing but its instance transform set anew, leaves it in the slot, makes no
call on the backend and does not depend on what the parent class `show` would
deliver; the backend is changed (an item is created and prepended) only when the
slot is empty; and a call whose key has no view, or whose `pos` is not below the
slot count of its view, returns NULL and changes neither the marker nor the
backend. -/
theorem show_instance_reuse (ext : Extern) (marker : SPMarker) (d : Drawing)
    (shown : Option DrawingItem) (parent key pos : Nat) (base : Affine) (lw : ℚ)
    (hns : ¬ (marker.markerUnits = SP_MARKER_UNITS_STROKEWIDTH ∧ lw = 0)) :
    (∀ it0, slotAt marker.views key pos = some it0 →
      ∃ it, (sp_marker_show_instance ext marker d shown parent key pos base lw).1 = some it ∧
        it = { it0 with transform := it.transform } ∧
        slotAt (sp_marker_show_instance ext marker d shown parent key pos base lw).2.1.views
          key pos = some it ∧
        (sp_marker_show_instance ext marker d shown parent key pos base lw).2.2 = d ∧
        sp_marker_show_instance ext marker d shown parent key pos base lw =
          sp_marker_show_instance ext marker d none parent key pos base lw) ∧
    ((sp_marker_show_instance ext marker d shown parent key pos base lw).2.2 = d ∨
      (slotAt marker.views key pos = none ∧ ∃ it, shown = some it ∧
        (sp_marker_show_instance ext marker d shown parent key pos base lw).2.2 =
          { d with prepended := (parent, it.id) :: d.prepended })) ∧
    (viewOf marker.views key = none →
      sp_marker_show_instance ext marker d shown parent key pos base lw = (none, marker, d)) ∧
    (∀ v, viewOf marker.views key = some v → v.items.length ≤ pos →
      sp_marker_show_instance ext marker d shown parent key pos base lw = (none, marker, d)) := by
  have hloop := showInstanceLoop_viewOf ext marker shown parent key pos base lw d marker.views
  refine ⟨fun it0 h0 => ?_, ?_, fun hnone => ?_, fun v hv hpos => ?_⟩
  · cases hv : viewOf marker.views key with
    | none => simp [slotAt, hv] at h0
    | some v =>
      have hj : (v.items[pos]?).join = some it0 := by simpa [slotAt, hv] using h0
      obtain ⟨f1, f2, it, f3, f4⟩ :=
        showInstanceAt_filled ext marker shown parent pos base lw d v it0 hj
      obtain ⟨l1, l2, _, l4⟩ :=
        showInstanceLoop_at ext marker shown parent key pos base lw d marker.views v hv
      have hres := showInstanceAt_result ext marker shown parent pos base lw d v
      refine ⟨it, ?_, f4, ?_, ?_, ?_⟩
      · unfold sp_marker_show_instance
        rw [if_neg hns]
        exact l1.trans f3
      · unfold sp_marker_show_instance
        rw [if_neg hns]
        simp only [slotAt]
        rw [hloop.2, hv]
        exact (hres.1 it f3).2
      · unfold sp_marker_show_instance
        rw [if_neg hns]
        exact l2.trans f2
      · unfold sp_marker_show_instance
        rw [if_neg hns, if_neg hns, l4 f1]
  · cases hv : viewOf marker.views key with
    | none =>
      left
      unfold sp_marker_show_instance
      rw [if_neg hns, showInstanceLoop_no_view _ _ _ _ _ _ _ _ _ _ hv]
    | some v =>
      obtain ⟨_, l2, _, _⟩ :=
        showInstanceLoop_at ext marker shown parent key pos base lw d marker.views v hv
      have hd : (sp_marker_show_instance ext marker d shown parent key pos base lw).2.2 =
          (showInstanceAt ext marker shown parent pos base lw d v).2.2 := by
        unfold sp_marker_show_instance
        rw [if_neg hns]
        exact l2
      rcases showInstanceAt_drawing ext marker shown parent pos base lw d v with hd2 | hd2
      · exact Or.inl (hd.trans hd2)
      · obtain ⟨hj, _, it, hs, hp⟩ := hd2
        exact Or.inr ⟨by simp only [slotAt, hv]; exact hj, it, hs, hd.trans hp⟩
  · unfold sp_marker_show_instance
    rw [if_neg hns, showInstanceLoop_no_view _ _ _ _ _ _ _ _ _ _ hnone]
  · obtain ⟨l1, l2, l3, _⟩ :=
      showInstanceLoop_at ext marker shown parent key pos base lw d marker.views v hv
    have hat := showInstanceAt_out_of_range ext marker shown parent pos base lw d v hpos
    rw [hat] at l1 l2 l3
    unfold sp_marker_show_instance
    rw [if_neg hns]
    have e3 := l3 rfl
    simp only at l1 l2
    rw [Prod.ext_iff, Prod.ext_iff]
    exact ⟨l1, by simp only [e3], l2⟩

/-- Witness of C26: slot 0 under key 7 holds the item 1, whose child transform
is a translation; the call returns the item 1 with that child transform, though
the parent class `show` would deliver the item 2, and the backend log stays
empty. -/
theorem show_instance_reuse_witness :
    ∃ it, (sp_marker_show_instance decimalExtern
        { SPMarker.new with views := [⟨7, [some ⟨1, Translate 1 2, Affine.identity⟩, none]⟩] }
        Drawing.empty (some ⟨2, Affine.identity, Affine.identity⟩) 0 7 0 (Translate 3 4) 2).1
          = some it ∧
      it.id = 1 ∧ it.childTransform = Translate 1 2 ∧
      (sp_marker_show_instance decimalExtern
        { SPMarker.new with views := [⟨7, [some ⟨1, Translate 1 2, Affine.identity⟩, none]⟩] }
        Drawing.empty (some ⟨2, Affine.identity, Affine.identity⟩) 0 7 0 (Translate 3 4) 2).2.2
          = Drawing.empty := by
  obtain ⟨it, h1, h2, _, h4, _⟩ := (show_instance_reuse decimalExtern
    { SPMarker.new with views := [⟨7, [some ⟨1, Translate 1 2, Affine.identity⟩, none]⟩] }
    Drawing.empty (some ⟨2, Affine.identity, Affine.identity⟩) 0 7 0 (Translate 3 4) 2
    (by norm_num)).1 ⟨1, Translate 1 2, Affine.identity⟩ rfl
  exact ⟨it, h1, by rw [h2], by rw [h2], h4⟩


/-! ## The child transform of the cached items -/

theorem viewOf_map_items (f : List (Option DrawingItem) → List (Option DrawingItem))
    (views : List SPMarkerView) (key : Nat) :
    viewOf (views.map (fun v => { v with items := f v.items })) key =
      (viewOf views key).map (fun v => { v with items := f v.items }) := by
  induction views with
  | nil => rfl
  | cons v vs ih =>
    by_cases hk : v.key = key
    · rw [List.map_cons, viewOf_cons_eq v vs key hk,
        viewOf_cons_eq { v with items := f v.items } _ key hk]
      rfl
    · rw [List.map_cons, viewOf_cons_ne v vs key hk,
        viewOf_cons_ne { v with items := f v.items } _ key hk]
      exact ih

theorem slotAt_storeC2p (m : SPMarker) (c : Affine) (key pos : Nat) :
    slotAt (m.storeC2p c).views key pos =
      (slotAt m.views key pos).map (fun g => { g with childTransform := c }) := by
  unfold slotAt SPMarker.storeC2p
  simp only
  rw [viewOf_map_items (fun items => items.map (setChildTransformSlot c))]
  cases viewOf m.views key with
  | none => rfl
  | some v =>
    simp only [Option.map_some', List.getElem?_map]
    cases v.items[pos]? with
    | none => rfl
    | some slot => cases slot <;> rfl

theorem showInstanceAt_created (ext : Extern) (marker : SPMarker) (shown : Option DrawingItem)
    (parent pos : Nat) (base : Affine) (lw : ℚ) (d : Drawing) (v : SPMarkerView)
    (it : DrawingItem) (hempty : (v.items[pos]?).join = none)
    (hit : (showInstanceAt ext marker shown parent pos base lw d v).1 = some it) :
    it.childTransform = marker.c2p ∧ shown.map (fun g => g.id) = some it.id := by
  by_cases hr : pos ≥ v.items.length
  · rw [showInstanceAt_out_of_range ext marker shown parent pos base lw d v hr] at hit
    exact absurd hit (by simp)
  · unfold showInstanceAt at hit
    rw [if_neg hr] at hit
    simp only [hempty] at hit
    cases shown with
    | none => exact absurd hit (by simp)
    | some g =>
      simp only [Option.some.injEq] at hit
      subst hit
      exact ⟨rfl, rfl⟩

/-- C27. After an `SPMarker::update` that yields a marker, the new `c2p` is the
matrix computed from the attribute fields, the views are the old ones with the
child transform of every item replaced by it: every non-empty slot of every view
has the new `c2p` as child transform, under every key the slot reached holds the
item it held with nothing but the child transform changed (same item, same
instance transform), and empty slots stay empty; and an item that a later
`sp_marker_show_instance` call creates for an empty slot, from what the parent
class `show` delivers, gets the `c2p` of the marker as child transform. -/
theorem update_child_transform (ext : Extern) (m m1 : SPMarker) (h : m.update = some m1) :
    fitC2p m.markerWidth.computed m.markerHeight.computed m.viewBox m.aspect_align
        m.aspect_clip m.refX.computed m.refY.computed = some m1.c2p ∧
    m1.views = m.views.map
      (fun v => { v with items := v.items.map (setChildTransformSlot m1.c2p) }) ∧
    (∀ v ∈ m1.views, ∀ g, some g ∈ v.items → g.childTransform = m1.c2p) ∧
    (∀ key pos : Nat, slotAt m1.views key pos =
      (slotAt m.views key pos).map (fun g => { g with childTransform := m1.c2p })) ∧
    (∀ (d : Drawing) (shown : Option DrawingItem) (parent key pos : Nat) (base : Affine) (lw : ℚ)
      (it : DrawingItem), slotAt m1.views key pos = none →
      (sp_marker_show_instance ext m1 d shown parent key pos base lw).1 = some it →
      it.childTransform = m1.c2p ∧ shown.map (fun g => g.id) = some it.id) := by
  rw [update_eq_fit m] at h
  cases hf : fitC2p m.markerWidth.computed m.markerHeight.computed m.viewBox m.aspect_align
      m.aspect_clip m.refX.computed m.refY.computed with
  | none => rw [hf] at h; exact absurd h (by simp)
  | some c =>
    rw [hf, Option.map_some', Option.some.injEq] at h
    subst h
    refine ⟨rfl, rfl, fun v hv g hg => ?_, fun key pos => slotAt_storeC2p m c key pos,
      fun d shown parent key pos base lw it hempty hit => ?_⟩
    · obtain ⟨w, _, hw⟩ := List.mem_map.mp hv
      subst hw
      obtain ⟨slot, _, hs⟩ := List.mem_map.mp hg
      cases slot with
      | none => exact absurd hs (by simp [setChildTransformSlot])
      | some g0 =>
        simp only [setChildTransformSlot, Option.some.injEq] at hs
        subst hs
        rfl
    · by_cases hns : (m.storeC2p c).markerUnits = SP_MARKER_UNITS_STROKEWIDTH ∧ lw = 0
      · unfold sp_marker_show_instance at hit
        rw [if_pos hns] at hit
        exact absurd hit (by simp)
      · unfold sp_marker_show_instance at hit
        rw [if_neg hns] at hit
        cases hv : viewOf (m.storeC2p c).views key with
        | none =>
          rw [showInstanceLoop_no_view _ _ _ _ _ _ _ _ _ _ hv] at hit
          exact absurd hit (by simp)
        | some v =>
          obtain ⟨l1, _, _, _⟩ := showInstanceLoop_at ext (m.storeC2p c) shown parent key pos base
            lw d (m.storeC2p c).views v hv
          have hj : (v.items[pos]?).join = none := by
            simpa only [slotAt, hv] using hempty
          exact showInstanceAt_created ext (m.storeC2p c) shown parent pos base lw d v it hj
            (l1.symm.trans hit)

/-- Witness of C27: a marker of declared size 4 by 4 with reference point (1, 2)
and the item 1 in slot 0 under key 7; after `update` the item has the new `c2p`,
the translation by (-1, -2), as child transform. -/
theorem update_child_transform_witness :
    ∃ m1, ({ SPMarker.sized 4 4 none SP_ASPECT_NONE SP_ASPECT_MEET with
        refX := ⟨true, SVGLength.NONE, 1, 1⟩
        refY := ⟨true, SVGLength.NONE, 2, 2⟩
        views := [⟨7, [some ⟨1, Affine.identity, Translate 5 6⟩, none]⟩] } : SPMarker).update
        = some m1 ∧
      slotAt m1.views 7 0 = some ⟨1, m1.c2p, Translate 5 6⟩ ∧
      slotAt m1.views 7 1 = none := by
  have hu : ({ SPMarker.sized 4 4 none SP_ASPECT_NONE SP_ASPECT_MEET with
        refX := ⟨true, SVGLength.NONE, 1, 1⟩
        refY := ⟨true, SVGLength.NONE, 2, 2⟩
        views := [⟨7, [some ⟨1, Affine.identity, Translate 5 6⟩, none]⟩] } : SPMarker).update
        = some (({ SPMarker.sized 4 4 none SP_ASPECT_NONE SP_ASPECT_MEET with
        refX := ⟨true, SVGLength.NONE, 1, 1⟩
        refY := ⟨true, SVGLength.NONE, 2, 2⟩
        views := [⟨7, [some ⟨1, Affine.identity, Translate 5 6⟩, none]⟩] } : SPMarker).storeC2p
          (Translate (-1) (-2) * Scale 1 1)) := by
    rw [update_eq_fit]
    simp [fitC2p, SPMarker.sized, SPMarker.new, Rect.from_xywh, Rect.ofPoints, Rect.width,
      Rect.height, fdiv, SP_ASPECT_NONE]
  have h := update_child_transform decimalExtern _ _ hu
  exact ⟨_, hu, by rw [h.2.2.2.1 7 0]; rfl, by rw [h.2.2.2.1 7 1]; rfl⟩


/-! ## White space in `CString::onReadContent` -/

theorem preserveLoop_eq (content : List Char) : ∀ string : List Char,
    preserveLoop string content =
      string ++ content.map (fun c => if c = '\n' ∨ c = '\r' ∨ c = '\t' then ' ' else c) := by
  induction content with
  | nil => intro string; simp [preserveLoop]
  | cons c cs ih =>
    intro string
    rw [preserveLoop, ih]
    simp

theorem chain_concat_nonspace (string : List Char) (c : Char) (hc : c ≠ ' ')
    (h : string.Chain' (fun a b => ¬ (a = ' ' ∧ b = ' '))) :
    (string ++ [c]).Chain' (fun a b => ¬ (a = ' ' ∧ b = ' ')) := by
  rw [List.chain'_append]
  refine ⟨h, List.chain'_singleton c, fun x _ y hy => ?_⟩
  simp only [List.head?_cons, Option.mem_def, Option.some.injEq] at hy
  subst hy
  exact fun hxy => hc hxy.2

theorem chain_concat_space (string : List Char) (hlast : string.getLast? ≠ some ' ')
    (h : string.Chain' (fun a b => ¬ (a = ' ' ∧ b = ' '))) :
    (string ++ [' ']).Chain' (fun a b => ¬ (a = ' ' ∧ b = ' ')) := by
  rw [List.chain'_append]
  refine ⟨h, List.chain'_singleton ' ', fun x hx y _ => ?_⟩
  simp only [Option.mem_def] at hx
  exact fun hxy => hlast (by rw [hx, hxy.1])

/-- The default-mode loop keeps this true of `string`: no tab, line feed or
carriage return in it, no two spaces in a row, and no space at its end. -/
theorem defaultLoop_collapsed (hasPrev : Bool) (content : List Char) :
    ∀ (string : List Char) (whitespace : Bool),
      ((∀ x ∈ string, x ≠ '\t' ∧ x ≠ '\n' ∧ x ≠ '\r') ∧
        string.Chain' (fun a b => ¬ (a = ' ' ∧ b = ' ')) ∧ string.getLast? ≠ some ' ') →
      (∀ x ∈ (defaultLoop hasPrev string whitespace content).1, x ≠ '\t' ∧ x ≠ '\n' ∧ x ≠ '\r') ∧
        (defaultLoop hasPrev string whitespace content).1.Chain'
          (fun a b => ¬ (a = ' ' ∧ b = ' ')) ∧
        (defaultLoop hasPrev string whitespace content).1.getLast? ≠ some ' ' := by
  induction content with
  | nil => exact fun string whitespace h => h
  | cons c cs ih =>
    intro string whitespace h
    obtain ⟨h1, h2, h3⟩ := h
    unfold defaultLoop
    by_cases hnl : c = '\n' ∨ c = '\r'
    · rw [if_pos hnl]
      exact ih string whitespace ⟨h1, h2, h3⟩
    · rw [if_neg hnl]
      by_cases hsp : c = ' ' ∨ c = '\t'
      · rw [if_pos hsp]
        exact ih string true ⟨h1, h2, h3⟩
      · rw [if_neg hsp]
        have hc : c ≠ '\t' ∧ c ≠ '\n' ∧ c ≠ '\r' :=
          ⟨fun e => hsp (Or.inr e), fun e => hnl (Or.inl e), fun e => hnl (Or.inr e)⟩
        have hcs : c ≠ ' ' := fun e => hsp (Or.inl e)
        apply ih
        by_cases hw : whitespace = true ∧ (string ≠ [] ∨ hasPrev = true)
        · rw [if_pos hw]
          refine ⟨fun x hx => ?_, chain_concat_nonspace _ c hcs (chain_concat_space _ h3 h2), ?_⟩
          · simp only [List.mem_append, List.mem_singleton] at hx
            rcases hx with (hx | hx) | hx
            · exact h1 x hx
            · rw [hx]; decide
            · rw [hx]; exact hc
          · rw [List.getLast?_concat]
            exact fun e => hcs (Option.some.inj e)
        · rw [if_neg hw]
          refine ⟨fun x hx => ?_, chain_concat_nonspace _ c hcs h2, ?_⟩
          · simp only [List.mem_append, List.mem_singleton] at hx
            rcases hx with hx | hx
            · exact h1 x hx
            · rw [hx]; exact hc
          · rw [List.getLast?_concat]
            exact fun e => hcs (Option.some.inj e)

/-- C29. In every mode other than preserve, for every content, whether or not
the text node has a previous sibling or a next node, the `string` that
`CString::onReadContent` builds holds no tab, line feed or carriage return and
no two spaces in a row; in preserve mode it is the content with every tab, line
feed and carriage return replaced by one space and every other character kept,
so it has as many characters as the content. -/
theorem onReadContent_whitespace (s : SPString) (hasPrev hasNext : Bool) (content : List Char) :
    (s.xml_space ≠ SP_XML_SPACE_PRESERVE →
      (∀ x ∈ (CString.onReadContent s hasPrev hasNext content).string,
        x ≠ '\t' ∧ x ≠ '\n' ∧ x ≠ '\r') ∧
      (CString.onReadContent s hasPrev hasNext content).string.Chain'
        (fun a b => ¬ (a = ' ' ∧ b = ' '))) ∧
    (s.xml_space = SP_XML_SPACE_PRESERVE →
      (CString.onReadContent s hasPrev hasNext content).string =
        content.map (fun c => if c = '\n' ∨ c = '\r' ∨ c = '\t' then ' ' else c) ∧
      (CString.onReadContent s hasPrev hasNext content).string.length = content.length) := by
  constructor
  · intro hmode
    obtain ⟨h1, h2, h3⟩ := defaultLoop_collapsed hasPrev content [] false
      ⟨fun x hx => absurd hx (List.not_mem_nil x), List.chain'_nil, by simp⟩
    unfold CString.onReadContent
    simp only [if_neg hmode]
    by_cases hend : (defaultLoop hasPrev [] false content).2 = true ∧ hasNext = true
    · rw [if_pos hend]
      refine ⟨fun x hx => ?_, chain_concat_space _ h3 h2⟩
      simp only [List.mem_append, List.mem_singleton] at hx
      rcases hx with hx | hx
      · exact h1 x hx
      · rw [hx]; decide
    · rw [if_neg hend]
      exact ⟨h1, h2⟩
  · intro hmode
    have e : (CString.onReadContent s hasPrev hasNext content).string =
        content.map (fun c => if c = '\n' ∨ c = '\r' ∨ c = '\t' then ' ' else c) := by
      unfold CString.onReadContent
      simp only [if_pos hmode]
      rw [preserveLoop_eq]
      rfl
    exact ⟨e, by rw [e, List.length_map]⟩

/-- Witness of C29: the content ` a`, tab, line feed, ` b  ` of a text node
without previous sibling and with a next node gives `a b ` in default mode, and
eight characters, the tab and the line feed as spaces, in preserve mode. -/
theorem onReadContent_whitespace_witness :
    (CString.onReadContent ⟨[], SP_XML_SPACE_DEFAULT, []⟩ false true " a\t\n b  ".toList).string =
      "a b ".toList ∧
    (CString.onReadContent ⟨[], SP_XML_SPACE_DEFAULT, []⟩ false true
      " a\t\n b  ".toList).string.Chain' (fun a b => ¬ (a = ' ' ∧ b = ' ')) ∧
    (CString.onReadContent ⟨[], SP_XML_SPACE_PRESERVE, []⟩ false true " a\t\n b  ".toList).string =
      " a   b  ".toList :=
  ⟨by decide,
   ((onReadContent_whitespace ⟨[], SP_XML_SPACE_DEFAULT, []⟩ false true " a\t\n b  ".toList).1
      (by decide)).2,
   ((onReadContent_whitespace ⟨[], SP_XML_SPACE_PRESERVE, []⟩ false true " a\t\n b  ".toList).2
      rfl).1.trans (by decide)⟩


/-! ## The segment count of `PovOutput::doCurve` -/

/-- C30, at a shape with one open subpath, a single line from (0, 0) to (1, 0):
`segmentCount` is 1, so the prism declares 4 points and `nrSegments` grows by 1,
but the loop, which runs to `end_closed()`, writes two segments, numbered 0 and
1, the drawn line and the closing segment; `nrNodes` grows by 16, and no comma
is written, each of the two segments is followed by a bare line end. -/
theorem doCurve_open_subpath :
    (PovOutput.new.doCurve (some openLine) "shape").1 = true ∧
    segmentCountOf openLine.pathv = 1 ∧
    (PovOutput.new.doCurve (some openLine) "shape").2.nrSegments = 1 ∧
    ((PovOutput.new.doCurve (some openLine) "shape").2.outbuf.filter
      (fun o => o.fmt = "    %d //nr points\n")).map Out.intArgs = [[4]] ∧
    (segmentLines (PovOutput.new.doCurve (some openLine) "shape").2.outbuf).map Out.intArgs =
      [[0], [1]] ∧
    (PovOutput.new.doCurve (some openLine) "shape").2.nrNodes = 16 ∧
    (formats (PovOutput.new.doCurve (some openLine) "shape").2.outbuf).drop 9 =
      ["    /*%4d*/ ", "<%s, %s>", ", ", "<%s, %s>", ", ", "<%s, %s>", ", ", "<%s, %s>", "\n",
        "    /*%4d*/ ", "<%s, %s>", ", ", "<%s, %s>", ", ", "<%s, %s>", ", ", "<%s, %s>", "\n",
        "\x7d\n", "#declare %s_MIN_X    = %s;\n", "#declare %s_CENTER_X = %s;\n",
        "#declare %s_MAX_X    = %s;\n", "#declare %s_WIDTH    = %s;\n",
        "#declare %s_MIN_Y    = %s;\n", "#declare %s_CENTER_Y = %s;\n",
        "#declare %s_MAX_Y    = %s;\n", "#declare %s_HEIGHT   = %s;\n",
        "/*###################################################\n", "### end %s\n",
        "###################################################*/\n\n\n\n"] := by
  refine ⟨?_, ?_, ?_, ?_, ?_, ?_, ?_⟩
  · decide
  · decide
  · decide
  · decide
  · decide
  · decide
  · decide


/-! ## The rounding to the nearest double

`roundToDouble` fixes 0, is odd, yields a number `m * 2^e` with `m ≤ 2^53` and
`e ≥ -1074`, and fixes every such number: rounding a double again changes
nothing. -/

theorem readViewBoxR_id (ext : Extern) (value : Option (List Char)) :
    readViewBoxR id ext value = readViewBox ext value := by
  cases value <;> rfl

/-- With the identity as rounding, `updateR` is `update`. -/
theorem updateR_id (m : SPMarker) : m.updateR id = m.update := by
  have hv : m.viewportR id = m.viewport := by
    simp [SPMarker.viewportR, SPMarker.viewport, Rect.from_xywhR, Rect.from_xywh]
  have hvb : m.vbR id = m.vb := by
    unfold SPMarker.vbR SPMarker.vb
    rw [hv]
  have hm : ∀ a b : Affine, Affine.mulR id a b = a * b := fun a b => rfl
  unfold SPMarker.updateR SPMarker.update
  simp only [hv, hvb, hm, Rect.widthR, Rect.heightR, fdivR, fdiv, id, Rect.width, Rect.height]

/-- With non-zero divisors `updateR` succeeds, and its `c2p` is the reference
translation times the scale by the two quotients the method computes last. -/
theorem updateR_of_divisors (rnd : ℚ → ℚ) (m : SPMarker)
    (hw : (m.vbR rnd).widthR rnd ≠ 0) (hh : (m.vbR rnd).heightR rnd ≠ 0) :
    m.updateR rnd = some (m.storeC2p
      (Affine.mulR rnd (Translate (-m.refX.computed) (-m.refY.computed))
        (if m.aspect_align = SP_ASPECT_NONE then
          Scale (rnd ((m.viewportR rnd).widthR rnd / (m.vbR rnd).widthR rnd))
            (rnd ((m.viewportR rnd).heightR rnd / (m.vbR rnd).heightR rnd))
        else if m.aspect_clip = SP_ASPECT_MEET then
          Scale
            (rnd (rnd ((m.vbR rnd).widthR rnd *
              MIN (rnd ((m.viewportR rnd).widthR rnd / (m.vbR rnd).widthR rnd))
                (rnd ((m.viewportR rnd).heightR rnd / (m.vbR rnd).heightR rnd))) /
              (m.vbR rnd).widthR rnd))
            (rnd (rnd ((m.vbR rnd).heightR rnd *
              MIN (rnd ((m.viewportR rnd).widthR rnd / (m.vbR rnd).widthR rnd))
                (rnd ((m.viewportR rnd).heightR rnd / (m.vbR rnd).heightR rnd))) /
              (m.vbR rnd).heightR rnd))
        else
          Scale
            (rnd (rnd ((m.vbR rnd).widthR rnd *
              MAX (rnd ((m.viewportR rnd).widthR rnd / (m.vbR rnd).widthR rnd))
                (rnd ((m.viewportR rnd).heightR rnd / (m.vbR rnd).heightR rnd))) /
              (m.vbR rnd).widthR rnd))
            (rnd (rnd ((m.vbR rnd).heightR rnd *
              MAX (rnd ((m.viewportR rnd).widthR rnd / (m.vbR rnd).widthR rnd))
                (rnd ((m.viewportR rnd).heightR rnd / (m.vbR rnd).heightR rnd))) /
              (m.vbR rnd).heightR rnd))))) := by
  by_cases ha : m.aspect_align = SP_ASPECT_NONE
  · simp [SPMarker.updateR, ha, fdivR, hw, hh]
  · by_cases hc : m.aspect_clip = SP_ASPECT_MEET
    · simp [SPMarker.updateR, ha, hc, fdivR, hw, hh]
    · simp [SPMarker.updateR, ha, hc, fdivR, hw, hh]


theorem vbR_of_viewBox (rnd : ℚ → ℚ) (m : SPMarker) (box : Rect) (h : m.viewBox = some box) :
    m.vbR rnd = box := by
  simp [SPMarker.vbR, h]

/-- C1, counterexample. In double arithmetic: with the declared size -200 x 100,
the viewBox (0,0,50,50) and aspect_align none the scale part of `c2p` is (4, 2),
while markerWidth / viewBox.width is -4; with the declared size 1 x 1, the
viewBox (0,0,3,5) and xMidYMid meet the scale part is
(0.20000000000000004, 0.2), the second being the double nearest to
min (1/3, 1/5): the scale is not uniform; and after
`set (SP_ATTR_VIEWBOX, "100000000000000000000 0 1 1")` a viewBox is set whose
width, as `update` computes it, is 0, so that `update` divides by zero and yields
no scale. -/
theorem update_scale_counterexample :
    (SPMarker.sized (-200) 100 (some ⟨0, 0, 50, 50⟩) SP_ASPECT_NONE
        SP_ASPECT_MEET).scalePartR roundToDouble = some (4, 2) ∧
    (-200 : ℚ) / Rect.width ⟨0, 0, 50, 50⟩ = -4 ∧
    (SPMarker.sized 1 1 (some ⟨0, 0, 3, 5⟩) SP_ASPECT_XMID_YMID
        SP_ASPECT_MEET).scalePartR roundToDouble =
      some (7205759403792795 / 36028797018963968, 3602879701896397 / 18014398509481984) ∧
    roundToDouble (min ((1 : ℚ) / 3) (1 / 5)) = 3602879701896397 / 18014398509481984 ∧
    (7205759403792795 : ℚ) / 36028797018963968 ≠ 3602879701896397 / 18014398509481984 ∧
    (SPMarker.new.setR roundToDouble decimalExtern SP_ATTR_VIEWBOX
        (some "100000000000000000000 0 1 1".toList)).viewBox ≠ none ∧
    (SPMarker.new.setR roundToDouble decimalExtern SP_ATTR_VIEWBOX
        (some "100000000000000000000 0 1 1".toList)).scalePartR roundToDouble = none := by
  refine ⟨?_, ?_, ?_, ?_, ?_, ?_, ?_⟩ <;> decide!

/-- C1, amended. For every marker whose viewBox is set and every declared size,
as long as the width and the height of the viewBox, as `update` computes them,
are not zero, `update` gives `c2p` the value
`Translate(-refX, -refY) * Scale(sx, sy)`, where `scaleX` is the width of the
viewport rectangle divided by the width of the viewBox, `scaleY` the same for
the heights, and: when aspect_align is none, `(sx, sy) = (scaleX, scaleY)`;
otherwise, with `s = MIN(scaleX, scaleY)` for meet and `s = MAX(scaleX, scaleY)`
for every other clip value (slice),
`sx = (viewBox.width * s) / viewBox.width` and
`sy = (viewBox.height * s) / viewBox.height`, every operation rounded.  In exact
arithmetic the width and the height of the viewport are the absolute values of
markerWidth and markerHeight, and `sx = sy = s`. -/
theorem update_scale_part (m : SPMarker) (box : Rect) (hbox : m.viewBox = some box) :
    (∀ rnd : ℚ → ℚ, box.widthR rnd ≠ 0 → box.heightR rnd ≠ 0 →
      ∃ m1, m.updateR rnd = some m1 ∧
        m1.c2p = Affine.mulR rnd (Translate (-m.refX.computed) (-m.refY.computed))
          (if m.aspect_align = SP_ASPECT_NONE then
            Scale (m.scaleXR rnd box) (m.scaleYR rnd box)
          else if m.aspect_clip = SP_ASPECT_MEET then
            Scale
              (rnd (rnd (box.widthR rnd * MIN (m.scaleXR rnd box) (m.scaleYR rnd box)) /
                box.widthR rnd))
              (rnd (rnd (box.heightR rnd * MIN (m.scaleXR rnd box) (m.scaleYR rnd box)) /
                box.heightR rnd))
          else
            Scale
              (rnd (rnd (box.widthR rnd * MAX (m.scaleXR rnd box) (m.scaleYR rnd box)) /
                box.widthR rnd))
              (rnd (rnd (box.heightR rnd * MAX (m.scaleXR rnd box) (m.scaleYR rnd box)) /
                box.heightR rnd)))) ∧
    (box.width ≠ 0 → box.height ≠ 0 →
      ∃ m1, m.update = some m1 ∧
        m1.c2p = Translate (-m.refX.computed) (-m.refY.computed) *
          (if m.aspect_align = SP_ASPECT_NONE then
            Scale (|m.markerWidth.computed| / box.width) (|m.markerHeight.computed| / box.height)
          else if m.aspect_clip = SP_ASPECT_MEET then
            Scale
              (min (|m.markerWidth.computed| / box.width) (|m.markerHeight.computed| / box.height))
              (min (|m.markerWidth.computed| / box.width) (|m.markerHeight.computed| / box.height))
          else
            Scale
              (max (|m.markerWidth.computed| / box.width) (|m.markerHeight.computed| / box.height))
              (max (|m.markerWidth.computed| / box.width)
                (|m.markerHeight.computed| / box.height)))) := by
  constructor
  · intro rnd hw hh
    have hvb : m.vbR rnd = box := vbR_of_viewBox rnd m box hbox
    have h := updateR_of_divisors rnd m (by rw [hvb]; exact hw) (by rw [hvb]; exact hh)
    rw [hvb] at h
    exact ⟨_, h, rfl⟩
  · intro hw hh
    have hvb : m.vb = box := vb_of_viewBox m box hbox
    obtain ⟨m1, h1, h2⟩ := update_of_divisors m (by rw [hvb]; exact hw) (by rw [hvb]; exact hh)
    refine ⟨m1, h1, ?_⟩
    rw [h2]
    simp only [SPMarker.fitScale, hvb, viewport_width, viewport_height]
    split_ifs <;> rfl

/-- Witness of C1 (amended): the two examples of the specification in double
arithmetic.  Declared size 200x100 with viewBox (0,0,50,50) and xMidYMid meet
gives the scale 2; declared size 200x50 with the same viewBox and slice gives
the scale 4. -/
theorem update_scale_part_witness :
    (∃ m1, (SPMarker.sized 200 100 (some ⟨0, 0, 50, 50⟩) SP_ASPECT_XMID_YMID
        SP_ASPECT_MEET).updateR roundToDouble = some m1 ∧ m1.c2p = Scale 2 2) ∧
    (∃ m1, (SPMarker.sized 200 50 (some ⟨0, 0, 50, 50⟩) SP_ASPECT_XMID_YMID
        SP_ASPECT_SLICE).updateR roundToDouble = some m1 ∧ m1.c2p = Scale 4 4) := by
  constructor
  · obtain ⟨m1, h1, h2⟩ := (update_scale_part
      (SPMarker.sized 200 100 (some ⟨0, 0, 50, 50⟩) SP_ASPECT_XMID_YMID SP_ASPECT_MEET)
      ⟨0, 0, 50, 50⟩ rfl).1 roundToDouble (by decide!) (by decide!)
    exact ⟨m1, h1, h2.trans (by decide!)⟩
  · obtain ⟨m1, h1, h2⟩ := (update_scale_part
      (SPMarker.sized 200 50 (some ⟨0, 0, 50, 50⟩) SP_ASPECT_XMID_YMID SP_ASPECT_SLICE)
      ⟨0, 0, 50, 50⟩ rfl).1 roundToDouble (by decide!) (by decide!)
    exact ⟨m1, h1, h2.trans (by decide!)⟩


/-- The rounding to the nearest double at some known values: 0.1, 1/3, 0.2, and
1e20 + 1, which is rounded to 1e20. -/
theorem roundToDouble_samples :
    roundToDouble 0 = 0 ∧ roundToDouble 1 = 1 ∧ roundToDouble (-200) = -200 ∧
    roundToDouble (1 / 10) = 3602879701896397 / 36028797018963968 ∧
    roundToDouble (1 / 3) = 6004799503160661 / 18014398509481984 ∧
    roundToDouble (1 / 5) = 3602879701896397 / 18014398509481984 ∧
    roundToDouble (100000000000000000000 + 1) = 100000000000000000000 := by
  refine ⟨?_, ?_, ?_, ?_, ?_, ?_, ?_⟩ <;> decide!

end Marker
